import Mathlib

/-!
# CoreFAPI: session-backed authentication

A shallow embedding of the Go sources of the CoreFAPI backend (user entity,
session repository over Redis, authentication use case) together with
theorems relating the written specification to the code.

Conventions of the embedding

* A Go `string` holding valid UTF-8 is a Lean `String`; algorithms walk over
  its list of code points (`String.data`).  Byte offsets of Go become code
  point offsets; every slice taken by the code is cut at an ASCII character,
  so both views select the same substring.
* A Go `error` is a value of `GoError`; `nil` is `none` in `Option GoError`.
* A Go function returning `(T, error)` returns a pair in Lean.
* Calls into libraries that live outside the repository (the Redis client,
  bcrypt, the Unicode case tables) are modelled separately and named after
  the library function.
-/

namespace CoreFAPI

/-! ## Errors (`pkg/error/error.go`) -/

/-- Go `error` values.  The first group are the sentinels declared in
`pkg/error/error.go`; `DeadlineExceeded` is `context.DeadlineExceeded`;
`errorf` is a fresh value built by `fmt.Errorf`; `external` is an error value
produced by a library or collaborator outside the repository; `wrap` is an
error that wraps another one (as `fmt.Errorf` does under the verb `%w`); the
repository joins no errors, so an error wraps at most one other. -/
inductive GoError where
  | ErrUserAlreadyExists
  | ErrUserNotFound
  | ErrInvalidPassword
  | ErrModeSearch
  | ErrNoSessionID
  | ErrNoUserID
  | ErrSessionNotFound
  | ErrSessionExpired
  | ErrIdsNotMatch
  | ErrNotUuid
  | ErrIncorrectUuid
  | ErrTypeConversion
  | DeadlineExceeded
  | errorf (msg : String)
  | external (msg : String)
  | wrap (msg : String) (inner : GoError)
  deriving DecidableEq, Repr

/-- Method `Error()` of an error value: its message.  The messages of the
sentinels are those of `pkg/error/error.go`. -/
def GoError.Error : GoError → String
  | .ErrUserAlreadyExists => "user with this email or phone number already exists"
  | .ErrUserNotFound => "user not found"
  | .ErrInvalidPassword => "invalid password"
  | .ErrModeSearch => "incorrect user search mode"
  | .ErrNoSessionID => "failed to get session id from context"
  | .ErrNoUserID => "failed to get user id from context"
  | .ErrSessionNotFound => "session not found"
  | .ErrSessionExpired => "session (cookies) expired"
  | .ErrIdsNotMatch =>
    "user id from the query data does not match the id from the session"
  | .ErrNotUuid => "uuid is required"
  | .ErrIncorrectUuid => "incorrect uuid format"
  | .ErrTypeConversion => "type conversion error"
  | .DeadlineExceeded => "context deadline exceeded"
  | .errorf msg => msg
  | .external msg => msg
  | .wrap msg _ => msg

/-- Go `errors.Is(err, target)`: `err` or an error it wraps is `target`. -/
def errorsIs : GoError → GoError → Bool
  | .wrap msg inner, target =>
    decide (GoError.wrap msg inner = target) || errorsIs inner target
  | err, target => decide (err = target)

/-- The innermost error of a chain of wrapped errors. -/
def GoError.root : GoError → GoError
  | .wrap _ inner => inner.root
  | err => err

/-- An error that comes from a library outside the repository: at the bottom
of its chain is an error value of a library or `context.DeadlineExceeded`,
not a sentinel of `pkg/error/error.go`. -/
def GoError.fromLibrary (err : GoError) : Bool :=
  match err.root with
  | .external _ => true
  | .DeadlineExceeded => true
  | _ => false

/-! ## User entity (`internal/entity/user.go`) -/

/-- The struct `entity.User`. -/
structure User where
  UUID : String
  FirstName : String
  LastName : String
  UserName : String
  Email : String
  Phone : Option String
  PasswordHash : String
  Roles : List String
  deriving DecidableEq, Repr

/-- The struct `entity.UserBuilder`; the pointer to the user under
construction is the user value itself. -/
structure UserBuilder where
  u : User
  deriving DecidableEq, Repr

/-- The zero value of `entity.User`. -/
def User.zero : User :=
  { UUID := "", FirstName := "", LastName := "", UserName := "", Email := "",
    Phone := none, PasswordHash := "", Roles := [] }

/-- Constructor `NewUserBuilder`. -/
def NewUserBuilder : UserBuilder := { u := User.zero }

/-- The part of the Unicode case tables the Go runtime consults for runes
above `MaxASCII`; the tables are not part of the repository and are taken as
a parameter. -/
structure CaseTables where
  upper : Char → Char
  lower : Char → Char

/-- Go `unicode.ToUpper`: ASCII is handled inline, everything else goes
through the case tables. -/
def unicodeToUpper (tbl : CaseTables) (r : Char) : Char :=
  if r.toNat ≤ 127 then
    if 97 ≤ r.toNat ∧ r.toNat ≤ 122 then Char.ofNat (r.toNat - 32) else r
  else tbl.upper r

/-- Go `unicode.ToLower`: ASCII is handled inline, everything else goes
through the case tables. -/
def unicodeToLower (tbl : CaseTables) (r : Char) : Char :=
  if r.toNat ≤ 127 then
    if 65 ≤ r.toNat ∧ r.toNat ≤ 90 then Char.ofNat (r.toNat + 32) else r
  else tbl.lower r

/-- Membership in the class `[a-zA-Z0-9]`, whose complement is the regular
expression of `WithUserName`. -/
def isAlnumASCII (c : Char) : Bool :=
  (97 ≤ c.toNat && c.toNat ≤ 122) || (65 ≤ c.toNat && c.toNat ≤ 90) ||
    (48 ≤ c.toNat && c.toNat ≤ 57)

/-- Loop of Go `strings.IndexByte`: position of the first occurrence of `c`
counted from `i`, or `-1`. -/
def stringsIndexByteFrom (c : Char) : List Char → Nat → Int
  | [], _ => -1
  | x :: xs, i => if x = c then (i : Int) else stringsIndexByteFrom c xs (i + 1)

/-- Go `strings.IndexByte(s, c)`. -/
def stringsIndexByte (s : List Char) (c : Char) : Int :=
  stringsIndexByteFrom c s 0

/-- Scanner behind `regexp.MustCompile("[^a-zA-Z0-9]+").Split(s, -1)`.
`cur` is the piece being collected (reversed) and `inMatch` tells whether the
scanner is inside a match of the expression; a match is extended greedily, so
it covers a maximal run of characters outside the class. -/
def regexpSplitScan : List Char → List Char → Bool → List (List Char)
  | [], cur, _ => [cur.reverse]
  | c :: cs, cur, inMatch =>
    if isAlnumASCII c then regexpSplitScan cs (c :: cur) false
    else if inMatch then regexpSplitScan cs cur true
    else cur.reverse :: regexpSplitScan cs [] true

/-- The call `re.Split(username, -1)` of `WithUserName`: the substrings
between the matches, empty ones at the ends included. -/
def regexpSplit (s : List Char) : List (List Char) :=
  regexpSplitScan s [] false

/-- Body of the `for _, part := range parts` loop of `WithUserName`: `sb` is
the contents of the string builder. -/
def withUserNameStep (tbl : CaseTables) (sb : List Char) (part : List Char) : List Char :=
  if part = [] then sb
  else
    match part with
    | [] => sb
    | r0 :: rest =>
      (sb ++ [unicodeToUpper tbl r0]) ++ rest.map (unicodeToLower tbl)

/-- Method `UserBuilder.WithUserName`. -/
def UserBuilder.WithUserName (tbl : CaseTables) (b : UserBuilder) (email : String) :
    UserBuilder :=
  if email = "" then { b with u := { b.u with UserName := "" } }
  else
    let atIndex := stringsIndexByte email.data '@'
    let username : List Char :=
      if atIndex = -1 then email.data else email.data.take atIndex.toNat
    let parts := regexpSplit username
    let sb := parts.foldl (withUserNameStep tbl) []
    { b with u := { b.u with UserName := String.mk sb } }

/-- Method `UserBuilder.WithUUID`. -/
def UserBuilder.WithUUID (b : UserBuilder) (uuid : String) : UserBuilder :=
  { b with u := { b.u with UUID := uuid } }

/-- Method `UserBuilder.WithFirstName`. -/
def UserBuilder.WithFirstName (b : UserBuilder) (firstName : String) : UserBuilder :=
  { b with u := { b.u with FirstName := firstName } }

/-- Method `UserBuilder.WithLastName`. -/
def UserBuilder.WithLastName (b : UserBuilder) (lastName : String) : UserBuilder :=
  { b with u := { b.u with LastName := lastName } }

/-- Method `UserBuilder.WithEmail`. -/
def UserBuilder.WithEmail (b : UserBuilder) (email : String) : UserBuilder :=
  { b with u := { b.u with Email := email } }

/-- Method `UserBuilder.WithPhone`: the field holds a pointer to the given
string. -/
def UserBuilder.WithPhone (b : UserBuilder) (phone : String) : UserBuilder :=
  { b with u := { b.u with Phone := some phone } }

/-- Method `UserBuilder.WithPassword`. -/
def UserBuilder.WithPassword (b : UserBuilder) (hashedPassword : String) : UserBuilder :=
  { b with u := { b.u with PasswordHash := hashedPassword } }

/-- Method `UserBuilder.WithRoles`. -/
def UserBuilder.WithRoles (b : UserBuilder) (roles : List String) : UserBuilder :=
  { b with u := { b.u with Roles := roles } }

/-- Method `UserBuilder.Build`. -/
def UserBuilder.Build (b : UserBuilder) : User := b.u

/-! ### The user name as the specification words it -/

/-- Specification: the part of the email before the first `@` (all of it when
there is none). -/
def specLocalPart (email : List Char) : List Char :=
  email.takeWhile (fun c => c != '@')

/-- Specification: the non-empty segments left after splitting at the
characters outside `[a-zA-Z0-9]`. -/
def specSegments (s : List Char) : List (List Char) :=
  (s.splitOnP (fun c => !isAlnumASCII c)).filter (fun seg => !seg.isEmpty)

/-- Specification: first character upper-cased, the remaining ones
lower-cased. -/
def specCapitalize (tbl : CaseTables) : List Char → List Char
  | [] => []
  | c :: cs => unicodeToUpper tbl c :: cs.map (unicodeToLower tbl)

/-- Specification of the derived user name. -/
def specUserName (tbl : CaseTables) (email : String) : String :=
  String.mk ((specSegments (specLocalPart email.data)).map (specCapitalize tbl)).flatten

/-! ## Data transfer objects (`internal/dto/dto.go`) -/

/-- The struct `dto.SessionPayload`: the data of an active session. -/
structure SessionPayload where
  UserUUID : String
  UserName : String
  UserRoles : List String
  deriving DecidableEq, Repr

/-- The struct `dto.RegisterRequest`. -/
structure RegisterRequest where
  FirstName : String
  LastName : String
  Email : String
  Password : String
  Phone : String
  deriving DecidableEq, Repr

/-- The struct `dto.RegisterResponce`. -/
structure RegisterResponce where
  UUID : String
  deriving DecidableEq, Repr

/-- The struct `dto.UpdateRequest`. -/
structure UpdateRequest where
  FirstName : String
  LastName : String
  Email : String
  Password : String
  Phone : String
  deriving DecidableEq, Repr

/-- The struct `dto.LoginRequest`. -/
structure LoginRequest where
  Email : String
  Password : String
  deriving DecidableEq, Repr

/-- The struct `dto.LoginResponce`. -/
structure LoginResponce where
  SessionID : String
  deriving DecidableEq, Repr

/-- The struct `dto.UserRequest`: search by id or by email. -/
structure UserRequest where
  Mode : String
  Email : String
  ID : String
  deriving DecidableEq, Repr

/-! ## Go `strings` helpers used by the session repository -/

/-- Go `strings.Join(elems, sep)`. -/
def stringsJoin (elems : List String) (sep : String) : String :=
  match elems with
  | [] => ""
  | [e] => e
  | e :: rest => String.mk (rest.foldl (fun b s => b ++ sep.data ++ s.data) e.data)

/-- Scanner of Go `strings.Split` for a one-character separator: `cur` is the
piece being collected (reversed). -/
def stringsSplitScan (sep : Char) : List Char → List Char → List (List Char)
  | [], cur => [cur.reverse]
  | c :: cs, cur =>
    if c = sep then cur.reverse :: stringsSplitScan sep cs []
    else stringsSplitScan sep cs (c :: cur)

/-- Go `strings.Split(s, sep)` for a one-character separator. -/
def stringsSplit (s : String) (sep : Char) : List String :=
  (stringsSplitScan sep s.data []).map String.mk

/-! ## The Redis server and client (external; `pkg/db/redis/connect.go` holds
the handle) -/

/-- A Redis hash: field and value pairs, one pair per field.  It is also the
`map[string]string` that `HGetAll` hands back. -/
abbrev RedisHash := List (String × String)

/-- One key of the Redis keyspace holding a hash, with the remaining time to
live in seconds (`none`: the key never expires). -/
structure RedisEntry where
  fields : RedisHash
  ttl : Option Int
  deriving DecidableEq, Repr

/-- The Redis keyspace: a map from key to hash. -/
abbrev RedisStore := String → Option RedisEntry

/-- The keyspace with no key. -/
def RedisStore.empty : RedisStore := fun _ => none

/-- A failure of one Redis command as the client reports it: the error, and
whether the server had executed the command before the failure. -/
structure Fault where
  err : GoError
  applied : Bool
  deriving DecidableEq, Repr

/-- A failure of a Redis read as the client reports it: the value decoded so
far (`none` is the `nil` map) and the error. -/
structure ReadFault where
  val : Option RedisHash
  err : GoError
  deriving DecidableEq, Repr

/-- Setting one field of a hash: an existing field is overwritten in place,
a new one is added. -/
def hashSet : RedisHash → String → String → RedisHash
  | [], f, v => [(f, v)]
  | (g, w) :: rest, f, v => if g = f then (f, v) :: rest else (g, w) :: hashSet rest f v

/-- Setting several fields of a hash, in the order given. -/
def hashSetAll (h : RedisHash) (pairs : List (String × String)) : RedisHash :=
  pairs.foldl (fun h p => hashSet h p.1 p.2) h

/-- Effect of `HSET key f1 v1 f2 v2 ...` on the keyspace: the hash is created
when absent, and the time to live of an existing key is kept. -/
def hsetApply (st : RedisStore) (key : String) (pairs : List (String × String)) :
    RedisStore :=
  fun k =>
    if k = key then
      match st key with
      | some e => some { e with fields := hashSetAll e.fields pairs }
      | none => some { fields := hashSetAll [] pairs, ttl := none }
    else st k

/-- Client call `Client.HSet(ctx, key, pairs...)` followed by `.Err()`. -/
def redisHSet (st : RedisStore) (key : String) (pairs : List (String × String))
    (fault : Option Fault) : RedisStore × Option GoError :=
  match fault with
  | none => (hsetApply st key pairs, none)
  | some f => (if f.applied then hsetApply st key pairs else st, some f.err)

/-- Effect of `EXPIRE key seconds` on the keyspace: a missing key is left
alone, a non-positive timeout deletes the key, otherwise the time to live is
set. -/
def expireApply (st : RedisStore) (key : String) (seconds : Int) : RedisStore :=
  fun k =>
    if k = key then
      match st key with
      | some e => if seconds ≤ 0 then none else some { e with ttl := some seconds }
      | none => none
    else st k

/-- Client call `Client.Expire(ctx, key, ttl)` followed by `.Err()`. -/
def redisExpire (st : RedisStore) (key : String) (seconds : Int)
    (fault : Option Fault) : RedisStore × Option GoError :=
  match fault with
  | none => (expireApply st key seconds, none)
  | some f => (if f.applied then expireApply st key seconds else st, some f.err)

/-- Client call `Client.HGetAll(ctx, key).Result()`: all fields of the hash,
the empty map when the key is missing. -/
def redisHGetAll (st : RedisStore) (key : String) (fault : Option ReadFault) :
    Option RedisHash × Option GoError :=
  match fault with
  | none =>
    match st key with
    | some e => (some e.fields, none)
    | none => (some [], none)
  | some f => (f.val, some f.err)

/-- Effect of `DEL key` on the keyspace. -/
def delApply (st : RedisStore) (key : String) : RedisStore :=
  fun k => if k = key then none else st k

/-- Client call `Client.Del(ctx, key).Result()`: the number of keys removed
and the error. -/
def redisDel (st : RedisStore) (key : String) (fault : Option Fault) :
    RedisStore × (Int × Option GoError) :=
  match fault with
  | none => (delApply st key, (if (st key).isSome then 1 else 0, none))
  | some f => (if f.applied then delApply st key else st, (0, some f.err))

/-! ## Session repository (`internal/adapters/repository/sessionsRepo`) -/

/-- The struct `SessionsRepo`: of the Redis handle only the configured time
to live (`TTLKeys`, in seconds) is data; the keyspace is passed explicitly. -/
structure SessionsRepo where
  TTLKeys : Int
  deriving DecidableEq, Repr

/-- The field and value arguments of the `HSet` call of `CreateSession`. -/
def sessionPairs (payload : SessionPayload) : List (String × String) :=
  [("user_id", payload.UserUUID),
   ("user_name", payload.UserName),
   ("user_roles", stringsJoin payload.UserRoles ",")]

/-- Method `SessionsRepo.CreateSession`.  `fHSet` and `fExpire` are the
failures, if any, of its two Redis commands. -/
def SessionsRepo.CreateSession (r : SessionsRepo) (st : RedisStore)
    (payload : SessionPayload) (fHSet fExpire : Option Fault) :
    RedisStore × (String × Option GoError) :=
  let sessionID := payload.UserUUID
  let (st1, err) := redisHSet st sessionID
    [("user_id", payload.UserUUID),
     ("user_name", payload.UserName),
     ("user_roles", stringsJoin payload.UserRoles ",")] fHSet
  match err with
  | some e => (st1, ("", some e))
  | none =>
    let (st2, err2) := redisExpire st1 sessionID r.TTLKeys fExpire
    match err2 with
    | some e => (st2, ("", some e))
    | none => (st2, (sessionID, none))

/-- The part of `SessionsRepo.GetSession` after the Redis read: `result` and
`err` are what `HGetAll(...).Result()` returned. -/
def SessionsRepo.getSessionFrom (result : Option RedisHash) (err : Option GoError) :
    Option SessionPayload × Option GoError :=
  match err with
  | some e =>
    if result = none then (none, some GoError.ErrSessionNotFound)
    else (none, some e)
  | none =>
    let m : RedisHash := result.getD []
    if m.length = 0 then (none, some GoError.ErrSessionNotFound)
    else
      match m.lookup "user_id" with
      | none =>
        (none, some (GoError.errorf "missing 'user_id' field in session data, current value - "))
      | some userUUID =>
        match m.lookup "user_name" with
        | none =>
          (none,
            some (GoError.errorf "missing 'user_name' field in session data, current value - "))
        | some userName =>
          match m.lookup "user_roles" with
          | none =>
            (none,
              some (GoError.errorf
                "missing 'user_roles' field in session data, current value - "))
          | some rolesStr =>
            let roles := stringsSplit rolesStr ','
            (some { UserUUID := userUUID, UserName := userName, UserRoles := roles }, none)

/-- Method `SessionsRepo.GetSession`.  `fRead` is the failure, if any, of its
Redis read. -/
def SessionsRepo.GetSession (_r : SessionsRepo) (st : RedisStore) (sessionID : String)
    (fRead : Option ReadFault) : Option SessionPayload × Option GoError :=
  let (result, err) := redisHGetAll st sessionID fRead
  SessionsRepo.getSessionFrom result err

/-- Method `SessionsRepo.DeleteSession`.  `fDel` is the failure, if any, of
its Redis command. -/
def SessionsRepo.DeleteSession (_r : SessionsRepo) (st : RedisStore) (sessionID : String)
    (fDel : Option Fault) : RedisStore × Option GoError :=
  let (st1, (deletedKeys, err)) := redisDel st sessionID fDel
  match err with
  | some e => (st1, some e)
  | none =>
    if deletedKeys = 0 then (st1, some GoError.ErrSessionNotFound)
    else (st1, none)

/-- One call on the session repository together with the failures of its
Redis commands. -/
inductive SessionOp where
  | create (payload : SessionPayload) (fHSet fExpire : Option Fault)
  | delete (sessionID : String) (fDel : Option Fault)
  deriving DecidableEq, Repr

/-- The keyspace after one repository call. -/
def SessionsRepo.step (r : SessionsRepo) (st : RedisStore) : SessionOp → RedisStore
  | .create payload fHSet fExpire => (r.CreateSession st payload fHSet fExpire).1
  | .delete sessionID fDel => (r.DeleteSession st sessionID fDel).1

/-- The keyspace after a sequence of repository calls, starting from the
empty keyspace. -/
def SessionsRepo.run (r : SessionsRepo) (ops : List SessionOp) : RedisStore :=
  ops.foldl r.step RedisStore.empty

/-- Store invariant: the key of every stored record is the value of its
`user_id` field. -/
def KeyIsUserId (st : RedisStore) : Prop :=
  ∀ k e, st k = some e → e.fields.lookup "user_id" = some k

/-! ## Password hashing (`pkg/utils/utils.go`) -/

/-- The bcrypt library: `CompareHashAndPassword(hash, password)` returns an
error unless the password matches the digest;
`GenerateFromPassword(password, cost)` returns a salted digest or an error,
the salt being drawn from the entropy given as first argument. -/
structure Bcrypt where
  CompareHashAndPassword : String → String → Option GoError
  GenerateFromPassword : Nat → String → Nat → String × Option GoError

/-- Function `utils.Hashing`; `entropy` is the randomness bcrypt draws its
salt from. -/
def Hashing (bc : Bcrypt) (entropy : Nat) (s : String) : String × Option GoError :=
  let (bytes, err) := bc.GenerateFromPassword entropy s 10
  match err with
  | some e => ("", some e)
  | none => (bytes, none)

/-- Function `utils.CheckHashing`. -/
def CheckHashing (bc : Bcrypt) (s hash : String) : Bool :=
  let err := bc.CompareHashAndPassword hash s
  err == none

/-- Method `User.CheckPassword`. -/
def User.CheckPassword (bc : Bcrypt) (u : User) (password : String) : Bool :=
  CheckHashing bc password u.PasswordHash

/-! ## Authentication use case (`internal/usecase/auth.go`) -/

/-- The interface `userRepo.IUserRepository` over a directory state `δ`. -/
structure IUserRepository (δ : Type) where
  CreateUser : δ → User → δ × (String × Option GoError)
  FindUser : δ → UserRequest → δ × (Option User × Option GoError)
  UpdateUser : δ → User → δ × Option GoError
  DeleteUser : δ → String → δ × Option GoError

/-- The interface `sessionsRepo.ISessionsRepo` over a session-store state
`σ`. -/
structure ISessionsRepo (σ : Type) where
  CreateSession : σ → SessionPayload → σ × (String × Option GoError)
  GetSession : σ → String → σ × (Option SessionPayload × Option GoError)
  DeleteSession : σ → String → σ × Option GoError

/-- A call made on a collaborator, with its arguments. -/
inductive Call where
  | CreateUser (user : User)
  | FindUser (param : UserRequest)
  | UpdateUser (user : User)
  | DeleteUser (id : String)
  | CreateSession (payload : SessionPayload)
  | GetSession (sessionID : String)
  | DeleteSession (sessionID : String)
  deriving DecidableEq, Repr

/-- State of the collaborators of a use case: the user directory, the session
store, and the calls made so far, oldest first. -/
structure World (δ σ : Type) where
  dir : δ
  sess : σ
  calls : List Call

/-- The struct `AuthUseCase` with its dependencies. -/
structure AuthUseCase (δ σ : Type) where
  repo : IUserRepository δ
  sessionDB : ISessionsRepo σ
  bcrypt : Bcrypt

/-- Method `AuthUseCase.Login`.  The result is `none` when the method panics
(a `nil` user returned without an error is dereferenced). -/
def AuthUseCase.Login {δ σ : Type} (uc : AuthUseCase δ σ) (w : World δ σ)
    (data : LoginRequest) :
    World δ σ × Option (Option LoginResponce × Option GoError) :=
  let param : UserRequest := { Mode := "email", Email := data.Email, ID := "" }
  let (dir1, (user, err)) := uc.repo.FindUser w.dir param
  let w1 : World δ σ := { w with dir := dir1, calls := w.calls ++ [Call.FindUser param] }
  match err with
  | some e => (w1, some (none, some e))
  | none =>
    match user with
    | none => (w1, none)
    | some user =>
      if !(user.CheckPassword uc.bcrypt data.Password) then
        (w1, some (none, some GoError.ErrInvalidPassword))
      else
        let payload : SessionPayload :=
          { UserUUID := user.UUID, UserRoles := ["user"], UserName := user.UserName }
        let (sess1, (session, err1)) := uc.sessionDB.CreateSession w1.sess payload
        let w2 : World δ σ :=
          { w1 with sess := sess1, calls := w1.calls ++ [Call.CreateSession payload] }
        match err1 with
        | some e => (w2, some (none, some e))
        | none => (w2, some (some { SessionID := session }, none))

/-- The user built by `AuthUseCase.Register` from the request and the
password digest. -/
def registerUser (tbl : CaseTables) (data : RegisterRequest) (passwordHash : String) : User :=
  ((((((NewUserBuilder.WithFirstName data.FirstName).WithLastName data.LastName).WithUserName
    tbl data.Email).WithEmail data.Email).WithPassword passwordHash).WithPhone
    data.Phone).Build

/-- Method `AuthUseCase.Register`; `tbl` are the Unicode case tables and
`entropy` the randomness of the password hashing. -/
def AuthUseCase.Register {δ σ : Type} (uc : AuthUseCase δ σ) (tbl : CaseTables)
    (w : World δ σ) (entropy : Nat) (data : RegisterRequest) :
    World δ σ × (Option RegisterResponce × Option GoError) :=
  let (passwordHash, err) := Hashing uc.bcrypt entropy data.Password
  match err with
  | some e => (w, (none, some e))
  | none =>
    let newUser := registerUser tbl data passwordHash
    let (dir1, (id, err1)) := uc.repo.CreateUser w.dir newUser
    let w1 : World δ σ := { w with dir := dir1, calls := w.calls ++ [Call.CreateUser newUser] }
    match err1 with
    | some e => (w1, (none, some e))
    | none => (w1, (some { UUID := id }, none))

/-- Method `AuthUseCase.Session`. -/
def AuthUseCase.Session {δ σ : Type} (uc : AuthUseCase δ σ) (w : World δ σ)
    (uuid : String) : World δ σ × (Option SessionPayload × Option GoError) :=
  let (sess1, (token, err)) := uc.sessionDB.GetSession w.sess uuid
  let w1 : World δ σ := { w with sess := sess1, calls := w.calls ++ [Call.GetSession uuid] }
  match err with
  | some e => (w1, (none, some e))
  | none => (w1, (token, none))

/-- Method `AuthUseCase.SessionDel`. -/
def AuthUseCase.SessionDel {δ σ : Type} (uc : AuthUseCase δ σ) (w : World δ σ)
    (uuid : String) : World δ σ × Option GoError :=
  let (sess1, err) := uc.sessionDB.DeleteSession w.sess uuid
  let w1 : World δ σ := { w with sess := sess1, calls := w.calls ++ [Call.DeleteSession uuid] }
  match err with
  | some e => (w1, some e)
  | none => (w1, none)

/-! ## HTTP layer: requests, responses, cookies (`net/http`, external) -/

/-- The fields of `net/http.Cookie` the repository uses. -/
structure HttpCookie where
  Name : String
  Value : String
  Path : String
  HttpOnly : Bool
  Secure : Bool
  MaxAge : Int
  deriving DecidableEq, Repr

/-- A Go value of type `any` held in a request context: a string, or a value
of some other type. -/
inductive GoAny where
  | str (s : String)
  | other (typeName : String)
  deriving DecidableEq, Repr

/-- An HTTP request as the handlers see it: the cookies parsed from the
`Cookie` header in order, the values bound in its context under keys of type
`contextKey` (innermost binding first), the body, the method, the other
headers (first value of each) and the wildcards matched in the path. -/
structure Request where
  cookies : List HttpCookie
  ctx : List (String × GoAny)
  body : String
  method : String := "GET"
  header : List (String × String) := []
  pathValues : List (String × String) := []
  deriving DecidableEq, Repr

/-- Method `r.Header.Get(key)`: the first value of the header, or the empty
string. -/
def Request.HeaderGet (r : Request) (key : String) : String :=
  (r.header.lookup key).getD ""

/-- Method `r.PathValue(name)`: the value of the path wildcard, or the empty
string. -/
def Request.PathValue (r : Request) (name : String) : String :=
  (r.pathValues.lookup name).getD ""

/-- The constant `SessionIdAndUserId` of type `contextKey`. -/
def SessionIdAndUserId : String := "sessionId"

/-- The sentinel `http.ErrNoCookie`. -/
def httpErrNoCookie : GoError := GoError.external "http: named cookie not present"

/-- Method `Request.Cookie(name)` of `net/http`: the first cookie of that
name, or `ErrNoCookie`. -/
def Request.Cookie (r : Request) (name : String) : Option HttpCookie × Option GoError :=
  if name = "" then (none, some httpErrNoCookie)
  else
    match r.cookies.find? (fun c => c.Name == name) with
    | some c => (some c, none)
    | none => (none, some httpErrNoCookie)

/-- The call `r.Context().Value(key)`. -/
def Request.ContextValue (r : Request) (key : String) : Option GoAny :=
  r.ctx.lookup key

/-- The calls `context.WithValue(r.Context(), key, val)` and
`r.WithContext(ctx)` in one. -/
def Request.WithContextValue (r : Request) (key : String) (val : GoAny) : Request :=
  { r with ctx := (key, val) :: r.ctx }

/-- The struct `BaseHandlerResponce`. -/
structure BaseHandlerResponce where
  Message : String
  Error : String
  Status : Int
  deriving DecidableEq, Repr

/-- What is written as a response body: the Go values the handlers marshal
to JSON (`null` is a `nil` pointer), or raw text. -/
inductive JsonData where
  | null
  | base (resp : BaseHandlerResponce)
  | register (resp : RegisterResponce)
  | login (resp : LoginResponce)
  | user (u : User)
  | raw (text : String)
  deriving DecidableEq, Repr

/-- What an `http.ResponseWriter` has received: the status code of the
header once it is written, the headers other than `Set-Cookie`, the cookies of
the `Set-Cookie` headers, and the bodies written. -/
structure ResponseWriter where
  status : Option Int
  header : List (String × String)
  setCookie : List HttpCookie
  body : List JsonData
  deriving DecidableEq, Repr

/-- A response writer nothing was written to. -/
def ResponseWriter.new : ResponseWriter :=
  { status := none, header := [], setCookie := [], body := [] }

/-- Method `w.Header().Set(key, value)`: without effect on the response once
the header is written. -/
def ResponseWriter.HeaderSet (w : ResponseWriter) (key value : String) : ResponseWriter :=
  if w.status.isSome then w
  else { w with header := (key, value) :: w.header.filter (fun p => p.1 != key) }

/-- Method `w.Header().Add(key, value)`: without effect on the response once
the header is written. -/
def ResponseWriter.HeaderAdd (w : ResponseWriter) (key value : String) : ResponseWriter :=
  if w.status.isSome then w else { w with header := w.header ++ [(key, value)] }

/-- Method `w.WriteHeader(code)`: only the first call counts. -/
def ResponseWriter.WriteHeader (w : ResponseWriter) (code : Int) : ResponseWriter :=
  if w.status.isSome then w else { w with status := some code }

/-- Method `w.Write(body)`: writes the header with status 200 first when it is
not written yet. -/
def ResponseWriter.Write (w : ResponseWriter) (data : JsonData) : ResponseWriter :=
  { (w.WriteHeader 200) with body := w.body ++ [data] }

/-- Function `http.SetCookie(w, cookie)`: adds a `Set-Cookie` header (the
cookie names of the repository are valid), without effect once the header is
written. -/
def httpSetCookie (w : ResponseWriter) (cookie : HttpCookie) : ResponseWriter :=
  if w.status.isSome then w else { w with setCookie := w.setCookie ++ [cookie] }

/-! ## Cookie manager (`internal/adapters/http/cookie/cookie.go`) -/

/-- The struct `cookie.CookieData`. -/
structure CookieData where
  Name : String
  Value : String
  Path : String
  HttpOnly : Bool
  Secure : Bool
  MaxAge : Int
  deriving DecidableEq, Repr

/-- Method `CookieManager.SetCookie`. -/
def CookieManager.SetCookie (w : ResponseWriter) (cookie : CookieData) : ResponseWriter :=
  let httpCookie : HttpCookie :=
    { Name := cookie.Name, Value := cookie.Value, Path := cookie.Path,
      HttpOnly := cookie.HttpOnly, Secure := cookie.Secure, MaxAge := cookie.MaxAge }
  httpSetCookie w httpCookie

/-- Method `CookieManager.DeleteCookie`. -/
def CookieManager.DeleteCookie (w : ResponseWriter) (name : String) : ResponseWriter :=
  let httpCookie : HttpCookie :=
    { Name := name, Value := "", Path := "/", HttpOnly := false, Secure := false,
      MaxAge := -1 }
  httpSetCookie w httpCookie

/-! ## Base handler (`internal/adapters/http/baseHandler.go`) -/

/-- Method `BaseHandler.SendJsonResp`; marshalling the values of `JsonData`
to JSON does not fail. -/
def BaseHandler.SendJsonResp (w : ResponseWriter) (status : Int) (data : JsonData) :
    ResponseWriter :=
  ((w.HeaderSet "Content-Type" "application/json").WriteHeader status).Write data

/-- Method `BaseHandler.HandleError`. -/
def BaseHandler.HandleError (w : ResponseWriter) (err : GoError) : ResponseWriter :=
  if errorsIs err GoError.ErrUserAlreadyExists then
    BaseHandler.SendJsonResp w 400
      (JsonData.base { Status := 400, Message := "user already exists", Error := err.Error })
  else if errorsIs err GoError.ErrInvalidPassword then
    BaseHandler.SendJsonResp w 400
      (JsonData.base { Status := 400, Message := "invalid password", Error := err.Error })
  else if errorsIs err GoError.ErrSessionExpired then
    BaseHandler.SendJsonResp w 401
      (JsonData.base { Status := 401, Message := "session (cookies) expired",
                       Error := err.Error })
  else if errorsIs err GoError.ErrSessionNotFound then
    BaseHandler.SendJsonResp w 401
      (JsonData.base { Status := 401, Message := "Unauthorized / no session",
                       Error := err.Error })
  else if errorsIs err GoError.ErrUserNotFound then
    BaseHandler.SendJsonResp w 404
      (JsonData.base { Status := 404, Message := "failed get user", Error := err.Error })
  else if errorsIs err GoError.DeadlineExceeded then
    BaseHandler.SendJsonResp w 504
      (JsonData.base { Status := 504,
                       Message := "request processing exceeded the allowed time limit",
                       Error := err.Error })
  else
    BaseHandler.SendJsonResp w 500
      (JsonData.base { Status := 500, Message := "internal server error",
                       Error := err.Error })

/-- The JSON decoder and the struct validator (both external libraries) for
request bodies of type `α`: the decoder fills a value and may report an
error, the validator checks the tags of the struct. -/
structure BodyCodec (α : Type) where
  jsonDecode : String → α × Option GoError
  validatorStruct : α → Option GoError

/-- Function `utils.DecodeBody`. -/
def DecodeBody {α : Type} (codec : BodyCodec α) (body : String) : Option α × Option GoError :=
  let (data, err) := codec.jsonDecode body
  match err with
  | some e => (none, some e)
  | none => (some data, none)

/-- Function `validate.IsValid`; a `nil` pointer is not a struct and is
refused by the validator. -/
def IsValid {α : Type} (codec : BodyCodec α) (data : Option α) : Option GoError :=
  match data with
  | none => some (GoError.external "validator: (nil)")
  | some d =>
    match codec.validatorStruct d with
    | some err => some err
    | none => none

/-- Method `BaseHandler.Handle`: decodes and validates the request body,
answering 400 itself when either fails. -/
def BaseHandler.Handle {α : Type} (codec : BodyCodec α) (w : ResponseWriter) (r : Request) :
    ResponseWriter × (Option α × Option GoError) :=
  let (data, err) := DecodeBody codec r.body
  match err with
  | some e =>
    (BaseHandler.SendJsonResp w 400
      (JsonData.base { Status := 400, Message := "failed to decode request body",
                       Error := e.Error }), (none, some e))
  | none =>
    match IsValid codec data with
    | some e =>
      (BaseHandler.SendJsonResp w 400
        (JsonData.base { Status := 400, Message := "request body data failed validation",
                         Error := e.Error }), (none, some e))
    | none => (w, (data, none))

/-! ## One HTTP exchange -/

/-- What happens while a request is served, in order. -/
inductive Event where
  | HandleError (err : GoError)
  | GetSession (sessionID : String)
  | Next (r : Request)
  | Register (data : RegisterRequest)
  | Login (data : LoginRequest)
  | SessionDel (uuid : String)
  | User (id : String)
  | UserUpd (id : String) (data : UpdateRequest)
  | UserDel (id : String)
  deriving DecidableEq, Repr

/-- State of one HTTP exchange: the state `env` behind the interfaces the
handler calls, the response writer, the events so far, and whether the
goroutine has panicked. -/
structure Exchange (ω : Type) where
  env : ω
  w : ResponseWriter
  events : List Event
  panicked : Bool

/-- An `http.Handler` over collaborators with state `ω`. -/
abbrev Handler (ω : Type) := Exchange ω → Request → Exchange ω

/-- The call `baseH.HandleError(w, err)` within an exchange. -/
def Exchange.handleError {ω : Type} (x : Exchange ω) (err : GoError) : Exchange ω :=
  { x with w := BaseHandler.HandleError x.w err, events := x.events ++ [Event.HandleError err] }

/-! ## Authorization middleware (`internal/adapters/http/httpMiddleware/auth.go`) -/

/-- The struct `MiddlewareAuth`. -/
structure MiddlewareAuth (σ : Type) where
  sessionDB : ISessionsRepo σ

/-- Method `MiddlewareAuth.Session`: the handler wrapped around `next`. -/
def MiddlewareAuth.Session {σ : Type} (m : MiddlewareAuth σ) (next : Handler σ) : Handler σ :=
  fun x r =>
    let (cookie, err) := r.Cookie "sessionId"
    match err with
    | some e =>
      if errorsIs e httpErrNoCookie then x.handleError GoError.ErrSessionNotFound
      else x.handleError GoError.ErrSessionNotFound
    | none =>
      match cookie with
      | none => { x with panicked := true }
      | some cookie =>
        let sessionID := cookie.Value
        if sessionID = "" then x.handleError GoError.ErrSessionNotFound
        else
          let (env1, (payload, err1)) := m.sessionDB.GetSession x.env sessionID
          let x1 : Exchange σ :=
            { x with env := env1, events := x.events ++ [Event.GetSession sessionID] }
          match err1 with
          | some e =>
            if errorsIs e GoError.ErrSessionNotFound then x1.handleError e
            else x1.handleError e
          | none =>
            match payload with
            | none => { x1 with panicked := true }
            | some payload =>
              let r1 := r.WithContextValue SessionIdAndUserId (GoAny.str payload.UserUUID)
              next { x1 with events := x1.events ++ [Event.Next r1] } r1

/-! ## Authentication handler (`internal/adapters/http/handlerAuth.go`) -/

/-- The interface `usecase.IAuthUseCase` over a state `ω`. -/
structure IAuthUseCase (ω : Type) where
  Register : ω → RegisterRequest → ω × (Option RegisterResponce × Option GoError)
  Login : ω → LoginRequest → ω × (Option LoginResponce × Option GoError)
  Session : ω → String → ω × (Option SessionPayload × Option GoError)
  SessionDel : ω → String → ω × Option GoError

/-- The struct `HandlerAuth`, together with the body decoders and validators
of its two request types. -/
structure HandlerAuth (ω : Type) where
  authUC : IAuthUseCase ω
  registerCodec : BodyCodec RegisterRequest
  loginCodec : BodyCodec LoginRequest

/-- The cookie the `Login` and `Register` handlers hand to `SetCookie`. -/
def sessionCookieData (sessionID : String) : CookieData :=
  { Name := SessionIdAndUserId, Value := sessionID, Path := "/", HttpOnly := true,
    Secure := false, MaxAge := 300 }

/-- Method `HandlerAuth.Login`. -/
def HandlerAuth.Login {ω : Type} (h : HandlerAuth ω) : Handler ω :=
  fun x r =>
    let (w1, (data, err)) := BaseHandler.Handle h.loginCodec x.w r
    match err with
    | some _ => { x with w := w1 }
    | none =>
      match data with
      | none => ({ x with w := w1 } : Exchange ω).handleError GoError.ErrTypeConversion
      | some loginData =>
        let (env1, (resp, err1)) := h.authUC.Login x.env loginData
        let x1 : Exchange ω :=
          { x with env := env1, w := w1, events := x.events ++ [Event.Login loginData] }
        match err1 with
        | some e => x1.handleError e
        | none =>
          match resp with
          | none => { x1 with panicked := true }
          | some resp =>
            let w2 := CookieManager.SetCookie x1.w (sessionCookieData resp.SessionID)
            { x1 with w := BaseHandler.SendJsonResp w2 200 (JsonData.login resp) }

/-- Method `HandlerAuth.Register`. -/
def HandlerAuth.Register {ω : Type} (h : HandlerAuth ω) : Handler ω :=
  fun x r =>
    let (w1, (data, err)) := BaseHandler.Handle h.registerCodec x.w r
    match err with
    | some _ => { x with w := w1 }
    | none =>
      match data with
      | none => ({ x with w := w1 } : Exchange ω).handleError GoError.ErrTypeConversion
      | some registerData =>
        let (env1, (resp, err1)) := h.authUC.Register x.env registerData
        let x1 : Exchange ω :=
          { x with env := env1, w := w1, events := x.events ++ [Event.Register registerData] }
        match err1 with
        | some e => x1.handleError e
        | none =>
          let loginData : LoginRequest :=
            { Email := registerData.Email, Password := registerData.Password }
          let (env2, (loginResp, err2)) := h.authUC.Login x1.env loginData
          let x2 : Exchange ω :=
            { x1 with env := env2, events := x1.events ++ [Event.Login loginData] }
          match err2 with
          | some e => x2.handleError e
          | none =>
            match loginResp with
            | none => { x2 with panicked := true }
            | some loginResp =>
              let w2 := CookieManager.SetCookie x2.w (sessionCookieData loginResp.SessionID)
              match resp with
              | none => { x2 with w := BaseHandler.SendJsonResp w2 201 JsonData.null }
              | some resp =>
                { x2 with w := BaseHandler.SendJsonResp w2 201 (JsonData.register resp) }

/-- Method `HandlerAuth.Logout`. -/
def HandlerAuth.Logout {ω : Type} (h : HandlerAuth ω) : Handler ω :=
  fun x r =>
    match r.ContextValue SessionIdAndUserId with
    | some (GoAny.str sessionID) =>
      let (env1, err) := h.authUC.SessionDel x.env sessionID
      let x1 : Exchange ω :=
        { x with env := env1, events := x.events ++ [Event.SessionDel sessionID] }
      match err with
      | some e => x1.handleError e
      | none =>
        let w1 := CookieManager.DeleteCookie x1.w SessionIdAndUserId
        { x1 with w := w1.WriteHeader 204 }
    | _ => x.handleError GoError.ErrNoSessionID

/-! ## User use case (`internal/usecase/user.go`) -/

/-- The interface `usecase.IUserUseCase` over a state `ω`. -/
structure IUserUseCase (ω : Type) where
  User : ω → String → ω × (Option User × Option GoError)
  UserUpd : ω → String → UpdateRequest → ω × Option GoError
  UserDel : ω → String → ω × Option GoError

/-- The struct `UserUseCase` with its dependencies. -/
structure UserUseCase (δ : Type) where
  repo : IUserRepository δ
  bcrypt : Bcrypt

/-- Method `UserUseCase.User`. -/
def UserUseCase.User {δ σ : Type} (uc : UserUseCase δ) (w : World δ σ) (id : String) :
    World δ σ × (Option User × Option GoError) :=
  let param : UserRequest := { Mode := "id", Email := "", ID := id }
  let (dir1, (user, err)) := uc.repo.FindUser w.dir param
  let w1 : World δ σ := { w with dir := dir1, calls := w.calls ++ [Call.FindUser param] }
  match err with
  | some e => (w1, (none, some e))
  | none => (w1, (user, none))

/-- The user built by `UserUseCase.UserUpd` from the id, the request and the
password digest. -/
def updatedUser (tbl : CaseTables) (id : String) (data : UpdateRequest)
    (passwordHash : String) : User :=
  (((((((NewUserBuilder.WithUUID id).WithFirstName data.FirstName).WithLastName
    data.LastName).WithUserName tbl data.Email).WithEmail data.Email).WithPassword
    passwordHash).WithPhone data.Phone).Build

/-- Method `UserUseCase.UserUpd`; `tbl` are the Unicode case tables and
`entropy` the randomness of the password hashing. -/
def UserUseCase.UserUpd {δ σ : Type} (uc : UserUseCase δ) (tbl : CaseTables)
    (entropy : Nat) (w : World δ σ) (id : String) (data : UpdateRequest) :
    World δ σ × Option GoError :=
  let (passwordHash, err) := Hashing uc.bcrypt entropy data.Password
  match err with
  | some e => (w, some e)
  | none =>
    let newUser := updatedUser tbl id data passwordHash
    let (dir1, err1) := uc.repo.UpdateUser w.dir newUser
    let w1 : World δ σ := { w with dir := dir1, calls := w.calls ++ [Call.UpdateUser newUser] }
    match err1 with
    | some e => (w1, some e)
    | none => (w1, none)

/-- Method `UserUseCase.UserDel`. -/
def UserUseCase.UserDel {δ σ : Type} (uc : UserUseCase δ) (w : World δ σ) (id : String) :
    World δ σ × Option GoError :=
  let (dir1, err) := uc.repo.DeleteUser w.dir id
  let w1 : World δ σ := { w with dir := dir1, calls := w.calls ++ [Call.DeleteUser id] }
  match err with
  | some e => (w1, some e)
  | none => (w1, none)

/-- The user use case behind the interface `IUserUseCase`. -/
def UserUseCase.asInterface {δ σ : Type} (uc : UserUseCase δ) (tbl : CaseTables)
    (entropy : Nat) : IUserUseCase (World δ σ) where
  User := fun w id => uc.User w id
  UserUpd := fun w id data => uc.UserUpd tbl entropy w id data
  UserDel := fun w id => uc.UserDel w id

/-! ## User handler (`internal/adapters/http/handlerUser.go`) -/

/-- The struct `HandlerUser`, together with the body decoder and validator of
its request type. -/
structure HandlerUser (ω : Type) where
  userUC : IUserUseCase ω
  authUC : IAuthUseCase ω
  updateCodec : BodyCodec UpdateRequest

/-- Method `HandlerUser.UserUpd`. -/
def HandlerUser.UserUpd {ω : Type} (h : HandlerUser ω) : Handler ω :=
  fun x r =>
    match r.ContextValue SessionIdAndUserId with
    | some (GoAny.str userID) =>
      let (w1, (data, err)) := BaseHandler.Handle h.updateCodec x.w r
      match err with
      | some _ => { x with w := w1 }
      | none =>
        match data with
        | none => ({ x with w := w1 } : Exchange ω).handleError GoError.ErrTypeConversion
        | some updData =>
          let (env1, err1) := h.userUC.UserUpd x.env userID updData
          let x1 : Exchange ω :=
            { x with env := env1, w := w1,
                     events := x.events ++ [Event.UserUpd userID updData] }
          match err1 with
          | some e => x1.handleError e
          | none => { x1 with w := x1.w.WriteHeader 204 }
    | _ => x.handleError GoError.ErrNoUserID

/-! ## UUID check (`pkg/utils/utils.go`, `baseHandler.go`) -/

/-- The character classes of the regular expression of `IsUUID`. -/
inductive CharClass where
  | hexDigit
  | dash
  deriving DecidableEq, Repr

/-- Whether a character belongs to a class: `[0-9a-fA-F]`, or `-`. -/
def CharClass.test : CharClass → Char → Bool
  | .hexDigit, c =>
    (48 ≤ c.toNat && c.toNat ≤ 57) || (97 ≤ c.toNat && c.toNat ≤ 102) ||
      (65 ≤ c.toNat && c.toNat ≤ 70)
  | .dash, c => c == '-'

/-- The regular expression `guidRegex` of `IsUUID` between its anchors `^` and
`$`: a sequence of classes, each repeated a fixed number of times. -/
def guidRegex : List (CharClass × Nat) :=
  [(CharClass.hexDigit, 8), (CharClass.dash, 1), (CharClass.hexDigit, 4), (CharClass.dash, 1),
   (CharClass.hexDigit, 4), (CharClass.dash, 1), (CharClass.hexDigit, 4), (CharClass.dash, 1),
   (CharClass.hexDigit, 12)]

/-- Matching `cls{n}` at the head of the input: the rest of the input, or
`none`. -/
def regexpMatchCount (cls : CharClass) : Nat → List Char → Option (List Char)
  | 0, s => some s
  | _ + 1, [] => none
  | n + 1, c :: cs => if cls.test c then regexpMatchCount cls n cs else none

/-- Matching a sequence of counted classes against the whole input (the
expression is anchored at both ends, and `$` matches at the end of the text
only). -/
def regexpMatchSeq : List (CharClass × Nat) → List Char → Bool
  | [], s => s.isEmpty
  | (cls, n) :: rest, s =>
    match regexpMatchCount cls n s with
    | some s1 => regexpMatchSeq rest s1
    | none => false

/-- A sequence of counted classes written out, one class each character. -/
def regexpExpand (pat : List (CharClass × Nat)) : List CharClass :=
  pat.flatMap (fun p => List.replicate p.2 p.1)

/-- Matching a sequence of classes against the whole input, one character
each. -/
def classesMatch : List CharClass → List Char → Bool
  | [], [] => true
  | p :: ps, c :: cs => p.test c && classesMatch ps cs
  | _, _ => false

/-- Function `utils.IsUUID`. -/
def IsUUID (s : String) : Bool :=
  let ok := regexpMatchSeq guidRegex s.data
  ok

/-- Specification of the UUID format: 36 characters, `-` at positions 8, 13,
18 and 23, a hexadecimal digit everywhere else. -/
def specIsUUID (s : String) : Bool :=
  s.data.length == 36 &&
    (List.range 36).all (fun i =>
      match s.data.get? i with
      | some c =>
        if i = 8 ∨ i = 13 ∨ i = 18 ∨ i = 23 then c == '-'
        else (48 ≤ c.toNat && c.toNat ≤ 57) || (97 ≤ c.toNat && c.toNat ≤ 102) ||
          (65 ≤ c.toNat && c.toNat ≤ 70)
      | none => false)

/-- Method `BaseHandler.CheckUUID`. -/
def BaseHandler.CheckUUID (w : ResponseWriter) (r : Request) :
    ResponseWriter × (String × Bool) :=
  let uuid := r.PathValue "uuid"
  if uuid = "" then
    (BaseHandler.SendJsonResp w 400
      (JsonData.base { Status := 400, Message := "failed to process request due to uuid",
                       Error := GoError.ErrNotUuid.Error }), ("", false))
  else if !(IsUUID uuid) then
    (BaseHandler.SendJsonResp w 400
      (JsonData.base { Status := 400, Message := "failed to process request due to uuid",
                       Error := GoError.ErrIncorrectUuid.Error }), ("", false))
  else (w, (uuid, true))

/-- The struct `HandlerData`. -/
structure HandlerData (ω : Type) where
  userUC : IUserUseCase ω

/-- Method `HandlerData.User`. -/
def HandlerData.User {ω : Type} (h : HandlerData ω) : Handler ω :=
  fun x r =>
    let (w1, (userID, ok)) := BaseHandler.CheckUUID x.w r
    if !ok then { x with w := w1 }
    else
      let (env1, (resp, err)) := h.userUC.User x.env userID
      let x1 : Exchange ω :=
        { x with env := env1, w := w1, events := x.events ++ [Event.User userID] }
      match err with
      | some e => x1.handleError e
      | none =>
        match resp with
        | none => { x1 with w := BaseHandler.SendJsonResp x1.w 200 JsonData.null }
        | some u => { x1 with w := BaseHandler.SendJsonResp x1.w 200 (JsonData.user u) }

/-! ## Request validation (`pkg/validate/validate.go`, tags of `dto.go`) -/

/-- The tags of the validator library that are regular expressions of the
library (not part of the repository). -/
structure ValidatorLib where
  ascii : String → Bool
  alpha : String → Bool
  email : String → Bool
  e164 : String → Bool

/-- Tag `required` on a string field: the value is not the zero value. -/
def tagRequired (s : String) : Bool := s != ""

/-- Tag `min=n` on a string field: at least `n` runes. -/
def tagMin (n : Nat) (s : String) : Bool := decide (n ≤ s.length)

/-- Tag `max=n` on a string field: at most `n` runes. -/
def tagMax (n : Nat) (s : String) : Bool := decide (s.length ≤ n)

/-- The error of one field: the first of its tags that fails, if any. -/
def fieldError (struct field : String) : List (String × Bool) → Option String
  | [] => none
  | (tag, ok) :: rest =>
    if ok then fieldError struct field rest
    else some ("Key: '" ++ struct ++ "." ++ field ++ "' Error:Field validation for '" ++
      field ++ "' failed on the '" ++ tag ++ "' tag")

/-- Method `Struct` of the validator: the errors of all fields, or `nil` when
there is none. -/
def validatorStruct (struct : String) (fields : List (String × List (String × Bool))) :
    Option GoError :=
  match fields.filterMap (fun f => fieldError struct f.1 f.2) with
  | [] => none
  | msgs => some (GoError.external (stringsJoin msgs "\n"))

/-- The tags of `dto.RegisterRequest`, evaluated on a request. -/
def registerRequestTags (lib : ValidatorLib) (d : RegisterRequest) :
    List (String × List (String × Bool)) :=
  [("FirstName", [("required", tagRequired d.FirstName), ("ascii", lib.ascii d.FirstName),
                  ("alpha", lib.alpha d.FirstName), ("min", tagMin 2 d.FirstName)]),
   ("LastName", [("required", tagRequired d.LastName), ("ascii", lib.ascii d.LastName),
                 ("alpha", lib.alpha d.LastName), ("min", tagMin 2 d.LastName)]),
   ("Email", [("required", tagRequired d.Email), ("ascii", lib.ascii d.Email),
              ("email", lib.email d.Email)]),
   ("Password", [("required", tagRequired d.Password), ("min", tagMin 8 d.Password),
                 ("max", tagMax 20 d.Password)]),
   ("Phone", [("required", tagRequired d.Phone), ("e164", lib.e164 d.Phone)])]

/-- The validation of a `dto.RegisterRequest`. -/
def validateRegisterRequest (lib : ValidatorLib) (d : RegisterRequest) : Option GoError :=
  validatorStruct "RegisterRequest" (registerRequestTags lib d)

/-! ## CORS middleware (`pkg/middleware/cors.go`) -/

/-- Function `isAllowedOrigin`. -/
def isAllowedOrigin (origin : String) : List String → Bool
  | [] => false
  | domain :: rest => if origin = domain then true else isAllowedOrigin origin rest

/-- Function `CORS`: the handler wrapped around `next`. -/
def CORS {ω : Type} (allowedDomains : List String) (next : Handler ω) : Handler ω :=
  fun x r =>
    let w0 := x.w.HeaderAdd "Vary" "Origin"
    let origin := r.HeaderGet "Origin"
    let w1 :=
      if origin = "" then w0.HeaderSet "Access-Control-Allow-Credentials" "true"
      else if isAllowedOrigin origin allowedDomains then
        (w0.HeaderSet "Access-Control-Allow-Origin" origin).HeaderSet
          "Access-Control-Allow-Credentials" "true"
      else
        ((w0.HeaderSet "Content-Type" "text/plain; charset=utf-8").WriteHeader 403).Write
          (JsonData.raw "Error: Origin is not allowed by CORS policy")
    let w2 := (w1.HeaderSet "Access-Control-Allow-Methods"
      "GET, POST, PUT, PATCH, DELETE, OPTIONS").HeaderSet "Access-Control-Allow-Headers"
      "Content-Type, Authorization"
    if r.method = "OPTIONS" then { x with w := w2.WriteHeader 204 }
    else next { x with w := w2, events := x.events ++ [Event.Next r] } r

/-! ## Concrete collaborators and inputs for the worked examples -/

/-- The session repository behind the interface `ISessionsRepo`, on a Redis
link on which no command fails. -/
def SessionsRepo.asInterface (r : SessionsRepo) : ISessionsRepo RedisStore where
  CreateSession := fun st payload => r.CreateSession st payload none none
  GetSession := fun st sessionID => (st, r.GetSession st sessionID none)
  DeleteSession := fun st sessionID => r.DeleteSession st sessionID none

/-- An in-memory user directory behind the interface `IUserRepository`: users
are found by email or by id, and a new user receives the id `newID`. -/
def memoryDirectory (newID : String) : IUserRepository (List User) where
  CreateUser := fun users user =>
    if users.any (fun x => x.Email == user.Email) then
      (users, ("", some GoError.ErrUserAlreadyExists))
    else (users ++ [{ user with UUID := newID }], (newID, none))
  FindUser := fun users param =>
    if param.Mode = "email" then
      match users.find? (fun x => x.Email == param.Email) with
      | some x => (users, (some x, none))
      | none => (users, (none, some GoError.ErrUserNotFound))
    else if param.Mode = "id" then
      match users.find? (fun x => x.UUID == param.ID) with
      | some x => (users, (some x, none))
      | none => (users, (none, some GoError.ErrUserNotFound))
    else (users, (none, some GoError.ErrModeSearch))
  UpdateUser := fun users user =>
    (users.map (fun x => if x.UUID = user.UUID then user else x), none)
  DeleteUser := fun users id => (users.filter (fun x => x.UUID != id), none)

/-- A stand-in for bcrypt in the examples: the digest of `p` is `p` behind a
fixed tag, and a password longer than 72 bytes is refused. -/
def toyBcrypt : Bcrypt where
  CompareHashAndPassword := fun hash password =>
    if hash = "$2a$10$" ++ password then none
    else some (GoError.external
      "crypto/bcrypt: hashedPassword is not the hash of the given password")
  GenerateFromPassword := fun _ password _ =>
    if password.utf8ByteSize > 72 then
      ("", some (GoError.external "bcrypt: password length exceeds 72 bytes"))
    else ("$2a$10$" ++ password, none)

/-- Example repository with a time to live of one hour. -/
def exampleRepo : SessionsRepo := { TTLKeys := 3600 }

/-- Example payload, as in the tests of the use case. -/
def examplePayload : SessionPayload :=
  { UserUUID := "62a16b1d-bbfe-419e-aab7-54e6fb101067", UserName := "JohnDoe",
    UserRoles := ["user"] }

/-- Example user, as in the tests of the use case. -/
def exampleUser : User :=
  { UUID := "62a16b1d-bbfe-419e-aab7-54e6fb101067", FirstName := "John", LastName := "Doe",
    UserName := "JohnDoe", Email := "john.doe@example.com", Phone := none,
    PasswordHash := "$2a$10$password123", Roles := ["user"] }

/-- Example use case over the in-memory directory and the example session
repository. -/
def exampleAuth : AuthUseCase (List User) RedisStore :=
  { repo := memoryDirectory "00000000-0000-0000-0000-000000000001",
    sessionDB := exampleRepo.asInterface,
    bcrypt := toyBcrypt }

/-- Example world: the example user is registered and nobody is logged in. -/
def exampleWorld : World (List User) RedisStore :=
  { dir := [exampleUser], sess := RedisStore.empty, calls := [] }

/-- Example payload whose role list is empty. -/
def emptyRolesPayload : SessionPayload :=
  { UserUUID := "u1", UserName := "Bob", UserRoles := [] }

/-- Example payload with a role that contains a comma. -/
def commaRolePayload : SessionPayload :=
  { UserUUID := "u2", UserName := "Eve", UserRoles := ["read,write"] }

/-- Example payload of a second login of the example user. -/
def reloginPayload : SessionPayload :=
  { UserUUID := "62a16b1d-bbfe-419e-aab7-54e6fb101067", UserName := "Johnny",
    UserRoles := ["user", "editor"] }

/-- Example payload of a second login of the example user, without roles. -/
def reloginNoRoles : SessionPayload :=
  { UserUUID := "62a16b1d-bbfe-419e-aab7-54e6fb101067", UserName := "Johnny",
    UserRoles := [] }

/-- Example store: the example session has been created on the empty
store. -/
def exampleStore : RedisStore :=
  (exampleRepo.CreateSession RedisStore.empty examplePayload none none).1

/-- Example login request with a wrong password for the example user. -/
def wrongPasswordLogin : LoginRequest :=
  { Email := "john.doe@example.com", Password := "wrongpassword" }

/-- Example repository configured with a time to live of zero. -/
def zeroTTLRepo : SessionsRepo := { TTLKeys := 0 }

/-- Example case tables: runes above ASCII are left alone. -/
def exampleTables : CaseTables := { upper := id, lower := id }

/-- Example login request with the password of the example user. -/
def goodLogin : LoginRequest :=
  { Email := "john.doe@example.com", Password := "password123" }

/-- Example registration request, as in the tests of the use case. -/
def exampleRegister : RegisterRequest :=
  { FirstName := "John", LastName := "Doe", Email := "john.doe@example.com",
    Password := "password123", Phone := "" }

/-- Example registration request whose password is 73 bytes long. -/
def longPasswordRegister : RegisterRequest :=
  { FirstName := "John", LastName := "Doe", Email := "john.doe@example.com",
    Password := String.mk (List.replicate 73 'a'), Phone := "" }

/-- Example world with an empty directory and an empty session store. -/
def emptyWorld : World (List User) RedisStore :=
  { dir := [], sess := RedisStore.empty, calls := [] }

/-- Example login request for an email that is not registered. -/
def unknownLogin : LoginRequest :=
  { Email := "unknown@example.com", Password := "password123" }

/-- The user the in-memory directory holds after the example registration. -/
def registeredExampleUser : User :=
  { UUID := "00000000-0000-0000-0000-000000000001", FirstName := "John", LastName := "Doe",
    UserName := "JohnDoe", Email := "john.doe@example.com", Phone := some "",
    PasswordHash := "$2a$10$password123", Roles := [] }

/-- Example error: `ErrUserNotFound` wrapped with a message. -/
def wrappedNotFound : GoError :=
  GoError.wrap "find user: user not found" GoError.ErrUserNotFound

/-- Example use case behind the interface `IAuthUseCase`, over a list of the
ids of the live sessions: logging in creates a session under the id
`user-1`, for the password `password123` only. -/
def listAuthUC : IAuthUseCase (List String) where
  Register := fun live data =>
    if data.Email = "taken@example.com" then (live, (none, some GoError.ErrUserAlreadyExists))
    else (live, (some { UUID := "user-1" }, none))
  Login := fun live data =>
    if data.Password = "password123" then ("user-1" :: live, (some { SessionID := "user-1" }, none))
    else (live, (none, some GoError.ErrInvalidPassword))
  Session := fun live uuid =>
    if uuid ∈ live then
      (live, (some { UserUUID := uuid, UserName := "JohnDoe", UserRoles := ["user"] }, none))
    else (live, (none, some GoError.ErrSessionNotFound))
  SessionDel := fun live uuid =>
    if uuid ∈ live then (live.filter (fun s => s != uuid), none)
    else (live, some GoError.ErrSessionNotFound)

/-- Example body decoder and validator for login requests: the body is the
email and the password separated by a blank, and both must be present. -/
def exampleLoginCodec : BodyCodec LoginRequest where
  jsonDecode := fun body =>
    match stringsSplit body ' ' with
    | [email, password] => ({ Email := email, Password := password }, none)
    | _ => ({ Email := "", Password := "" }, some (GoError.external "unexpected end of JSON input"))
  validatorStruct := fun data =>
    if data.Email = "" ∨ data.Password = "" then
      some (GoError.external "Field validation failed on the 'required' tag")
    else none

/-- Example body decoder and validator for registration requests: the body
is the email and the password separated by a blank, and both must be
present. -/
def exampleRegisterCodec : BodyCodec RegisterRequest where
  jsonDecode := fun body =>
    match stringsSplit body ' ' with
    | [email, password] =>
      ({ FirstName := "John", LastName := "Doe", Email := email, Password := password,
         Phone := "" }, none)
    | _ =>
      ({ FirstName := "", LastName := "", Email := "", Password := "", Phone := "" },
        some (GoError.external "unexpected end of JSON input"))
  validatorStruct := fun data =>
    if data.Email = "" ∨ data.Password = "" then
      some (GoError.external "Field validation failed on the 'required' tag")
    else none

/-- Example authentication handler. -/
def exampleHandlerAuth : HandlerAuth (List String) :=
  { authUC := listAuthUC, registerCodec := exampleRegisterCodec,
    loginCodec := exampleLoginCodec }

/-- Example exchange: nobody is logged in and nothing is written yet. -/
def newExchange : Exchange (List String) :=
  { env := [], w := ResponseWriter.new, events := [], panicked := false }

/-- Example request without cookies and without identity in its context. -/
def bareRequest : Request := { cookies := [], ctx := [], body := "" }

/-- Example request of a login with the right password. -/
def loginRequest : Request :=
  { cookies := [], ctx := [], body := "john.doe@example.com password123" }

/-- Example authorization middleware over the example session repository. -/
def exampleGate : MiddlewareAuth RedisStore := { sessionDB := exampleRepo.asInterface }

/-- Example exchange over the example store: nothing is written yet. -/
def storeExchange : Exchange RedisStore :=
  { env := exampleStore, w := ResponseWriter.new, events := [], panicked := false }

/-- A next handler that does nothing. -/
def idleHandler : Handler RedisStore := fun x _ => x

/-- Example request carrying the session cookie of the example user. -/
def cookieRequest : Request :=
  { cookies := [{ Name := "sessionId", Value := "62a16b1d-bbfe-419e-aab7-54e6fb101067",
                  Path := "", HttpOnly := false, Secure := false, MaxAge := 0 }],
    ctx := [], body := "" }

/-- Example request carrying a session cookie for which no session is
stored. -/
def staleCookieRequest : Request :=
  { cookies := [{ Name := "sessionId", Value := "no-such-session",
                  Path := "", HttpOnly := false, Secure := false, MaxAge := 0 }],
    ctx := [], body := "" }

/-- The cookie of the `Set-Cookie` header that carries session id `v`. -/
def sessionHttpCookie (v : String) : HttpCookie :=
  { Name := "sessionId", Value := v, Path := "/", HttpOnly := true, Secure := false,
    MaxAge := 300 }

/-- Example request of a registration. -/
def registerRequest : Request :=
  { cookies := [], ctx := [], body := "new.user@example.com password123" }

/-- Example request carrying the session id of the example user in a cookie
named `session_id`, the name the API documentation gives. -/
def documentedCookieRequest : Request :=
  { cookies := [{ Name := "session_id", Value := "62a16b1d-bbfe-419e-aab7-54e6fb101067",
                  Path := "", HttpOnly := false, Secure := false, MaxAge := 0 }],
    ctx := [], body := "" }

/-- Example request whose context carries the identity `user-1`. -/
def identityRequest : Request :=
  { cookies := [], ctx := [(SessionIdAndUserId, GoAny.str "user-1")], body := "" }

/-- Example exchange in which the session `user-1` is live and nothing is
written yet. -/
def liveExchange : Exchange (List String) :=
  { env := ["user-1"], w := ResponseWriter.new, events := [], panicked := false }

/-- A validator library whose regular-expression tags accept everything. -/
def lenientValidatorLib : ValidatorLib :=
  { ascii := fun _ => true, alpha := fun _ => true, email := fun _ => true,
    e164 := fun _ => true }

/-- Example authentication handler whose registration bodies are validated by
the tags of `dto.RegisterRequest`. -/
def taggedHandlerAuth : HandlerAuth (List String) :=
  { authUC := listAuthUC,
    registerCodec :=
      { jsonDecode := exampleRegisterCodec.jsonDecode,
        validatorStruct := validateRegisterRequest lenientValidatorLib },
    loginCodec := exampleLoginCodec }

/-- Example request of a registration with the email of a registered
user. -/
def takenRegisterRequest : Request :=
  { cookies := [], ctx := [], body := "taken@example.com password123" }

/-- Example registration data with every field valid and no phone. -/
def noPhoneRegister : RegisterRequest :=
  { FirstName := "John", LastName := "Doe", Email := "new.user@example.com",
    Password := "password123", Phone := "" }

/-- Example user use case over the in-memory directory. -/
def exampleUserUC : UserUseCase (List User) :=
  { repo := memoryDirectory "00000000-0000-0000-0000-000000000001", bcrypt := toyBcrypt }

/-- Example body decoder and validator for update requests: the body is the
email and the password separated by a blank, and both must be present. -/
def exampleUpdateCodec : BodyCodec UpdateRequest where
  jsonDecode := fun body =>
    match stringsSplit body ' ' with
    | [email, password] =>
      ({ FirstName := "Johnny", LastName := "Doe", Email := email, Password := password,
         Phone := "+79991234567" }, none)
    | _ =>
      ({ FirstName := "", LastName := "", Email := "", Password := "", Phone := "" },
        some (GoError.external "unexpected end of JSON input"))
  validatorStruct := fun data =>
    if data.Email = "" ∨ data.Password = "" then
      some (GoError.external "Field validation failed on the 'required' tag")
    else none

/-- Example authentication use case behind the interface `IAuthUseCase`, over
worlds of the in-memory directory: it does nothing. -/
def idleAuthUC : IAuthUseCase (World (List User) RedisStore) where
  Register := fun w _ => (w, (none, some GoError.ErrTypeConversion))
  Login := fun w _ => (w, (none, some GoError.ErrTypeConversion))
  Session := fun w _ => (w, (none, some GoError.ErrSessionNotFound))
  SessionDel := fun w _ => (w, some GoError.ErrSessionNotFound)

/-- Example user handler over the example user use case. -/
def exampleHandlerUser : HandlerUser (World (List User) RedisStore) :=
  { userUC := exampleUserUC.asInterface exampleTables 0, authUC := idleAuthUC,
    updateCodec := exampleUpdateCodec }

/-- Example exchange over the example world: nothing is written yet. -/
def worldExchange : Exchange (World (List User) RedisStore) :=
  { env := exampleWorld, w := ResponseWriter.new, events := [], panicked := false }

/-- Example request of an update by the example user, as it leaves the
gate. -/
def updateRequest : Request :=
  { cookies := [],
    ctx := [(SessionIdAndUserId, GoAny.str "62a16b1d-bbfe-419e-aab7-54e6fb101067")],
    body := "johnny@example.com newpassword1" }

/-- Example list of allowed domains of the CORS middleware. -/
def exampleAllowedDomains : List String := ["https://app.example"]

/-- Example `POST` request sent from an origin outside the allowed domains. -/
def foreignOriginRequest : Request :=
  { cookies := [], ctx := [], body := "", method := "POST",
    header := [("Origin", "https://evil.example")] }

/-- Example `OPTIONS` request sent from an origin outside the allowed
domains. -/
def foreignPreflightRequest : Request :=
  { cookies := [], ctx := [], body := "", method := "OPTIONS",
    header := [("Origin", "https://evil.example")] }

/-- A next handler that records the method it served in its collaborator and
writes a body. -/
def servingHandler : Handler (List String) :=
  fun x r => { x with env := x.env ++ ["served " ++ r.method],
                      w := x.w.Write (JsonData.raw "account data") }

/-! # Theorems -/

/-! ## Derived user name -/

theorem stringsIndexByteFrom_cases (c : Char) (s : List Char) (i : Nat) :
    (c ∉ s ∧ stringsIndexByteFrom c s i = -1) ∨
      (c ∈ s ∧ stringsIndexByteFrom c s i =
        ((i + (s.takeWhile (fun x => x != c)).length : Nat) : Int)) := by
  induction s generalizing i with
  | nil => left; simp [stringsIndexByteFrom]
  | cons x xs ih =>
    by_cases hx : x = c
    · right; subst hx; simp [stringsIndexByteFrom]
    · rcases ih (i + 1) with ⟨h1, h2⟩ | ⟨h1, h2⟩
      · left
        refine ⟨by simp [h1, Ne.symm hx], ?_⟩
        simp [stringsIndexByteFrom, hx, h2]
      · right
        refine ⟨by simp [h1], ?_⟩
        simp only [stringsIndexByteFrom, hx, if_false, h2]
        have : (x != c) = true := by simp [hx]
        simp [List.takeWhile_cons, this]
        omega

theorem take_length_takeWhile (p : Char → Bool) (s : List Char) :
    s.take (s.takeWhile p).length = s.takeWhile p := by
  induction s with
  | nil => rfl
  | cons x xs ih =>
    by_cases h : p x
    · simp [List.takeWhile_cons, h, ih]
    · simp [List.takeWhile_cons, h]

theorem takeWhile_ne_of_not_mem (c : Char) (s : List Char) (h : c ∉ s) :
    s.takeWhile (fun x => x != c) = s := by
  induction s with
  | nil => rfl
  | cons x xs ih =>
    have hx : x ≠ c := fun e => h (by simp [e])
    have hxs : c ∉ xs := fun e => h (by simp [e])
    simp [List.takeWhile_cons, hx, ih hxs]

/-- The slice `email[:atIndex]`, or the whole string when `IndexByte` finds no
`@`, is the prefix before the first `@`. -/
theorem localPart_eq (s : List Char) :
    (if stringsIndexByte s '@' = -1 then s else s.take (stringsIndexByte s '@').toNat) =
      specLocalPart s := by
  unfold stringsIndexByte specLocalPart
  rcases stringsIndexByteFrom_cases '@' s 0 with ⟨h1, h2⟩ | ⟨h1, h2⟩
  · rw [h2, if_pos rfl, takeWhile_ne_of_not_mem _ _ h1]
  · rw [h2]
    have : ¬ (((0 + (s.takeWhile (fun x => x != '@')).length : Nat) : Int) = -1) := by omega
    rw [if_neg this]
    simp [take_length_takeWhile]

/-- The non-empty pieces of the regular-expression split are the non-empty
pieces of a split at every single separator character. -/
theorem regexpSplitScan_filter (s : List Char) :
    (∀ cur, (regexpSplitScan s cur false).filter (fun seg => !seg.isEmpty) =
        ((s.splitOnP (fun c => !isAlnumASCII c)).modifyHead (cur.reverse ++ ·)).filter
          (fun seg => !seg.isEmpty)) ∧
    ((regexpSplitScan s [] true).filter (fun seg => !seg.isEmpty) =
        (s.splitOnP (fun c => !isAlnumASCII c)).filter (fun seg => !seg.isEmpty)) := by
  induction s with
  | nil => simp [regexpSplitScan, List.modifyHead]
  | cons c cs ih =>
    obtain ⟨iha, ihb⟩ := ih
    by_cases hc : isAlnumASCII c
    · constructor
      · intro cur
        simp only [regexpSplitScan, hc, if_true, List.splitOnP_cons, Bool.not_true,
          Bool.false_eq_true, if_false, iha, List.modifyHead_modifyHead]
        congr 2
        funext x
        simp
      · simp only [regexpSplitScan, hc, if_true, List.splitOnP_cons, Bool.not_true,
          Bool.false_eq_true, if_false, iha]
        congr 2
    · constructor
      · intro cur
        simp only [regexpSplitScan, hc, Bool.false_eq_true, if_false, List.splitOnP_cons,
          Bool.not_false, if_true, List.modifyHead, List.append_nil, List.filter_cons, ihb]
      · simp [regexpSplitScan, hc, ihb]

/-- The string builder after the loop over the parts. -/
theorem foldl_withUserNameStep (tbl : CaseTables) (parts : List (List Char))
    (sb : List Char) :
    parts.foldl (withUserNameStep tbl) sb =
      sb ++ ((parts.filter (fun seg => !seg.isEmpty)).map (specCapitalize tbl)).flatten := by
  induction parts generalizing sb with
  | nil => simp
  | cons p ps ih =>
    cases p with
    | nil => simp [withUserNameStep, ih]
    | cons r0 rest =>
      simp [withUserNameStep, ih, specCapitalize]

/-- The user name computed by `WithUserName` is the one the specification
describes. -/
theorem withUserName_eq_spec (tbl : CaseTables) (b : UserBuilder) (email : String) :
    (b.WithUserName tbl email).u.UserName = specUserName tbl email := by
  unfold UserBuilder.WithUserName specUserName
  by_cases he : email = ""
  · subst he
    simp [specLocalPart, specSegments]
  · simp only [he, if_false]
    rw [localPart_eq, foldl_withUserNameStep]
    simp only [regexpSplit, List.nil_append, specSegments]
    have := (regexpSplitScan_filter (specLocalPart email.data)).1 []
    simp only [List.reverse_nil, List.nil_append] at this
    rw [this]
    congr 3
    cases (List.splitOnP (fun c => !isAlnumASCII c) (specLocalPart email.data)) <;>
      simp [List.modifyHead]

/-- C1: for every email, `WithUserName` sets `UserName` to the concatenation,
in order, of the non-empty segments of the part before the first `@` split at
the characters outside `[a-zA-Z0-9]`, each with its first character
upper-cased and the rest lower-cased; `john.doe@example.com` gives `JohnDoe`
and the empty email gives the empty name. -/
theorem C1_withUserName_spec (tbl : CaseTables) (b : UserBuilder) :
    (∀ email : String, (b.WithUserName tbl email).u.UserName = specUserName tbl email) ∧
    (b.WithUserName tbl "john.doe@example.com").u.UserName = "JohnDoe" ∧
    (b.WithUserName tbl "").u.UserName = "" :=
  ⟨fun email => withUserName_eq_spec tbl b email, rfl, rfl⟩

/-! ## Session store -/

theorem lookup_hashSet_self (h : RedisHash) (f v : String) :
    (hashSet h f v).lookup f = some v := by
  induction h with
  | nil => simp [hashSet, List.lookup]
  | cons p rest ih =>
    obtain ⟨g, w⟩ := p
    by_cases hg : g = f
    · simp [hashSet, hg, List.lookup]
    · have : (f == g) = false := by simpa using Ne.symm hg
      simp [hashSet, hg, List.lookup, this, ih]

theorem lookup_hashSet_ne (h : RedisHash) (f g v : String) (hne : g ≠ f) :
    (hashSet h f v).lookup g = h.lookup g := by
  induction h with
  | nil =>
    have : (g == f) = false := by simpa using hne
    simp [hashSet, List.lookup, this]
  | cons p rest ih =>
    obtain ⟨k, w⟩ := p
    by_cases hk : k = f
    · subst hk
      have : (g == k) = false := by simpa using hne
      simp [hashSet, List.lookup, this]
    · by_cases hgk : g = k
      · subst hgk; simp [hashSet, hk, List.lookup]
      · have : (g == k) = false := by simpa using hgk
        simp [hashSet, hk, List.lookup, this, ih]

theorem hashSet_ne_nil (h : RedisHash) (f v : String) : hashSet h f v ≠ [] := by
  cases h with
  | nil => simp [hashSet]
  | cons p rest =>
    obtain ⟨g, w⟩ := p
    by_cases hg : g = f <;> simp [hashSet, hg]

/-- The three fields of the hash written by `CreateSession`, whatever hash
`h` was stored under the key before. -/
theorem sessionPairs_lookup (h : RedisHash) (payload : SessionPayload) :
    (hashSetAll h (sessionPairs payload)).lookup "user_id" = some payload.UserUUID ∧
    (hashSetAll h (sessionPairs payload)).lookup "user_name" = some payload.UserName ∧
    (hashSetAll h (sessionPairs payload)).lookup "user_roles" =
      some (stringsJoin payload.UserRoles ",") ∧
    (hashSetAll h (sessionPairs payload)).length ≠ 0 := by
  simp only [hashSetAll, sessionPairs, List.foldl]
  refine ⟨?_, ?_, ?_, ?_⟩
  · rw [lookup_hashSet_ne _ _ _ _ (by decide), lookup_hashSet_ne _ _ _ _ (by decide),
      lookup_hashSet_self]
  · rw [lookup_hashSet_ne _ _ _ _ (by decide), lookup_hashSet_self]
  · rw [lookup_hashSet_self]
  · intro h0
    exact hashSet_ne_nil _ _ _ (List.length_eq_zero.mp h0)

/-- Decoding the hash written by `CreateSession`. -/
theorem getSessionFrom_sessionPairs (h : RedisHash) (payload : SessionPayload) :
    SessionsRepo.getSessionFrom (some (hashSetAll h (sessionPairs payload))) none =
      (some { UserUUID := payload.UserUUID, UserName := payload.UserName,
              UserRoles := stringsSplit (stringsJoin payload.UserRoles ",") ',' }, none) := by
  obtain ⟨h1, h2, h3, h4⟩ := sessionPairs_lookup h payload
  simp only [SessionsRepo.getSessionFrom, Option.getD_some, h4, if_false, h1, h2, h3]

theorem stringsJoin_data (e : String) (rest : List String) :
    (stringsJoin (e :: rest) ",").data =
      e.data ++ (rest.map (fun s => ',' :: s.data)).flatten := by
  have key : ∀ (sep : List Char) (rest : List String) (acc : List Char),
      rest.foldl (fun b s => b ++ sep ++ s.data) acc =
        acc ++ (rest.map (fun s => sep ++ s.data)).flatten := by
    intro sep rest
    induction rest with
    | nil => intro acc; simp
    | cons r rs ih =>
      intro acc
      rw [List.foldl_cons, ih]
      simp
  cases rest with
  | nil => simp [stringsJoin]
  | cons r rs =>
    simp only [stringsJoin, key]
    rfl

theorem stringsSplitScan_append (x rest cur : List Char) (hx : ',' ∉ x) :
    stringsSplitScan ',' (x ++ rest) cur = stringsSplitScan ',' rest (x.reverse ++ cur) := by
  induction x generalizing cur with
  | nil => simp
  | cons c cs ih =>
    have hc : c ≠ ',' := fun e => hx (by simp [e])
    have hcs : ',' ∉ cs := fun e => hx (by simp [e])
    simp [stringsSplitScan, hc, ih _ hcs]

theorem stringsSplitScan_join (rest : List String) (e cur : List Char) (he : ',' ∉ e)
    (hrest : ∀ s ∈ rest, ',' ∉ s.data) :
    stringsSplitScan ',' (e ++ (rest.map (fun s => ',' :: s.data)).flatten) cur =
      (cur.reverse ++ e) :: rest.map (fun s => s.data) := by
  induction rest generalizing e cur with
  | nil =>
    have := stringsSplitScan_append e [] cur he
    simp only [List.append_nil] at this
    simp [this, stringsSplitScan]
  | cons r rs ih =>
    rw [stringsSplitScan_append _ _ _ he]
    have := ih r.data [] (hrest r (by simp)) (fun s hs => hrest s (by simp [hs]))
    simp only [List.reverse_nil, List.nil_append] at this
    simp only [List.map_cons, List.flatten_cons, List.cons_append, stringsSplitScan, if_true,
      this]
    simp
    exact this

/-- Splitting the comma-joined role list gives the list back when it is not
empty and no role contains a comma. -/
theorem stringsSplit_stringsJoin (roles : List String) (hne : roles ≠ [])
    (hcomma : ∀ role ∈ roles, ',' ∉ role.data) :
    stringsSplit (stringsJoin roles ",") ',' = roles := by
  cases roles with
  | nil => exact absurd rfl hne
  | cons e rest =>
    unfold stringsSplit
    rw [stringsJoin_data, stringsSplitScan_join rest e.data [] (hcomma e (by simp))
      (fun s hs => hcomma s (by simp [hs]))]
    simp only [List.reverse_nil, List.nil_append, List.map_cons, List.map_map]
    congr 1
    exact List.map_id _

/-- A call of `CreateSession` that reports no error had no failing Redis
command. -/
theorem createSession_ok_faults (r : SessionsRepo) (st : RedisStore) (u : SessionPayload)
    (fHSet fExpire : Option Fault)
    (hok : (r.CreateSession st u fHSet fExpire).2.2 = none) :
    fHSet = none ∧ fExpire = none := by
  cases fHSet with
  | some f => simp [SessionsRepo.CreateSession, redisHSet] at hok
  | none =>
    cases fExpire with
    | some f => simp [SessionsRepo.CreateSession, redisHSet, redisExpire] at hok
    | none => exact ⟨rfl, rfl⟩

/-- The record under the key after a `CreateSession` on which no Redis
command failed: the session fields written over the hash that was there
before (the empty hash when the key was missing), with the configured time to
live. -/
theorem createSession_store (r : SessionsRepo) (st : RedisStore) (u : SessionPayload)
    (hTTL : 0 < r.TTLKeys) :
    (r.CreateSession st u none none).1 u.UserUUID =
      some { fields := hashSetAll (match st u.UserUUID with
                                    | some e => e.fields
                                    | none => []) (sessionPairs u),
             ttl := some r.TTLKeys } := by
  have hn : ¬ r.TTLKeys ≤ 0 := by omega
  cases h : st u.UserUUID <;>
    simp [SessionsRepo.CreateSession, redisHSet, redisExpire, expireApply, hsetApply, h, hn,
      sessionPairs]

theorem createSession_result (r : SessionsRepo) (st : RedisStore) (u : SessionPayload) :
    (r.CreateSession st u none none).2 = (u.UserUUID, none) := by
  simp [SessionsRepo.CreateSession, redisHSet, redisExpire]

/-- Reading back right after a write: the payload with its role list encoded
and decoded. -/
theorem getSession_after_create (r : SessionsRepo) (st : RedisStore) (u : SessionPayload)
    (hTTL : 0 < r.TTLKeys) :
    r.GetSession (r.CreateSession st u none none).1 u.UserUUID none =
      (some { UserUUID := u.UserUUID, UserName := u.UserName,
              UserRoles := stringsSplit (stringsJoin u.UserRoles ",") ',' }, none) := by
  simp only [SessionsRepo.GetSession, redisHGetAll, createSession_store r st u hTTL]
  exact getSessionFrom_sessionPairs _ u

/-- C2 (amended): for every payload `u` whose role list is not empty and has
no role containing a comma, on a repository with a positive time to live, a
successful `CreateSession(u)` followed at once by `GetSession(u.UserUUID)`
returns a payload equal to `u` in all three fields. -/
theorem C2_session_round_trip (r : SessionsRepo) (st : RedisStore) (u : SessionPayload)
    (fHSet fExpire : Option Fault) (hTTL : 0 < r.TTLKeys) (hne : u.UserRoles ≠ [])
    (hcomma : ∀ role ∈ u.UserRoles, ',' ∉ role.data)
    (hok : (r.CreateSession st u fHSet fExpire).2.2 = none) :
    (r.CreateSession st u fHSet fExpire).2.1 = u.UserUUID ∧
    r.GetSession (r.CreateSession st u fHSet fExpire).1 u.UserUUID none = (some u, none) := by
  obtain ⟨h1, h2⟩ := createSession_ok_faults r st u fHSet fExpire hok
  subst h1; subst h2
  refine ⟨by rw [createSession_result], ?_⟩
  rw [getSession_after_create r st u hTTL, stringsSplit_stringsJoin _ hne hcomma]

/-- C2, worked example: the example payload written to the empty store is
read back unchanged. -/
theorem C2_session_round_trip_witness :
    (exampleRepo.CreateSession RedisStore.empty examplePayload none none).2.1 =
        examplePayload.UserUUID ∧
    exampleRepo.GetSession
        (exampleRepo.CreateSession RedisStore.empty examplePayload none none).1
        examplePayload.UserUUID none = (some examplePayload, none) :=
  C2_session_round_trip exampleRepo RedisStore.empty examplePayload none none
    (by decide) (by decide) (by decide) (by decide)

/-- C2, counterexample to the claim as stated: a payload with an empty role
list, and one with a role containing a comma, are written successfully and
read back with a different role list. -/
theorem C2_round_trip_counterexample :
    (exampleRepo.CreateSession RedisStore.empty emptyRolesPayload none none).2 =
      ("u1", none) ∧
    exampleRepo.GetSession
        (exampleRepo.CreateSession RedisStore.empty emptyRolesPayload none none).1 "u1" none =
      (some { UserUUID := "u1", UserName := "Bob", UserRoles := [""] }, none) ∧
    exampleRepo.GetSession
        (exampleRepo.CreateSession RedisStore.empty emptyRolesPayload none none).1 "u1" none ≠
      (some emptyRolesPayload, none) ∧
    (exampleRepo.CreateSession RedisStore.empty commaRolePayload none none).2 =
      ("u2", none) ∧
    exampleRepo.GetSession
        (exampleRepo.CreateSession RedisStore.empty commaRolePayload none none).1 "u2" none =
      (some { UserUUID := "u2", UserName := "Eve", UserRoles := ["read", "write"] }, none) ∧
    exampleRepo.GetSession
        (exampleRepo.CreateSession RedisStore.empty commaRolePayload none none).1 "u2" none ≠
      (some commaRolePayload, none) := by
  decide

theorem keyIsUserId_hsetApply (st : RedisStore) (u : SessionPayload) (h : KeyIsUserId st) :
    KeyIsUserId (hsetApply st u.UserUUID (sessionPairs u)) := by
  intro k e hk
  unfold hsetApply at hk
  by_cases hkey : k = u.UserUUID
  · subst hkey
    simp only [if_true] at hk
    cases hst : st u.UserUUID with
    | none =>
      rw [hst] at hk
      simp only [Option.some.injEq] at hk
      subst hk
      exact (sessionPairs_lookup [] u).1
    | some e0 =>
      rw [hst] at hk
      simp only [Option.some.injEq] at hk
      subst hk
      exact (sessionPairs_lookup e0.fields u).1
  · simp only [hkey, if_false] at hk
    exact h k e hk

theorem keyIsUserId_expireApply (st : RedisStore) (key : String) (seconds : Int)
    (h : KeyIsUserId st) : KeyIsUserId (expireApply st key seconds) := by
  intro k e hk
  unfold expireApply at hk
  by_cases hkey : k = key
  · subst hkey
    simp only [if_true] at hk
    cases hst : st k with
    | none => rw [hst] at hk; simp at hk
    | some e0 =>
      rw [hst] at hk
      by_cases hs : seconds ≤ 0
      · simp [hs] at hk
      · simp only [hs, if_false, Option.some.injEq] at hk
        subst hk
        exact h k e0 hst
  · simp only [hkey, if_false] at hk
    exact h k e hk

theorem keyIsUserId_delApply (st : RedisStore) (key : String) (h : KeyIsUserId st) :
    KeyIsUserId (delApply st key) := by
  intro k e hk
  unfold delApply at hk
  by_cases hkey : k = key
  · simp [hkey] at hk
  · simp only [hkey, if_false] at hk
    exact h k e hk

/-- Every repository call keeps the store invariant, whichever of its Redis
commands fail. -/
theorem keyIsUserId_step (r : SessionsRepo) (st : RedisStore) (op : SessionOp)
    (h : KeyIsUserId st) : KeyIsUserId (r.step st op) := by
  cases op with
  | create u fHSet fExpire =>
    have h1 := keyIsUserId_hsetApply st u h
    have h2 := keyIsUserId_expireApply _ u.UserUUID r.TTLKeys h1
    simp only [SessionsRepo.step, SessionsRepo.CreateSession, redisHSet, redisExpire]
    rcases fHSet with _ | ⟨e1, a1⟩
    · rcases fExpire with _ | ⟨e2, a2⟩
      · exact h2
      · cases a2
        · exact h1
        · exact h2
    · cases a1
      · exact h
      · exact h1
  | delete id fDel =>
    have h1 := keyIsUserId_delApply st id h
    simp only [SessionsRepo.step, SessionsRepo.DeleteSession, redisDel]
    rcases fDel with _ | ⟨e1, a1⟩
    · by_cases hp : (st id).isSome <;> simpa [hp] using h1
    · cases a1
      · exact h
      · exact h1

theorem keyIsUserId_foldl (r : SessionsRepo) (ops : List SessionOp) (st : RedisStore)
    (h : KeyIsUserId st) : KeyIsUserId (ops.foldl r.step st) := by
  induction ops generalizing st with
  | nil => exact h
  | cons op rest ih => exact ih _ (keyIsUserId_step r st op h)

/-- A successful decode returns the value of the `user_id` field. -/
theorem getSessionFrom_ok_userId (m : RedisHash) (p : SessionPayload)
    (hp : (SessionsRepo.getSessionFrom (some m) none).1 = some p) :
    m.lookup "user_id" = some p.UserUUID := by
  by_cases hm : m.length = 0
  · simp [SessionsRepo.getSessionFrom, hm] at hp
  · cases h1 : m.lookup "user_id" with
    | none => simp [SessionsRepo.getSessionFrom, hm, h1] at hp
    | some a =>
      cases h2 : m.lookup "user_name" with
      | none => simp [SessionsRepo.getSessionFrom, hm, h1, h2] at hp
      | some b =>
        cases h3 : m.lookup "user_roles" with
        | none => simp [SessionsRepo.getSessionFrom, hm, h1, h2, h3] at hp
        | some c =>
          simp only [SessionsRepo.getSessionFrom, Option.getD_some, hm, if_false, h1, h2, h3,
            Option.some.injEq] at hp
          rw [← hp]

/-- C3: in every store state reached from the empty store by a sequence of
`CreateSession` and `DeleteSession` calls (whichever Redis commands fail on
the way), the key of each stored record equals its `user_id` field; hence a
successful `GetSession(sessionID)` returns a payload whose `UserUUID` is
`sessionID`, and no two records carry the same user id. -/
theorem C3_store_invariant (r : SessionsRepo) (ops : List SessionOp) :
    (∀ k e, r.run ops k = some e → e.fields.lookup "user_id" = some k) ∧
    (∀ sessionID fRead p,
      (r.GetSession (r.run ops) sessionID fRead).2 = none →
      (r.GetSession (r.run ops) sessionID fRead).1 = some p →
      p.UserUUID = sessionID) ∧
    (∀ k1 k2 e1 e2, r.run ops k1 = some e1 → r.run ops k2 = some e2 →
      e1.fields.lookup "user_id" = e2.fields.lookup "user_id" → k1 = k2) := by
  have hinv : KeyIsUserId (r.run ops) :=
    keyIsUserId_foldl r ops RedisStore.empty (by intro k e hk; simp [RedisStore.empty] at hk)
  refine ⟨hinv, ?_, ?_⟩
  · intro sessionID fRead p herr hp
    cases fRead with
    | some f =>
      exfalso
      simp only [SessionsRepo.GetSession, redisHGetAll, SessionsRepo.getSessionFrom] at herr
      split at herr <;> simp at herr
    | none =>
      simp only [SessionsRepo.GetSession, redisHGetAll] at hp
      cases hst : r.run ops sessionID with
      | none =>
        rw [hst] at hp
        simp [SessionsRepo.getSessionFrom] at hp
      | some e =>
        rw [hst] at hp
        have h1 := getSessionFrom_ok_userId e.fields p hp
        have h2 := hinv sessionID e hst
        rw [h1] at h2
        exact Option.some.inj h2
  · intro k1 k2 e1 e2 h1 h2 heq
    have a1 := hinv k1 e1 h1
    have a2 := hinv k2 e2 h2
    rw [heq, a2] at a1
    exact (Option.some.inj a1).symm

/-- Writing the fields of a second payload over those of a first one leaves
exactly the fields of the second. -/
theorem hashSetAll_sessionPairs_twice (p1 p2 : SessionPayload) :
    hashSetAll (hashSetAll [] (sessionPairs p1)) (sessionPairs p2) = sessionPairs p2 := by
  simp [hashSetAll, sessionPairs, hashSet]

/-- C4 (amended): for two payloads `p1` and `p2` with the same `UserUUID`,
where the role list of `p2` is not empty and has no role containing a comma
and the time to live is positive, after a successful `CreateSession(p1)`
followed by a successful `CreateSession(p2)` the store holds one record under
that key, its three session fields are those of `p2` (and they are its only
fields when the key was free before), and `GetSession` returns `p2`. -/
theorem C4_relogin_replaces (r : SessionsRepo) (st : RedisStore) (p1 p2 : SessionPayload)
    (f1 f2 f3 f4 : Option Fault) (hTTL : 0 < r.TTLKeys)
    (hid : p1.UserUUID = p2.UserUUID) (hne : p2.UserRoles ≠ [])
    (hcomma : ∀ role ∈ p2.UserRoles, ',' ∉ role.data)
    (hok1 : (r.CreateSession st p1 f1 f2).2.2 = none)
    (hok2 : (r.CreateSession (r.CreateSession st p1 f1 f2).1 p2 f3 f4).2.2 = none) :
    (∃ e, (r.CreateSession (r.CreateSession st p1 f1 f2).1 p2 f3 f4).1 p2.UserUUID = some e ∧
      e.fields.lookup "user_id" = some p2.UserUUID ∧
      e.fields.lookup "user_name" = some p2.UserName ∧
      e.fields.lookup "user_roles" = some (stringsJoin p2.UserRoles ",") ∧
      (st p2.UserUUID = none → e.fields = sessionPairs p2)) ∧
    r.GetSession (r.CreateSession (r.CreateSession st p1 f1 f2).1 p2 f3 f4).1
      p2.UserUUID none = (some p2, none) := by
  obtain ⟨h1, h2⟩ := createSession_ok_faults r st p1 f1 f2 hok1
  subst h1; subst h2
  obtain ⟨h3, h4⟩ := createSession_ok_faults r _ p2 f3 f4 hok2
  subst h3; subst h4
  constructor
  · rw [createSession_store r _ p2 hTTL]
    refine ⟨_, rfl, ?_⟩
    obtain ⟨a, b, c, _⟩ := sessionPairs_lookup
      (match (r.CreateSession st p1 none none).1 p2.UserUUID with
        | some e => e.fields
        | none => []) p2
    refine ⟨a, b, c, ?_⟩
    intro hfree
    have := createSession_store r st p1 hTTL
    rw [hid] at this
    simp only [this, hid, hfree]
    exact hashSetAll_sessionPairs_twice p1 p2
  · rw [getSession_after_create r _ p2 hTTL, stringsSplit_stringsJoin _ hne hcomma]

/-- C4, worked example: a second login of the example user under another
name replaces the first session. -/
theorem C4_relogin_replaces_witness :
    (∃ e, (exampleRepo.CreateSession
        (exampleRepo.CreateSession RedisStore.empty examplePayload none none).1
        reloginPayload none none).1 reloginPayload.UserUUID = some e ∧
      e.fields.lookup "user_id" = some reloginPayload.UserUUID ∧
      e.fields.lookup "user_name" = some reloginPayload.UserName ∧
      e.fields.lookup "user_roles" = some (stringsJoin reloginPayload.UserRoles ",") ∧
      (RedisStore.empty reloginPayload.UserUUID = none →
        e.fields = sessionPairs reloginPayload)) ∧
    exampleRepo.GetSession (exampleRepo.CreateSession
        (exampleRepo.CreateSession RedisStore.empty examplePayload none none).1
        reloginPayload none none).1 reloginPayload.UserUUID none =
      (some reloginPayload, none) :=
  C4_relogin_replaces exampleRepo RedisStore.empty examplePayload reloginPayload
    none none none none (by decide) (by decide) (by decide) (by decide) (by decide)
    (by decide)

/-- C4, counterexample to the claim as stated: the second payload has an
empty role list; both calls succeed and `GetSession` returns the one-element
role list holding the empty string, not the roles of the second payload.
Also, with a time to live of zero both calls succeed and the store holds no
record under the key, since Redis deletes a key given a non-positive
timeout. -/
theorem C4_relogin_counterexample :
    examplePayload.UserUUID = reloginNoRoles.UserUUID ∧
    (exampleRepo.CreateSession RedisStore.empty examplePayload none none).2.2 = none ∧
    (exampleRepo.CreateSession
        (exampleRepo.CreateSession RedisStore.empty examplePayload none none).1
        reloginNoRoles none none).2.2 = none ∧
    (exampleRepo.GetSession (exampleRepo.CreateSession
        (exampleRepo.CreateSession RedisStore.empty examplePayload none none).1
        reloginNoRoles none none).1 reloginNoRoles.UserUUID none).1 =
      some { UserUUID := reloginNoRoles.UserUUID, UserName := "Johnny", UserRoles := [""] } ∧
    (exampleRepo.GetSession (exampleRepo.CreateSession
        (exampleRepo.CreateSession RedisStore.empty examplePayload none none).1
        reloginNoRoles none none).1 reloginNoRoles.UserUUID none).1 ≠
      some reloginNoRoles ∧
    (zeroTTLRepo.CreateSession RedisStore.empty examplePayload none none).2.2 = none ∧
    (zeroTTLRepo.CreateSession
        (zeroTTLRepo.CreateSession RedisStore.empty examplePayload none none).1
        reloginPayload none none).2.2 = none ∧
    (zeroTTLRepo.CreateSession
        (zeroTTLRepo.CreateSession RedisStore.empty examplePayload none none).1
        reloginPayload none none).1 reloginPayload.UserUUID = none := by
  decide

/-- C5: `CreateSession` reports success only when both the field write and
the set-expiry step succeeded: it returns `payload.UserUUID` without error
exactly when neither `HSet` nor `Expire` failed; a failing `HSet` gives its
error and the empty id, and a failing `Expire` after a good `HSet` gives the
error of `Expire` and the empty id. -/
theorem C5_createSession_reports (r : SessionsRepo) (st : RedisStore)
    (payload : SessionPayload) (fHSet fExpire : Option Fault) :
    ((r.CreateSession st payload fHSet fExpire).2.2 = none ↔
      (fHSet = none ∧ fExpire = none)) ∧
    (fHSet = none → fExpire = none →
      (r.CreateSession st payload fHSet fExpire).2 = (payload.UserUUID, none)) ∧
    (∀ f, fHSet = some f →
      (r.CreateSession st payload fHSet fExpire).2 = ("", some f.err)) ∧
    (∀ f, fHSet = none → fExpire = some f →
      (r.CreateSession st payload fHSet fExpire).2 = ("", some f.err)) := by
  refine ⟨⟨createSession_ok_faults r st payload fHSet fExpire, ?_⟩, ?_, ?_, ?_⟩
  · rintro ⟨h1, h2⟩
    subst h1; subst h2
    rw [createSession_result]
  · intro h1 h2
    subst h1; subst h2
    exact createSession_result r st payload
  · intro f h1
    subst h1
    simp [SessionsRepo.CreateSession, redisHSet]
  · intro f h1 h2
    subst h1; subst h2
    simp [SessionsRepo.CreateSession, redisHSet, redisExpire]

theorem deleteSession_store (r : SessionsRepo) (st : RedisStore) (id : String) :
    (r.DeleteSession st id none).1 = delApply st id := by
  by_cases h : (st id).isSome <;> simp [SessionsRepo.DeleteSession, redisDel, h]

/-- Looking up a key the store does not hold. -/
theorem getSession_absent (r : SessionsRepo) (st : RedisStore) (id : String)
    (h : st id = none) :
    r.GetSession st id none = (none, some GoError.ErrSessionNotFound) := by
  simp [SessionsRepo.GetSession, redisHGetAll, h, SessionsRepo.getSessionFrom]

/-- C6: whenever `DeleteSession(id)` succeeds, a following `GetSession(id)`
fails with `ErrSessionNotFound`, both when the Redis read goes through and
when it fails without a result. -/
theorem C6_get_after_delete (r : SessionsRepo) (st : RedisStore) (id : String)
    (fDel : Option Fault) (hdel : (r.DeleteSession st id fDel).2 = none) :
    r.GetSession (r.DeleteSession st id fDel).1 id none =
      (none, some GoError.ErrSessionNotFound) ∧
    (∀ e, r.GetSession (r.DeleteSession st id fDel).1 id (some { val := none, err := e }) =
      (none, some GoError.ErrSessionNotFound)) := by
  cases fDel with
  | some f => simp [SessionsRepo.DeleteSession, redisDel] at hdel
  | none =>
    constructor
    · rw [deleteSession_store]
      exact getSession_absent r _ id (by simp [delApply])
    · intro e
      simp [SessionsRepo.GetSession, redisHGetAll, SessionsRepo.getSessionFrom]

/-- C6, worked example: the example session is created, deleted, and then
looked up. -/
theorem C6_get_after_delete_witness :
    exampleRepo.GetSession (exampleRepo.DeleteSession
        (exampleRepo.CreateSession RedisStore.empty examplePayload none none).1
        examplePayload.UserUUID none).1 examplePayload.UserUUID none =
      (none, some GoError.ErrSessionNotFound) ∧
    (∀ e, exampleRepo.GetSession (exampleRepo.DeleteSession
        (exampleRepo.CreateSession RedisStore.empty examplePayload none none).1
        examplePayload.UserUUID none).1 examplePayload.UserUUID
        (some { val := none, err := e }) =
      (none, some GoError.ErrSessionNotFound)) :=
  C6_get_after_delete exampleRepo
    (exampleRepo.CreateSession RedisStore.empty examplePayload none none).1
    examplePayload.UserUUID none (by decide)

/-- A repository call that is not a `CreateSession` for `id` leaves `id`
absent. -/
theorem step_absent (r : SessionsRepo) (st : RedisStore) (op : SessionOp) (id : String)
    (h : st id = none)
    (hop : ∀ p fH fE, op = SessionOp.create p fH fE → p.UserUUID ≠ id) :
    r.step st op id = none := by
  cases op with
  | create u fHSet fExpire =>
    have hne : ¬ id = u.UserUUID := fun e => hop u fHSet fExpire rfl e.symm
    have h1 : hsetApply st u.UserUUID (sessionPairs u) id = none := by
      simp [hsetApply, hne, h]
    have h2 : expireApply (hsetApply st u.UserUUID (sessionPairs u)) u.UserUUID r.TTLKeys id
        = none := by
      simp [expireApply, hne, h1]
    simp only [SessionsRepo.step, SessionsRepo.CreateSession, redisHSet, redisExpire]
    rcases fHSet with _ | ⟨e1, a1⟩
    · rcases fExpire with _ | ⟨e2, a2⟩
      · exact h2
      · cases a2
        · exact h1
        · exact h2
    · cases a1
      · exact h
      · exact h1
  | delete key fDel =>
    have h1 : delApply st key id = none := by
      by_cases hk : id = key <;> simp [delApply, hk, h]
    simp only [SessionsRepo.step, SessionsRepo.DeleteSession, redisDel]
    rcases fDel with _ | ⟨e1, a1⟩
    · by_cases hp : (st key).isSome <;> simpa [hp] using h1
    · cases a1
      · exact h
      · exact h1

theorem foldl_absent (r : SessionsRepo) (ops : List SessionOp) (st : RedisStore) (id : String)
    (h : st id = none)
    (hops : ∀ p fH fE, SessionOp.create p fH fE ∈ ops → p.UserUUID ≠ id) :
    ops.foldl r.step st id = none := by
  induction ops generalizing st with
  | nil => exact h
  | cons op rest ih =>
    refine ih _ (step_absent r st op id h ?_) ?_
    · intro p fH fE hop
      exact hops p fH fE (by simp [hop])
    · intro p fH fE hmem
      exact hops p fH fE (by simp [hmem])

theorem delApply_absent (st : RedisStore) (id : String) (h : st id = none) :
    delApply st id = st := by
  funext k
  by_cases hk : k = id
  · subst hk; simp [delApply, h]
  · simp [delApply, hk]

/-- C7: when the Redis delete command itself succeeds, `DeleteSession(id)`
removes the key (the store after the call is the store with `id` deleted, as
the command left it) and returns `ErrSessionNotFound` exactly when zero keys
were removed, which is exactly when the key was absent, and returns `nil`
otherwise, the key then being gone; deleting an absent id, in particular one
never created since the empty store, returns `ErrSessionNotFound` and leaves
the store unchanged. -/
theorem C7_deleteSession_notFound (r : SessionsRepo) (st : RedisStore) (id : String) :
    ((r.DeleteSession st id none).2 = some GoError.ErrSessionNotFound ↔
      (redisDel st id none).2.1 = 0) ∧
    ((redisDel st id none).2.1 = 0 ↔ st id = none) ∧
    ((redisDel st id none).2.1 ≠ 0 → (r.DeleteSession st id none).2 = none) ∧
    (st id = none → r.DeleteSession st id none = (st, some GoError.ErrSessionNotFound)) ∧
    (∀ ops : List SessionOp,
      (∀ p fH fE, SessionOp.create p fH fE ∈ ops → p.UserUUID ≠ id) →
      r.DeleteSession (r.run ops) id none = (r.run ops, some GoError.ErrSessionNotFound)) ∧
    (r.DeleteSession st id none).1 = delApply st id ∧
    (r.DeleteSession st id none).1 = (redisDel st id none).1 ∧
    (r.DeleteSession st id none).1 id = none ∧
    (∀ k, k ≠ id → (r.DeleteSession st id none).1 k = st k) ∧
    (st id ≠ none → r.DeleteSession st id none = (delApply st id, none)) ∧
    (redisDel st id none).2.1 = (if (st id).isSome then 1 else 0) := by
  have habs : ∀ s : RedisStore, s id = none →
      r.DeleteSession s id none = (s, some GoError.ErrSessionNotFound) := by
    intro s hs
    simp [SessionsRepo.DeleteSession, redisDel, hs, delApply_absent s id hs]
  have hst : (r.DeleteSession st id none).1 = delApply st id := deleteSession_store r st id
  refine ⟨?_, ?_, ?_, habs st, ?_, hst, ?_, ?_, ?_, ?_, rfl⟩
  · cases h : st id <;> simp [SessionsRepo.DeleteSession, redisDel, h]
  · cases h : st id <;> simp [redisDel, h]
  · cases h : st id <;> simp [SessionsRepo.DeleteSession, redisDel, h]
  · intro ops hops
    exact habs _ (foldl_absent r ops RedisStore.empty id rfl hops)
  · rw [hst]; rfl
  · rw [hst]; simp [delApply]
  · intro k hk
    rw [hst]; simp [delApply, hk]
  · intro h
    cases h1 : st id with
    | none => exact absurd h1 h
    | some e => simp [SessionsRepo.DeleteSession, redisDel, h1]

/-- C8: when the Redis read succeeds with field map `m`, `GetSession` returns
`ErrSessionNotFound` exactly when `m` is empty; it returns another error
exactly when `m` is not empty and lacks one of `user_id`, `user_name`,
`user_roles`; and otherwise it succeeds with the three fields, the roles
split at the commas. -/
theorem C8_getSession_classification (r : SessionsRepo) (st : RedisStore)
    (sessionID : String) (fRead : Option ReadFault) (m : RedisHash)
    (hread : redisHGetAll st sessionID fRead = (some m, none)) :
    ((r.GetSession st sessionID fRead).2 = some GoError.ErrSessionNotFound ↔ m = []) ∧
    ((∃ e, (r.GetSession st sessionID fRead).2 = some e ∧ e ≠ GoError.ErrSessionNotFound) ↔
      (m ≠ [] ∧ (m.lookup "user_id" = none ∨ m.lookup "user_name" = none ∨
        m.lookup "user_roles" = none))) ∧
    (∀ a b c, m ≠ [] → m.lookup "user_id" = some a → m.lookup "user_name" = some b →
      m.lookup "user_roles" = some c →
      r.GetSession st sessionID fRead =
        (some { UserUUID := a, UserName := b, UserRoles := stringsSplit c ',' }, none)) := by
  simp only [SessionsRepo.GetSession, hread]
  by_cases hm : m = []
  · subst hm
    simp [SessionsRepo.getSessionFrom]
  · have hlen : ¬ m.length = 0 := fun h => hm (List.length_eq_zero.mp h)
    cases h1 : m.lookup "user_id" with
    | none => simp [SessionsRepo.getSessionFrom, hm, hlen, h1]
    | some a =>
      cases h2 : m.lookup "user_name" with
      | none => simp [SessionsRepo.getSessionFrom, hm, hlen, h1, h2]
      | some b =>
        cases h3 : m.lookup "user_roles" with
        | none => simp [SessionsRepo.getSessionFrom, hm, hlen, h1, h2, h3]
        | some c => simp [SessionsRepo.getSessionFrom, hm, hlen, h1, h2, h3]

/-- C8, worked example: the record of the example session. -/
theorem C8_getSession_classification_witness :
    ((exampleRepo.GetSession exampleStore examplePayload.UserUUID none).2 =
        some GoError.ErrSessionNotFound ↔ sessionPairs examplePayload = []) ∧
    ((∃ e, (exampleRepo.GetSession exampleStore examplePayload.UserUUID none).2 = some e ∧
        e ≠ GoError.ErrSessionNotFound) ↔
      (sessionPairs examplePayload ≠ [] ∧
        ((sessionPairs examplePayload).lookup "user_id" = none ∨
         (sessionPairs examplePayload).lookup "user_name" = none ∨
         (sessionPairs examplePayload).lookup "user_roles" = none))) ∧
    (∀ a b c, sessionPairs examplePayload ≠ [] →
      (sessionPairs examplePayload).lookup "user_id" = some a →
      (sessionPairs examplePayload).lookup "user_name" = some b →
      (sessionPairs examplePayload).lookup "user_roles" = some c →
      exampleRepo.GetSession exampleStore examplePayload.UserUUID none =
        (some { UserUUID := a, UserName := b, UserRoles := stringsSplit c ',' }, none)) :=
  C8_getSession_classification exampleRepo exampleStore examplePayload.UserUUID none
    (sessionPairs examplePayload) (by decide)

/-- C9, the code on a failing read: when the Redis read returns an error and
a `nil` result, `GetSession` returns `ErrSessionNotFound` whatever the error
was, and not the error; only when the read returns an error together with a
non-nil result does `GetSession` return that error itself. Without a read
error, `ErrSessionNotFound` is returned exactly when the key is absent or its
hash is empty. The sibling methods return the error of their Redis command
unchanged. -/
theorem C9_read_error_mapping (r : SessionsRepo) (st : RedisStore) (sessionID : String)
    (e : GoError) :
    (∀ m, r.GetSession st sessionID (some { val := some m, err := e }) = (none, some e)) ∧
    r.GetSession st sessionID (some { val := none, err := e }) =
      (none, some GoError.ErrSessionNotFound) ∧
    (e ≠ GoError.ErrSessionNotFound →
      (r.GetSession st sessionID (some { val := none, err := e })).2 ≠ some e) ∧
    ((r.GetSession st sessionID none).2 = some GoError.ErrSessionNotFound ↔
      (redisHGetAll st sessionID none).1 = some []) ∧
    ((redisHGetAll st sessionID none).1 = some [] ↔
      (st sessionID = none ∨ ∃ entry, st sessionID = some entry ∧ entry.fields = [])) ∧
    (∀ applied : Bool,
      (r.DeleteSession st sessionID (some { err := e, applied := applied })).2 = some e) ∧
    (∀ (payload : SessionPayload) (applied : Bool) (fExpire : Option Fault),
      (r.CreateSession st payload (some { err := e, applied := applied }) fExpire).2 =
        ("", some e)) ∧
    (∀ (payload : SessionPayload) (applied : Bool),
      (r.CreateSession st payload none (some { err := e, applied := applied })).2 =
        ("", some e)) := by
  have hread : ∀ m : RedisHash,
      (SessionsRepo.getSessionFrom (some m) none).2 = some GoError.ErrSessionNotFound ↔
        m = [] := by
    intro m
    cases m with
    | nil => simp [SessionsRepo.getSessionFrom]
    | cons a as =>
      simp only [SessionsRepo.getSessionFrom, Option.getD_some, List.length_cons,
        Nat.succ_ne_zero, if_false]
      cases (a :: as).lookup "user_id" with
      | none => simp
      | some u =>
        cases (a :: as).lookup "user_name" with
        | none => simp
        | some n =>
          cases (a :: as).lookup "user_roles" with
          | none => simp
          | some c => simp
  refine ⟨?_, ?_, ?_, ?_, ?_, ?_, ?_, ?_⟩
  · intro m
    simp [SessionsRepo.GetSession, redisHGetAll, SessionsRepo.getSessionFrom]
  · simp [SessionsRepo.GetSession, redisHGetAll, SessionsRepo.getSessionFrom]
  · intro he h
    simp only [SessionsRepo.GetSession, redisHGetAll, SessionsRepo.getSessionFrom,
      if_true, Option.some.injEq] at h
    exact he h.symm
  · cases h : st sessionID with
    | none => simp [SessionsRepo.GetSession, redisHGetAll, h, SessionsRepo.getSessionFrom]
    | some entry =>
      simp only [SessionsRepo.GetSession, redisHGetAll, h, Option.some.injEq]
      exact hread entry.fields
  · cases h : st sessionID with
    | none => simp [redisHGetAll, h]
    | some entry => simp [redisHGetAll, h]
  · intro applied
    simp [SessionsRepo.DeleteSession, redisDel]
  · intro payload applied fExpire
    simp [SessionsRepo.CreateSession, redisHSet]
  · intro payload applied
    simp [SessionsRepo.CreateSession, redisHSet, redisExpire]

/-- C9, the code at the failing input: the Redis read fails with a transport
error and no result, and `GetSession` answers `ErrSessionNotFound` instead of
that error. -/
theorem C9_read_error_counterexample :
    exampleRepo.GetSession exampleStore examplePayload.UserUUID
        (some { val := none, err := GoError.external "i/o timeout" }) =
      (none, some GoError.ErrSessionNotFound) ∧
    (exampleRepo.GetSession exampleStore examplePayload.UserUUID
        (some { val := none, err := GoError.external "i/o timeout" })).2 ≠
      some (GoError.external "i/o timeout") := by
  decide

/-! ## Authentication use case -/

/-- C10: when the directory returns a user for the email and the credential
check of the password against the stored digest is false, `Login` returns no
response and `ErrInvalidPassword`; the only collaborator call it makes is
`FindUser`, so `CreateSession` is not called and the session store is left
as it was. -/
theorem C10_login_wrong_password {δ σ : Type} (uc : AuthUseCase δ σ) (w : World δ σ)
    (data : LoginRequest) (dir1 : δ) (user : User)
    (hfind : uc.repo.FindUser w.dir { Mode := "email", Email := data.Email, ID := "" } =
      (dir1, (some user, none)))
    (hpw : user.CheckPassword uc.bcrypt data.Password = false) :
    (uc.Login w data).2 = some (none, some GoError.ErrInvalidPassword) ∧
    (uc.Login w data).1.sess = w.sess ∧
    (uc.Login w data).1.calls =
      w.calls ++ [Call.FindUser { Mode := "email", Email := data.Email, ID := "" }] ∧
    (∀ p, Call.CreateSession p ∈ (uc.Login w data).1.calls → Call.CreateSession p ∈ w.calls) := by
  have hl : uc.Login w data =
      ({ w with dir := dir1,
                calls := w.calls ++
                  [Call.FindUser { Mode := "email", Email := data.Email, ID := "" }] },
        some (none, some GoError.ErrInvalidPassword)) := by
    simp [AuthUseCase.Login, hfind, hpw]
  rw [hl]
  refine ⟨rfl, rfl, rfl, ?_⟩
  intro p hp
  simpa using hp

/-- C10, worked example: the example user logs in with a wrong password. -/
theorem C10_login_wrong_password_witness :
    (exampleAuth.Login exampleWorld wrongPasswordLogin).2 =
      some (none, some GoError.ErrInvalidPassword) ∧
    (exampleAuth.Login exampleWorld wrongPasswordLogin).1.sess = exampleWorld.sess ∧
    (exampleAuth.Login exampleWorld wrongPasswordLogin).1.calls =
      exampleWorld.calls ++
        [Call.FindUser { Mode := "email", Email := wrongPasswordLogin.Email, ID := "" }] ∧
    (∀ p, Call.CreateSession p ∈ (exampleAuth.Login exampleWorld wrongPasswordLogin).1.calls →
      Call.CreateSession p ∈ exampleWorld.calls) :=
  C10_login_wrong_password exampleAuth exampleWorld wrongPasswordLogin [exampleUser]
    exampleUser (by decide) (by decide)

/-- The whole outcome of `Login` when the user is found, the password checks
and `CreateSession` answers with id `s`. -/
theorem login_of_createSession_ok {δ σ : Type} (uc : AuthUseCase δ σ) (w : World δ σ)
    (data : LoginRequest) (dir1 : δ) (u : User) (sess1 : σ) (s : String)
    (hfind : uc.repo.FindUser w.dir { Mode := "email", Email := data.Email, ID := "" } =
      (dir1, (some u, none)))
    (hpw : u.CheckPassword uc.bcrypt data.Password = true)
    (hcs : uc.sessionDB.CreateSession w.sess
        { UserUUID := u.UUID, UserName := u.UserName, UserRoles := ["user"] } =
      (sess1, (s, none))) :
    uc.Login w data =
      ({ dir := dir1, sess := sess1,
         calls := w.calls ++
           [Call.FindUser { Mode := "email", Email := data.Email, ID := "" },
            Call.CreateSession { UserUUID := u.UUID, UserName := u.UserName,
                                 UserRoles := ["user"] }] },
        some (some { SessionID := s }, none)) := by
  simp [AuthUseCase.Login, hfind, hpw, hcs]

/-- C11: when the directory returns user `u` for the lookup in mode `email`
and the credential check succeeds, `Login` calls `FindUser` and then
`CreateSession` once, with the payload made of `u.UUID`, `u.UserName` and the
single role `user`; when that call returns id `s` without error, `Login`
returns the response holding `s`. -/
theorem C11_login_success {δ σ : Type} (uc : AuthUseCase δ σ) (w : World δ σ)
    (data : LoginRequest) (dir1 : δ) (u : User)
    (hfind : uc.repo.FindUser w.dir { Mode := "email", Email := data.Email, ID := "" } =
      (dir1, (some u, none)))
    (hpw : u.CheckPassword uc.bcrypt data.Password = true) :
    (uc.Login w data).1.calls =
      w.calls ++ [Call.FindUser { Mode := "email", Email := data.Email, ID := "" },
        Call.CreateSession { UserUUID := u.UUID, UserName := u.UserName,
                             UserRoles := ["user"] }] ∧
    (∀ sess1 s,
      uc.sessionDB.CreateSession w.sess
          { UserUUID := u.UUID, UserName := u.UserName, UserRoles := ["user"] } =
        (sess1, (s, none)) →
      (uc.Login w data).2 = some (some { SessionID := s }, none) ∧
      (uc.Login w data).1.sess = sess1) := by
  constructor
  · simp only [AuthUseCase.Login, hfind, hpw]
    cases h : (uc.sessionDB.CreateSession w.sess
      { UserUUID := u.UUID, UserName := u.UserName, UserRoles := ["user"] }).2.2 <;>
      simp [h]
  · intro sess1 s hcs
    simp [AuthUseCase.Login, hfind, hpw, hcs]

/-- C11, worked example: the example user logs in with the right
password. -/
theorem C11_login_success_witness :
    (exampleAuth.Login exampleWorld goodLogin).1.calls =
      exampleWorld.calls ++
        [Call.FindUser { Mode := "email", Email := goodLogin.Email, ID := "" },
         Call.CreateSession { UserUUID := exampleUser.UUID, UserName := exampleUser.UserName,
                              UserRoles := ["user"] }] ∧
    (∀ sess1 s,
      exampleAuth.sessionDB.CreateSession exampleWorld.sess
          { UserUUID := exampleUser.UUID, UserName := exampleUser.UserName,
            UserRoles := ["user"] } = (sess1, (s, none)) →
      (exampleAuth.Login exampleWorld goodLogin).2 = some (some { SessionID := s }, none) ∧
      (exampleAuth.Login exampleWorld goodLogin).1.sess = sess1) :=
  C11_login_success exampleAuth exampleWorld goodLogin [exampleUser] exampleUser
    (by decide) (by decide)

/-- C12: in `Login`, `Register`, `Session` and `SessionDel`, an error `e`
returned by a collaborator call is returned as it is, with no result, and no
further collaborator call is made: the trace ends with the failing call. -/
theorem C12_first_failure_aborts {δ σ : Type} (uc : AuthUseCase δ σ) (w : World δ σ)
    (e : GoError) :
    (∀ data dir1 user,
      uc.repo.FindUser w.dir { Mode := "email", Email := data.Email, ID := "" } =
        (dir1, (user, some e)) →
      uc.Login w data =
        ({ w with dir := dir1,
                  calls := w.calls ++
                    [Call.FindUser { Mode := "email", Email := data.Email, ID := "" }] },
          some (none, some e))) ∧
    (∀ data dir1 u sess1 s,
      uc.repo.FindUser w.dir { Mode := "email", Email := data.Email, ID := "" } =
        (dir1, (some u, none)) →
      u.CheckPassword uc.bcrypt data.Password = true →
      uc.sessionDB.CreateSession w.sess
          { UserUUID := u.UUID, UserName := u.UserName, UserRoles := ["user"] } =
        (sess1, (s, some e)) →
      uc.Login w data =
        ({ dir := dir1, sess := sess1,
           calls := w.calls ++
             [Call.FindUser { Mode := "email", Email := data.Email, ID := "" },
              Call.CreateSession { UserUUID := u.UUID, UserName := u.UserName,
                                   UserRoles := ["user"] }] },
          some (none, some e))) ∧
    (∀ tbl entropy data h dir1 id,
      Hashing uc.bcrypt entropy data.Password = (h, none) →
      uc.repo.CreateUser w.dir (registerUser tbl data h) = (dir1, (id, some e)) →
      uc.Register tbl w entropy data =
        ({ w with dir := dir1, calls := w.calls ++ [Call.CreateUser (registerUser tbl data h)] },
          (none, some e))) ∧
    (∀ uuid sess1 token,
      uc.sessionDB.GetSession w.sess uuid = (sess1, (token, some e)) →
      uc.Session w uuid =
        ({ w with sess := sess1, calls := w.calls ++ [Call.GetSession uuid] },
          (none, some e))) ∧
    (∀ uuid sess1,
      uc.sessionDB.DeleteSession w.sess uuid = (sess1, some e) →
      uc.SessionDel w uuid =
        ({ w with sess := sess1, calls := w.calls ++ [Call.DeleteSession uuid] }, some e)) := by
  refine ⟨?_, ?_, ?_, ?_, ?_⟩
  · intro data dir1 user h
    simp [AuthUseCase.Login, h]
  · intro data dir1 u sess1 s h1 h2 h3
    simp [AuthUseCase.Login, h1, h2, h3]
  · intro tbl entropy data h dir1 id h1 h2
    simp [AuthUseCase.Register, h1, h2]
  · intro uuid sess1 token h
    simp [AuthUseCase.Session, h]
  · intro uuid sess1 h
    simp [AuthUseCase.SessionDel, h]

/-- C12, worked example: a login for an email the directory does not know
returns `ErrUserNotFound` after the single call `FindUser`. -/
theorem C12_first_failure_aborts_witness :
    exampleAuth.Login exampleWorld unknownLogin =
      ({ exampleWorld with
          dir := [exampleUser],
          calls := exampleWorld.calls ++
            [Call.FindUser { Mode := "email", Email := unknownLogin.Email, ID := "" }] },
        some (none, some GoError.ErrUserNotFound)) :=
  (C12_first_failure_aborts exampleAuth exampleWorld GoError.ErrUserNotFound).1
    unknownLogin [exampleUser] none (by decide)

/-- C13: when `Register` succeeds and returns `id`, the directory then
returns for the email a user with that id and the digest produced by the
hashing, checking the password against that digest succeeds, and the session
store is the Redis repository with no failing command, a following `Login`
with the same email and password succeeds and its `SessionID` is `id`. -/
theorem C13_register_then_login {δ : Type} (uc : AuthUseCase δ RedisStore)
    (r : SessionsRepo) (tbl : CaseTables) (w : World δ RedisStore) (entropy : Nat)
    (data : RegisterRequest) (id : String) (dir1 : δ) (u : User)
    (hrepo : uc.sessionDB = r.asInterface)
    (hreg : (uc.Register tbl w entropy data).2 = (some { UUID := id }, none))
    (hfind : uc.repo.FindUser (uc.Register tbl w entropy data).1.dir
        { Mode := "email", Email := data.Email, ID := "" } = (dir1, (some u, none)))
    (hid : u.UUID = id)
    (hdigest : u.PasswordHash = (Hashing uc.bcrypt entropy data.Password).1)
    (hcheck : CheckHashing uc.bcrypt data.Password
        (Hashing uc.bcrypt entropy data.Password).1 = true) :
    (uc.Login (uc.Register tbl w entropy data).1
        { Email := data.Email, Password := data.Password }).2 =
      some (some { SessionID := id }, none) := by
  have _ := hreg
  have hpw : u.CheckPassword uc.bcrypt data.Password = true := by
    simp only [User.CheckPassword, hdigest, hcheck]
  have hcs : uc.sessionDB.CreateSession (uc.Register tbl w entropy data).1.sess
      { UserUUID := u.UUID, UserName := u.UserName, UserRoles := ["user"] } =
      ((r.CreateSession (uc.Register tbl w entropy data).1.sess
          { UserUUID := u.UUID, UserName := u.UserName, UserRoles := ["user"] } none none).1,
        (id, none)) := by
    rw [hrepo]
    simp only [SessionsRepo.asInterface]
    rw [Prod.ext_iff]
    exact ⟨rfl, by rw [createSession_result, hid]⟩
  rw [login_of_createSession_ok uc _ { Email := data.Email, Password := data.Password }
    dir1 u _ id hfind hpw hcs]

/-- C13, worked example: the example registration on an empty directory,
followed by a login. -/
theorem C13_register_then_login_witness :
    (exampleAuth.Login (exampleAuth.Register exampleTables emptyWorld 0 exampleRegister).1
        { Email := exampleRegister.Email, Password := exampleRegister.Password }).2 =
      some (some { SessionID := "00000000-0000-0000-0000-000000000001" }, none) :=
  C13_register_then_login exampleAuth exampleRepo exampleTables emptyWorld 0 exampleRegister
    "00000000-0000-0000-0000-000000000001"
    [registeredExampleUser] registeredExampleUser
    rfl (by decide) (by decide) (by decide) (by decide) (by decide)

/-- C14 (amended): when `Hashing(password)` succeeds with digest `h`,
`Register` calls `CreateUser` once and nothing else, with a user whose email
is the request email, whose user name is the name derived from that email and
whose password hash is `h`; it returns the id `CreateUser` returned, and
returns no response and `ErrUserAlreadyExists` when `CreateUser` fails with
that error.  When `Hashing` fails, `Register` returns its error and calls
nothing.  In no case is the session store called or changed. -/
theorem C14_register_calls {δ σ : Type} (uc : AuthUseCase δ σ) (tbl : CaseTables)
    (w : World δ σ) (entropy : Nat) (data : RegisterRequest) :
    (∀ h, Hashing uc.bcrypt entropy data.Password = (h, none) →
      (uc.Register tbl w entropy data).1.calls =
        w.calls ++ [Call.CreateUser (registerUser tbl data h)] ∧
      (registerUser tbl data h).Email = data.Email ∧
      (registerUser tbl data h).UserName = (NewUserBuilder.WithUserName tbl data.Email).u.UserName ∧
      (registerUser tbl data h).UserName = specUserName tbl data.Email ∧
      (registerUser tbl data h).PasswordHash = h ∧
      (∀ dir1 id, uc.repo.CreateUser w.dir (registerUser tbl data h) = (dir1, (id, none)) →
        (uc.Register tbl w entropy data).2 = (some { UUID := id }, none)) ∧
      (∀ dir1 id, uc.repo.CreateUser w.dir (registerUser tbl data h) =
          (dir1, (id, some GoError.ErrUserAlreadyExists)) →
        (uc.Register tbl w entropy data).2 = (none, some GoError.ErrUserAlreadyExists))) ∧
    (∀ h e, Hashing uc.bcrypt entropy data.Password = (h, some e) →
      uc.Register tbl w entropy data = (w, (none, some e))) ∧
    (uc.Register tbl w entropy data).1.sess = w.sess ∧
    (∀ c ∈ (uc.Register tbl w entropy data).1.calls,
      c ∈ w.calls ∨ ∃ user, c = Call.CreateUser user) := by
  refine ⟨?_, ?_, ?_, ?_⟩
  · intro h hh
    refine ⟨?_, rfl, ?_, ?_, rfl, ?_, ?_⟩
    · cases hc : (uc.repo.CreateUser w.dir (registerUser tbl data h)).2.2 <;>
        simp [AuthUseCase.Register, hh, hc]
    · simp [registerUser, UserBuilder.Build, UserBuilder.WithPhone, UserBuilder.WithPassword,
        UserBuilder.WithEmail, UserBuilder.WithUserName, UserBuilder.WithLastName,
        UserBuilder.WithFirstName]
      split <;> rfl
    · rw [← withUserName_eq_spec tbl NewUserBuilder data.Email]
      simp [registerUser, UserBuilder.Build, UserBuilder.WithPhone, UserBuilder.WithPassword,
        UserBuilder.WithEmail, UserBuilder.WithUserName, UserBuilder.WithLastName,
        UserBuilder.WithFirstName]
      split <;> rfl
    · intro dir1 id hc
      simp [AuthUseCase.Register, hh, hc]
    · intro dir1 id hc
      simp [AuthUseCase.Register, hh, hc]
  · intro h e hh
    simp [AuthUseCase.Register, hh]
  · cases hh : (Hashing uc.bcrypt entropy data.Password).2 with
    | some e => simp [AuthUseCase.Register, hh]
    | none =>
      cases hc : (uc.repo.CreateUser w.dir
        (registerUser tbl data (Hashing uc.bcrypt entropy data.Password).1)).2.2 <;>
        simp [AuthUseCase.Register, hh, hc]
  · intro c hc
    cases hh : (Hashing uc.bcrypt entropy data.Password).2 with
    | some e =>
      simp [AuthUseCase.Register, hh] at hc
      exact Or.inl hc
    | none =>
      cases hcu : (uc.repo.CreateUser w.dir
        (registerUser tbl data (Hashing uc.bcrypt entropy data.Password).1)).2.2 <;>
      · simp [AuthUseCase.Register, hh, hcu] at hc
        rcases hc with hc | hc
        · exact Or.inl hc
        · exact Or.inr ⟨_, hc⟩

/-- C14, counterexample to the claim as stated: the password of the request
is 73 bytes long, the hashing refuses it, and `Register` returns that error
without any call of `CreateUser`. -/
theorem C14_register_counterexample :
    (exampleAuth.Register exampleTables emptyWorld 0 longPasswordRegister).2 =
      (none, some (GoError.external "bcrypt: password length exceeds 72 bytes")) ∧
    (exampleAuth.Register exampleTables emptyWorld 0 longPasswordRegister).1.calls = [] ∧
    (exampleAuth.Register exampleTables emptyWorld 0 longPasswordRegister).1.dir = [] := by
  decide

/-! ## Error handler -/

theorem root_ne_wrap (err : GoError) (msg : String) (inner : GoError) :
    err.root ≠ GoError.wrap msg inner := by
  induction err with
  | wrap m i ih => simpa [GoError.root] using ih
  | _ => simp [GoError.root]

/-- Matching a target that wraps nothing is matching the innermost error. -/
theorem errorsIs_eq_root (err target : GoError)
    (ht : ∀ msg inner, target ≠ GoError.wrap msg inner) :
    errorsIs err target = decide (err.root = target) := by
  induction err with
  | wrap m i ih =>
    have h1 : ¬ (GoError.wrap m i = target) := fun h => ht m i h.symm
    simp [errorsIs, GoError.root, h1, ih]
  | _ => simp [errorsIs, GoError.root]

theorem sendJsonResp_fresh (w : ResponseWriter) (status : Int) (data : JsonData)
    (hfresh : w.status = none) :
    (BaseHandler.SendJsonResp w status data).status = some status ∧
    (BaseHandler.SendJsonResp w status data).body = w.body ++ [data] ∧
    (BaseHandler.SendJsonResp w status data).setCookie = w.setCookie := by
  simp [BaseHandler.SendJsonResp, ResponseWriter.HeaderSet, ResponseWriter.WriteHeader,
    ResponseWriter.Write, hfresh]

theorem sendJsonResp_setCookie (w : ResponseWriter) (status : Int) (data : JsonData) :
    (BaseHandler.SendJsonResp w status data).setCookie = w.setCookie := by
  cases h : w.status <;>
    simp [BaseHandler.SendJsonResp, ResponseWriter.HeaderSet, ResponseWriter.WriteHeader,
      ResponseWriter.Write, h]

/-- The status `HandleError` answers with, as a function of the innermost
error. -/
theorem handleError_fresh (w : ResponseWriter) (err : GoError) (hfresh : w.status = none) :
    ∃ code msg,
      (BaseHandler.HandleError w err).status = some code ∧
      (BaseHandler.HandleError w err).body =
        w.body ++ [JsonData.base { Status := code, Message := msg, Error := err.Error }] ∧
      (BaseHandler.HandleError w err).setCookie = w.setCookie ∧
      code =
        (if err.root = GoError.ErrUserAlreadyExists then 400
         else if err.root = GoError.ErrInvalidPassword then 400
         else if err.root = GoError.ErrSessionExpired then 401
         else if err.root = GoError.ErrSessionNotFound then 401
         else if err.root = GoError.ErrUserNotFound then 404
         else if err.root = GoError.DeadlineExceeded then 504
         else 500) := by
  have h1 := errorsIs_eq_root err GoError.ErrUserAlreadyExists (by intros; simp)
  have h2 := errorsIs_eq_root err GoError.ErrInvalidPassword (by intros; simp)
  have h3 := errorsIs_eq_root err GoError.ErrSessionExpired (by intros; simp)
  have h4 := errorsIs_eq_root err GoError.ErrSessionNotFound (by intros; simp)
  have h5 := errorsIs_eq_root err GoError.ErrUserNotFound (by intros; simp)
  have h6 := errorsIs_eq_root err GoError.DeadlineExceeded (by intros; simp)
  unfold BaseHandler.HandleError
  simp only [h1, h2, h3, h4, h5, h6, decide_eq_true_eq]
  split_ifs <;>
    exact ⟨_, _, (sendJsonResp_fresh w _ _ hfresh).1, (sendJsonResp_fresh w _ _ hfresh).2.1,
      (sendJsonResp_fresh w _ _ hfresh).2.2, rfl⟩

theorem handleError_setCookie (w : ResponseWriter) (err : GoError) :
    (BaseHandler.HandleError w err).setCookie = w.setCookie := by
  unfold BaseHandler.HandleError
  split_ifs <;> exact sendJsonResp_setCookie w _ _

/-- C18: on a response not yet started, `HandleError` answers an error
matching `ErrUserAlreadyExists` with 400, `ErrInvalidPassword` with 400,
`ErrSessionExpired` with 401, `ErrSessionNotFound` with 401, `ErrUserNotFound`
with 404, `context.DeadlineExceeded` with 504 and an error matching none of
them with 500; the `Status` field of the JSON body is the status written and
its `Error` field is the message of the error. -/
theorem C18_handleError_status (w : ResponseWriter) (err : GoError)
    (hfresh : w.status = none) :
    (errorsIs err GoError.ErrUserAlreadyExists = true →
      (BaseHandler.HandleError w err).status = some 400) ∧
    (errorsIs err GoError.ErrInvalidPassword = true →
      (BaseHandler.HandleError w err).status = some 400) ∧
    (errorsIs err GoError.ErrSessionExpired = true →
      (BaseHandler.HandleError w err).status = some 401) ∧
    (errorsIs err GoError.ErrSessionNotFound = true →
      (BaseHandler.HandleError w err).status = some 401) ∧
    (errorsIs err GoError.ErrUserNotFound = true →
      (BaseHandler.HandleError w err).status = some 404) ∧
    (errorsIs err GoError.DeadlineExceeded = true →
      (BaseHandler.HandleError w err).status = some 504) ∧
    (errorsIs err GoError.ErrUserAlreadyExists = false →
      errorsIs err GoError.ErrInvalidPassword = false →
      errorsIs err GoError.ErrSessionExpired = false →
      errorsIs err GoError.ErrSessionNotFound = false →
      errorsIs err GoError.ErrUserNotFound = false →
      errorsIs err GoError.DeadlineExceeded = false →
      (BaseHandler.HandleError w err).status = some 500) ∧
    (∃ code msg,
      (BaseHandler.HandleError w err).status = some code ∧
      (BaseHandler.HandleError w err).body =
        w.body ++ [JsonData.base { Status := code, Message := msg, Error := err.Error }]) := by
  have h1 := errorsIs_eq_root err GoError.ErrUserAlreadyExists (by intros; simp)
  have h2 := errorsIs_eq_root err GoError.ErrInvalidPassword (by intros; simp)
  have h3 := errorsIs_eq_root err GoError.ErrSessionExpired (by intros; simp)
  have h4 := errorsIs_eq_root err GoError.ErrSessionNotFound (by intros; simp)
  have h5 := errorsIs_eq_root err GoError.ErrUserNotFound (by intros; simp)
  have h6 := errorsIs_eq_root err GoError.DeadlineExceeded (by intros; simp)
  obtain ⟨code, msg, hs, hb, _, hc⟩ := handleError_fresh w err hfresh
  rw [h1, h2, h3, h4, h5, h6, hs]
  simp only [decide_eq_true_eq, decide_eq_false_iff_not]
  refine ⟨?_, ?_, ?_, ?_, ?_, ?_, ?_, ⟨code, msg, rfl, hb⟩⟩
  · intro h; rw [hc]; simp [h]
  · intro h; rw [hc]; simp [h]
  · intro h; rw [hc]; simp [h]
  · intro h; rw [hc]; simp [h]
  · intro h; rw [hc]; simp [h]
  · intro h; rw [hc]; simp [h]
  · intro a b c d e f; rw [hc]; simp [a, b, c, d, e, f]

/-- C18, worked example: a wrapped `ErrUserNotFound` on a new response. -/
theorem C18_handleError_status_witness :
    (errorsIs wrappedNotFound GoError.ErrUserAlreadyExists = true →
      (BaseHandler.HandleError ResponseWriter.new wrappedNotFound).status = some 400) ∧
    (errorsIs wrappedNotFound GoError.ErrInvalidPassword = true →
      (BaseHandler.HandleError ResponseWriter.new wrappedNotFound).status = some 400) ∧
    (errorsIs wrappedNotFound GoError.ErrSessionExpired = true →
      (BaseHandler.HandleError ResponseWriter.new wrappedNotFound).status = some 401) ∧
    (errorsIs wrappedNotFound GoError.ErrSessionNotFound = true →
      (BaseHandler.HandleError ResponseWriter.new wrappedNotFound).status = some 401) ∧
    (errorsIs wrappedNotFound GoError.ErrUserNotFound = true →
      (BaseHandler.HandleError ResponseWriter.new wrappedNotFound).status = some 404) ∧
    (errorsIs wrappedNotFound GoError.DeadlineExceeded = true →
      (BaseHandler.HandleError ResponseWriter.new wrappedNotFound).status = some 504) ∧
    (errorsIs wrappedNotFound GoError.ErrUserAlreadyExists = false →
      errorsIs wrappedNotFound GoError.ErrInvalidPassword = false →
      errorsIs wrappedNotFound GoError.ErrSessionExpired = false →
      errorsIs wrappedNotFound GoError.ErrSessionNotFound = false →
      errorsIs wrappedNotFound GoError.ErrUserNotFound = false →
      errorsIs wrappedNotFound GoError.DeadlineExceeded = false →
      (BaseHandler.HandleError ResponseWriter.new wrappedNotFound).status = some 500) ∧
    (∃ code msg,
      (BaseHandler.HandleError ResponseWriter.new wrappedNotFound).status = some code ∧
      (BaseHandler.HandleError ResponseWriter.new wrappedNotFound).body =
        ResponseWriter.new.body ++
          [JsonData.base { Status := code, Message := msg,
                           Error := wrappedNotFound.Error }]) :=
  C18_handleError_status ResponseWriter.new wrappedNotFound (by decide)

/-- C19 (amended): the error `ErrNoSessionID` is answered with HTTP 500: it
matches no case of `HandleError`, and when `Logout` finds no identity string
in the request context it hands that error to `HandleError`, calls nothing
else, and the response status is 500. -/
theorem C19_noSessionID_status {ω : Type} (h : HandlerAuth ω) (x : Exchange ω) (r : Request)
    (hfresh : x.w.status = none)
    (hctx : ∀ s, r.ContextValue SessionIdAndUserId ≠ some (GoAny.str s)) :
    (BaseHandler.HandleError x.w GoError.ErrNoSessionID).status = some 500 ∧
    h.Logout x r = x.handleError GoError.ErrNoSessionID ∧
    (h.Logout x r).w.status = some 500 ∧
    (h.Logout x r).events = x.events ++ [Event.HandleError GoError.ErrNoSessionID] := by
  have hs : (BaseHandler.HandleError x.w GoError.ErrNoSessionID).status = some 500 := by
    obtain ⟨code, msg, hs, _, _, hc⟩ := handleError_fresh x.w GoError.ErrNoSessionID hfresh
    rw [hs, hc]
    simp [GoError.root]
  have hl : h.Logout x r = x.handleError GoError.ErrNoSessionID := by
    unfold HandlerAuth.Logout
    cases hv : r.ContextValue SessionIdAndUserId with
    | none => rfl
    | some v =>
      cases v with
      | str s => exact absurd hv (hctx s)
      | other t => rfl
  refine ⟨hs, hl, ?_, ?_⟩
  · rw [hl]; exact hs
  · rw [hl]; rfl

/-- C19, worked example: `Logout` on a request whose context holds no
identity. -/
theorem C19_noSessionID_status_witness :
    (BaseHandler.HandleError newExchange.w GoError.ErrNoSessionID).status = some 500 ∧
    exampleHandlerAuth.Logout newExchange bareRequest =
      newExchange.handleError GoError.ErrNoSessionID ∧
    (exampleHandlerAuth.Logout newExchange bareRequest).w.status = some 500 ∧
    (exampleHandlerAuth.Logout newExchange bareRequest).events =
      newExchange.events ++ [Event.HandleError GoError.ErrNoSessionID] :=
  C19_noSessionID_status exampleHandlerAuth newExchange bareRequest (by decide)
    (fun s => by simp [Request.ContextValue, bareRequest])

/-- C19, counterexample to the claim as stated: `HandleError` answers
`ErrNoSessionID` on a new response with status 500, not 401, and so does
`Logout` for a request without identity in its context. -/
theorem C19_noSessionID_counterexample :
    (BaseHandler.HandleError ResponseWriter.new GoError.ErrNoSessionID).status = some 500 ∧
    (BaseHandler.HandleError ResponseWriter.new GoError.ErrNoSessionID).status ≠ some 401 ∧
    (exampleHandlerAuth.Logout newExchange bareRequest).w.status = some 500 ∧
    (exampleHandlerAuth.Logout newExchange bareRequest).w.body =
      [JsonData.base { Status := 500, Message := "internal server error",
                       Error := "failed to get session id from context" }] := by
  decide

/-! ## Authorization middleware -/

/-- The gate on a request without a usable session cookie. -/
theorem session_no_credential {σ : Type} (m : MiddlewareAuth σ) (next : Handler σ)
    (x : Exchange σ) (r : Request)
    (h : ∀ c, r.cookies.find? (fun c => c.Name == "sessionId") = some c → c.Value = "") :
    m.Session next x r = x.handleError GoError.ErrSessionNotFound := by
  unfold MiddlewareAuth.Session Request.Cookie
  cases hc : r.cookies.find? (fun c => c.Name == "sessionId") with
  | none => simp
  | some c => simp [h c hc]

/-- The gate when the session lookup fails. -/
theorem session_lookup_error {σ : Type} (m : MiddlewareAuth σ) (next : Handler σ)
    (x : Exchange σ) (r : Request) (c : HttpCookie) (env1 : σ)
    (payload : Option SessionPayload) (e : GoError)
    (hc : r.cookies.find? (fun c => c.Name == "sessionId") = some c) (hv : c.Value ≠ "")
    (hg : m.sessionDB.GetSession x.env c.Value = (env1, (payload, some e))) :
    m.Session next x r =
      { env := env1, w := BaseHandler.HandleError x.w e,
        events := x.events ++ [Event.GetSession c.Value, Event.HandleError e],
        panicked := x.panicked } := by
  unfold MiddlewareAuth.Session Request.Cookie
  simp [hc, hv, hg, Exchange.handleError]

/-- The gate when the session lookup returns neither a payload nor an
error. -/
theorem session_lookup_nil {σ : Type} (m : MiddlewareAuth σ) (next : Handler σ)
    (x : Exchange σ) (r : Request) (c : HttpCookie) (env1 : σ)
    (hc : r.cookies.find? (fun c => c.Name == "sessionId") = some c) (hv : c.Value ≠ "")
    (hg : m.sessionDB.GetSession x.env c.Value = (env1, (none, none))) :
    m.Session next x r =
      { env := env1, w := x.w, events := x.events ++ [Event.GetSession c.Value],
        panicked := true } := by
  unfold MiddlewareAuth.Session Request.Cookie
  simp [hc, hv, hg]

/-- The gate when the session lookup succeeds. -/
theorem session_lookup_ok {σ : Type} (m : MiddlewareAuth σ) (next : Handler σ)
    (x : Exchange σ) (r : Request) (c : HttpCookie) (env1 : σ) (p : SessionPayload)
    (hc : r.cookies.find? (fun c => c.Name == "sessionId") = some c) (hv : c.Value ≠ "")
    (hg : m.sessionDB.GetSession x.env c.Value = (env1, (some p, none))) :
    m.Session next x r =
      next { env := env1, w := x.w,
             events := x.events ++ [Event.GetSession c.Value,
               Event.Next (r.WithContextValue SessionIdAndUserId (GoAny.str p.UserUUID))],
             panicked := x.panicked }
        (r.WithContextValue SessionIdAndUserId (GoAny.str p.UserUUID)) := by
  unfold MiddlewareAuth.Session Request.Cookie
  simp [hc, hv, hg]

/-- C15: for a request that carries no `sessionId` cookie, or whose
`sessionId` cookie has an empty value, the gate hands `ErrSessionNotFound` to
the error handler and does nothing else: no session lookup, no call of the
next handler, the state behind the session store untouched, status 401 on a
response not yet started; the response does not depend on the session store
or on the next handler, so a second call gives the same rejection. -/
theorem C15_gate_rejects_without_credential {σ : Type} (m : MiddlewareAuth σ)
    (next : Handler σ) (x : Exchange σ) (r : Request)
    (h : ∀ c, r.cookies.find? (fun c => c.Name == "sessionId") = some c → c.Value = "") :
    m.Session next x r = x.handleError GoError.ErrSessionNotFound ∧
    (m.Session next x r).env = x.env ∧
    (m.Session next x r).events = x.events ++ [Event.HandleError GoError.ErrSessionNotFound] ∧
    (x.w.status = none → (m.Session next x r).w.status = some 401) ∧
    (∀ (σ' : Type) (m' : MiddlewareAuth σ') (next' : Handler σ') (x' : Exchange σ'),
      x'.w = x.w → (m'.Session next' x' r).w = (m.Session next x r).w) ∧
    (m.Session next { (m.Session next x r) with w := x.w } r).w = (m.Session next x r).w := by
  have hs := session_no_credential m next x r h
  refine ⟨hs, by rw [hs]; rfl, by rw [hs]; rfl, ?_, ?_, ?_⟩
  · intro hfresh
    rw [hs]
    obtain ⟨code, msg, hst, _, _, hcode⟩ :=
      handleError_fresh x.w GoError.ErrSessionNotFound hfresh
    simp only [Exchange.handleError]
    rw [hst, hcode]
    simp [GoError.root]
  · intro σ' m' next' x' hw
    rw [hs, session_no_credential m' next' x' r h]
    simp [Exchange.handleError, hw]
  · rw [session_no_credential m next _ r h, hs]
    simp [Exchange.handleError]

/-- C15, worked example: a request without cookies at the example gate. -/
theorem C15_gate_rejects_without_credential_witness :
    exampleGate.Session idleHandler storeExchange bareRequest =
      storeExchange.handleError GoError.ErrSessionNotFound ∧
    (exampleGate.Session idleHandler storeExchange bareRequest).env = storeExchange.env ∧
    (exampleGate.Session idleHandler storeExchange bareRequest).events =
      storeExchange.events ++ [Event.HandleError GoError.ErrSessionNotFound] ∧
    (storeExchange.w.status = none →
      (exampleGate.Session idleHandler storeExchange bareRequest).w.status = some 401) ∧
    (∀ (σ' : Type) (m' : MiddlewareAuth σ') (next' : Handler σ') (x' : Exchange σ'),
      x'.w = storeExchange.w →
      (m'.Session next' x' bareRequest).w =
        (exampleGate.Session idleHandler storeExchange bareRequest).w) ∧
    (exampleGate.Session idleHandler
        { (exampleGate.Session idleHandler storeExchange bareRequest) with
          w := storeExchange.w } bareRequest).w =
      (exampleGate.Session idleHandler storeExchange bareRequest).w :=
  C15_gate_rejects_without_credential exampleGate idleHandler storeExchange bareRequest
    (fun c hc => by simp [bareRequest] at hc)

/-- C16: for a request whose `sessionId` cookie has the non-empty value `v`
and for which `GetSession(v)` returns payload `p` without error, the gate
calls the next handler once, on a response the gate has not written to, with
the request whose context binds `SessionIdAndUserId` to `p.UserUUID`; on every
other request the outcome of the gate does not depend on the next handler,
which is therefore not called. -/
theorem C16_gate_success {σ : Type} (m : MiddlewareAuth σ) (next : Handler σ)
    (x : Exchange σ) (r : Request) :
    (∀ c env1 p,
      r.cookies.find? (fun c => c.Name == "sessionId") = some c → c.Value ≠ "" →
      m.sessionDB.GetSession x.env c.Value = (env1, (some p, none)) →
      m.Session next x r =
        next { env := env1, w := x.w,
               events := x.events ++ [Event.GetSession c.Value,
                 Event.Next (r.WithContextValue SessionIdAndUserId (GoAny.str p.UserUUID))],
               panicked := x.panicked }
          (r.WithContextValue SessionIdAndUserId (GoAny.str p.UserUUID)) ∧
      (r.WithContextValue SessionIdAndUserId (GoAny.str p.UserUUID)).ContextValue
        SessionIdAndUserId = some (GoAny.str p.UserUUID)) ∧
    ((¬ ∃ c env1 p,
        r.cookies.find? (fun c => c.Name == "sessionId") = some c ∧ c.Value ≠ "" ∧
        m.sessionDB.GetSession x.env c.Value = (env1, (some p, none))) →
      ∀ next' : Handler σ, m.Session next x r = m.Session next' x r) := by
  constructor
  · intro c env1 p hc hv hg
    refine ⟨?_, by simp [Request.WithContextValue, Request.ContextValue, List.lookup]⟩
    exact session_lookup_ok m next x r c env1 p hc hv hg
  · intro hno next'
    cases hc : r.cookies.find? (fun c => c.Name == "sessionId") with
    | none =>
      rw [session_no_credential m next x r (by intro c h; rw [hc] at h; cases h),
        session_no_credential m next' x r (by intro c h; rw [hc] at h; cases h)]
    | some c =>
      by_cases hv : c.Value = ""
      · have hall : ∀ c', r.cookies.find? (fun c => c.Name == "sessionId") = some c' →
            c'.Value = "" := by
          intro c' h; rw [hc] at h; cases h; exact hv
        rw [session_no_credential m next x r hall, session_no_credential m next' x r hall]
      · rcases hg : m.sessionDB.GetSession x.env c.Value with ⟨env1, payload, err⟩
        cases err with
        | some e =>
          rw [session_lookup_error m next x r c env1 payload e hc hv hg,
            session_lookup_error m next' x r c env1 payload e hc hv hg]
        | none =>
          cases payload with
          | none =>
            rw [session_lookup_nil m next x r c env1 hc hv hg,
              session_lookup_nil m next' x r c env1 hc hv hg]
          | some p => exact absurd ⟨c, env1, p, hc, hv, hg⟩ hno

/-- C16, worked example: the request with the session cookie of the example
user passes the example gate. -/
theorem C16_gate_success_witness :
    exampleGate.Session idleHandler storeExchange cookieRequest =
      idleHandler
        { env := exampleStore, w := storeExchange.w,
          events := storeExchange.events ++ [Event.GetSession examplePayload.UserUUID,
            Event.Next (cookieRequest.WithContextValue SessionIdAndUserId
              (GoAny.str examplePayload.UserUUID))],
          panicked := storeExchange.panicked }
        (cookieRequest.WithContextValue SessionIdAndUserId
          (GoAny.str examplePayload.UserUUID)) :=
  ((C16_gate_success exampleGate idleHandler storeExchange cookieRequest).1
    { Name := "sessionId", Value := examplePayload.UserUUID, Path := "", HttpOnly := false,
      Secure := false, MaxAge := 0 }
    exampleStore examplePayload rfl (by decide) rfl).1

/-- An error of the decoding step of `GetSession` is `ErrSessionNotFound`, a
fresh error about a missing field, or the error of the Redis read. -/
theorem getSessionFrom_error_cases (result : Option RedisHash) (err : Option GoError)
    (e : GoError) (he : (SessionsRepo.getSessionFrom result err).2 = some e) :
    e = GoError.ErrSessionNotFound ∨ (∃ msg, e = GoError.errorf msg) ∨ err = some e := by
  cases err with
  | some e0 =>
    by_cases hr : result = none
    · simp [SessionsRepo.getSessionFrom, hr] at he
      exact Or.inl he.symm
    · simp [SessionsRepo.getSessionFrom, hr] at he
      exact Or.inr (Or.inr (by rw [he]))
  | none =>
    by_cases hm : (result.getD []).length = 0
    · simp [SessionsRepo.getSessionFrom, hm] at he
      exact Or.inl he.symm
    · cases h1 : (result.getD []).lookup "user_id" with
      | none =>
        simp [SessionsRepo.getSessionFrom, hm, h1] at he
        exact Or.inr (Or.inl ⟨_, he.symm⟩)
      | some a =>
        cases h2 : (result.getD []).lookup "user_name" with
        | none =>
          simp [SessionsRepo.getSessionFrom, hm, h1, h2] at he
          exact Or.inr (Or.inl ⟨_, he.symm⟩)
        | some b =>
          cases h3 : (result.getD []).lookup "user_roles" with
          | none =>
            simp [SessionsRepo.getSessionFrom, hm, h1, h2, h3] at he
            exact Or.inr (Or.inl ⟨_, he.symm⟩)
          | some c => simp [SessionsRepo.getSessionFrom, hm, h1, h2, h3] at he

/-- An error of `SessionsRepo.GetSession` is `ErrSessionNotFound`, a fresh
error about a missing field, or the error of the failed Redis read. -/
theorem getSession_error_cases (r : SessionsRepo) (st : RedisStore) (sessionID : String)
    (fRead : Option ReadFault) (e : GoError)
    (he : (r.GetSession st sessionID fRead).2 = some e) :
    e = GoError.ErrSessionNotFound ∨ (∃ msg, e = GoError.errorf msg) ∨
      (∃ f, fRead = some f ∧ e = f.err) := by
  unfold SessionsRepo.GetSession at he
  rcases getSessionFrom_error_cases _ _ e he with h | h | h
  · exact Or.inl h
  · exact Or.inr (Or.inl h)
  · cases fRead with
    | some f =>
      simp only [redisHGetAll, Option.some.injEq] at h
      exact Or.inr (Or.inr ⟨f, rfl, h.symm⟩)
    | none =>
      cases hst : st sessionID <;> simp [redisHGetAll, hst] at h

/-- C17: for a request whose `sessionId` cookie is not empty and for which
`GetSession` returns error `e`, the gate hands exactly `e` to the error handler
after the lookup and does not call the next handler.  On a response not yet
started an error matching `ErrSessionNotFound` gives status 401 and an error
matching none of the sentinels answered with a 4xx status gives 500 or 504; in
particular every error of the Redis session repository whose Redis errors come
from the library gives 401, 500 or 504. -/
theorem C17_gate_lookup_failure {σ : Type} (m : MiddlewareAuth σ) (next : Handler σ)
    (x : Exchange σ) (r : Request) (c : HttpCookie) (env1 : σ)
    (payload : Option SessionPayload) (e : GoError)
    (hc : r.cookies.find? (fun c => c.Name == "sessionId") = some c) (hv : c.Value ≠ "")
    (hg : m.sessionDB.GetSession x.env c.Value = (env1, (payload, some e)))
    (hfresh : x.w.status = none) :
    m.Session next x r =
      { env := env1, w := BaseHandler.HandleError x.w e,
        events := x.events ++ [Event.GetSession c.Value, Event.HandleError e],
        panicked := x.panicked } ∧
    (errorsIs e GoError.ErrSessionNotFound = true → (m.Session next x r).w.status = some 401) ∧
    (errorsIs e GoError.ErrUserAlreadyExists = false →
      errorsIs e GoError.ErrInvalidPassword = false →
      errorsIs e GoError.ErrSessionExpired = false →
      errorsIs e GoError.ErrSessionNotFound = false →
      errorsIs e GoError.ErrUserNotFound = false →
      (m.Session next x r).w.status = some 500 ∨ (m.Session next x r).w.status = some 504) ∧
    (∀ (repo : SessionsRepo) (st : RedisStore) (fRead : Option ReadFault),
      (∀ f, fRead = some f → f.err.fromLibrary = true) →
      (repo.GetSession st c.Value fRead).2 = some e →
      (m.Session next x r).w.status = some 401 ∨ (m.Session next x r).w.status = some 500 ∨
        (m.Session next x r).w.status = some 504) := by
  have hs := session_lookup_error m next x r c env1 payload e hc hv hg
  have h1 := errorsIs_eq_root e GoError.ErrUserAlreadyExists (by intros; simp)
  have h2 := errorsIs_eq_root e GoError.ErrInvalidPassword (by intros; simp)
  have h3 := errorsIs_eq_root e GoError.ErrSessionExpired (by intros; simp)
  have h4 := errorsIs_eq_root e GoError.ErrSessionNotFound (by intros; simp)
  have h5 := errorsIs_eq_root e GoError.ErrUserNotFound (by intros; simp)
  obtain ⟨code, msg, hst, _, _, hcode⟩ := handleError_fresh x.w e hfresh
  rw [hs, h1, h2, h3, h4, h5]
  simp only [hst, decide_eq_true_eq, decide_eq_false_iff_not, Option.some.injEq]
  refine ⟨trivial, ?_, ?_, ?_⟩
  · intro h; rw [hcode]; simp [h]
  · intro a b c' d e'
    rw [hcode]
    simp only [a, b, c', d, e', if_false]
    split_ifs <;> simp
  · intro repo st fRead hlib he
    rcases getSession_error_cases repo st c.Value fRead e he with h | ⟨msg', h⟩ | ⟨f, hf, h⟩
    · left; rw [hcode]; simp [h, GoError.root]
    · right; left; rw [hcode]; simp [h, GoError.root]
    · have hl := hlib f hf
      rw [← h] at hl
      unfold GoError.fromLibrary at hl
      rw [hcode]
      split at hl
      · rename_i m' hroot; right; left; simp [hroot]
      · rename_i hroot; right; right; simp [hroot]
      · simp at hl

/-- C17, worked example: a cookie for which no session is stored, at the
example gate. -/
theorem C17_gate_lookup_failure_witness :
    exampleGate.Session idleHandler storeExchange staleCookieRequest =
      { env := exampleStore,
        w := BaseHandler.HandleError storeExchange.w GoError.ErrSessionNotFound,
        events := storeExchange.events ++
          [Event.GetSession "no-such-session", Event.HandleError GoError.ErrSessionNotFound],
        panicked := storeExchange.panicked } ∧
    (exampleGate.Session idleHandler storeExchange staleCookieRequest).w.status = some 401 :=
  ⟨(C17_gate_lookup_failure exampleGate idleHandler storeExchange staleCookieRequest
      { Name := "sessionId", Value := "no-such-session", Path := "", HttpOnly := false,
        Secure := false, MaxAge := 0 }
      exampleStore none GoError.ErrSessionNotFound rfl (by decide) rfl (by decide)).1,
   (C17_gate_lookup_failure exampleGate idleHandler storeExchange staleCookieRequest
      { Name := "sessionId", Value := "no-such-session", Path := "", HttpOnly := false,
        Secure := false, MaxAge := 0 }
      exampleStore none GoError.ErrSessionNotFound rfl (by decide) rfl (by decide)).2.1
      (by decide)⟩

/-! ## Authentication handler -/

/-- The two outcomes of `BaseHandler.Handle` on a response not yet started:
a 400 answer and an error, or the decoded and validated body with the response
untouched. -/
theorem handle_cases {α : Type} (codec : BodyCodec α) (w : ResponseWriter) (r : Request)
    (hfresh : w.status = none) :
    (∃ w1 e, BaseHandler.Handle codec w r = (w1, (none, some e)) ∧ w1.status = some 400 ∧
      w1.setCookie = w.setCookie) ∨
    (∃ d, BaseHandler.Handle codec w r = (w, (some d, none)) ∧
      codec.jsonDecode r.body = (d, none) ∧ codec.validatorStruct d = none) := by
  unfold BaseHandler.Handle DecodeBody IsValid
  rcases hd : codec.jsonDecode r.body with ⟨d, err⟩
  cases err with
  | some e =>
    left
    exact ⟨_, e, rfl, (sendJsonResp_fresh w _ _ hfresh).1, (sendJsonResp_fresh w _ _ hfresh).2.2⟩
  | none =>
    cases hv : codec.validatorStruct d with
    | some e =>
      left
      simp only [hv]
      exact ⟨_, e, rfl, (sendJsonResp_fresh w _ _ hfresh).1,
        (sendJsonResp_fresh w _ _ hfresh).2.2⟩
    | none =>
      right
      simp only [hv]
      exact ⟨d, rfl, rfl, hv⟩

/-- On a response not yet started `HandleError` never answers 200 or 201. -/
theorem handleError_not_success (w : ResponseWriter) (err : GoError)
    (hfresh : w.status = none) :
    (BaseHandler.HandleError w err).status ≠ some 200 ∧
    (BaseHandler.HandleError w err).status ≠ some 201 := by
  obtain ⟨code, msg, hst, _, _, hcode⟩ := handleError_fresh w err hfresh
  rw [hst, hcode]
  constructor <;> split_ifs <;> decide

/-- The `Login` handler once the body is decoded and validated and the use
case has answered with a response. -/
theorem loginHandler_ok {ω : Type} (h : HandlerAuth ω) (x : Exchange ω) (r : Request)
    (data : LoginRequest) (resp : LoginResponce) (env1 : ω) (hfresh : x.w.status = none)
    (hd : h.loginCodec.jsonDecode r.body = (data, none))
    (hv : h.loginCodec.validatorStruct data = none)
    (hl : h.authUC.Login x.env data = (env1, (some resp, none))) :
    (h.Login x r).w.status = some 200 ∧
    (h.Login x r).w.setCookie = x.w.setCookie ++ [sessionHttpCookie resp.SessionID] ∧
    (h.Login x r).w.body = x.w.body ++ [JsonData.login resp] := by
  have hw : (CookieManager.SetCookie x.w (sessionCookieData resp.SessionID)).status = none := by
    simp [CookieManager.SetCookie, httpSetCookie, hfresh]
  have hcs : (CookieManager.SetCookie x.w (sessionCookieData resp.SessionID)).setCookie =
      x.w.setCookie ++ [sessionHttpCookie resp.SessionID] := by
    simp [CookieManager.SetCookie, httpSetCookie, hfresh, sessionCookieData,
      sessionHttpCookie, SessionIdAndUserId]
  have hcb : (CookieManager.SetCookie x.w (sessionCookieData resp.SessionID)).body =
      x.w.body := by
    simp [CookieManager.SetCookie, httpSetCookie, hfresh]
  have hh : BaseHandler.Handle h.loginCodec x.w r = (x.w, (some data, none)) := by
    simp [BaseHandler.Handle, DecodeBody, IsValid, hd, hv]
  obtain ⟨s1, s2, s3⟩ := sendJsonResp_fresh _ 200 (JsonData.login resp) hw
  simp only [HandlerAuth.Login, hh, hl]
  exact ⟨s1, by rw [s3, hcs], by rw [s2, hcb]⟩

/-- The `Login` handler sets a cookie only when it answers 200. -/
theorem loginHandler_failure {ω : Type} (h : HandlerAuth ω) (x : Exchange ω) (r : Request)
    (hfresh : x.w.status = none) (hne : (h.Login x r).w.status ≠ some 200) :
    (h.Login x r).w.setCookie = x.w.setCookie := by
  rcases handle_cases h.loginCodec x.w r hfresh with ⟨w1, e, hh, _, hc⟩ | ⟨d, hh, hd, hv⟩
  · simp only [HandlerAuth.Login, hh]
    exact hc
  · rcases hl : h.authUC.Login x.env d with ⟨env1, resp, err⟩
    cases err with
    | some e =>
      simp only [HandlerAuth.Login, hh, hl, Exchange.handleError]
      exact handleError_setCookie x.w e
    | none =>
      cases resp with
      | none => simp only [HandlerAuth.Login, hh, hl]
      | some resp =>
        exact absurd (loginHandler_ok h x r d resp env1 hfresh hd hv hl).1 hne

/-- The `Register` handler once the body is decoded and validated, the
registration has succeeded and the login has answered with a response. -/
theorem registerHandler_ok {ω : Type} (h : HandlerAuth ω) (x : Exchange ω) (r : Request)
    (data : RegisterRequest) (resp : Option RegisterResponce) (lresp : LoginResponce)
    (env1 env2 : ω) (hfresh : x.w.status = none)
    (hd : h.registerCodec.jsonDecode r.body = (data, none))
    (hv : h.registerCodec.validatorStruct data = none)
    (hr : h.authUC.Register x.env data = (env1, (resp, none)))
    (hl : h.authUC.Login env1 { Email := data.Email, Password := data.Password } =
      (env2, (some lresp, none))) :
    (h.Register x r).w.status = some 201 ∧
    (h.Register x r).w.setCookie = x.w.setCookie ++ [sessionHttpCookie lresp.SessionID] := by
  have hw : (CookieManager.SetCookie x.w (sessionCookieData lresp.SessionID)).status = none := by
    simp [CookieManager.SetCookie, httpSetCookie, hfresh]
  have hcs : (CookieManager.SetCookie x.w (sessionCookieData lresp.SessionID)).setCookie =
      x.w.setCookie ++ [sessionHttpCookie lresp.SessionID] := by
    simp [CookieManager.SetCookie, httpSetCookie, hfresh, sessionCookieData,
      sessionHttpCookie, SessionIdAndUserId]
  have hh : BaseHandler.Handle h.registerCodec x.w r = (x.w, (some data, none)) := by
    simp [BaseHandler.Handle, DecodeBody, IsValid, hd, hv]
  cases resp with
  | none =>
    obtain ⟨s1, _, s3⟩ := sendJsonResp_fresh _ 201 JsonData.null hw
    simp only [HandlerAuth.Register, hh, hr, hl]
    exact ⟨s1, by rw [s3, hcs]⟩
  | some resp =>
    obtain ⟨s1, _, s3⟩ := sendJsonResp_fresh _ 201 (JsonData.register resp) hw
    simp only [HandlerAuth.Register, hh, hr, hl]
    exact ⟨s1, by rw [s3, hcs]⟩

/-- The `Register` handler sets a cookie only when it answers 201. -/
theorem registerHandler_failure {ω : Type} (h : HandlerAuth ω) (x : Exchange ω)
    (r : Request) (hfresh : x.w.status = none)
    (hne : (h.Register x r).w.status ≠ some 201) :
    (h.Register x r).w.setCookie = x.w.setCookie := by
  rcases handle_cases h.registerCodec x.w r hfresh with ⟨w1, e, hh, _, hc⟩ | ⟨d, hh, hd, hv⟩
  · simp only [HandlerAuth.Register, hh]
    exact hc
  · rcases hr : h.authUC.Register x.env d with ⟨env1, resp, err⟩
    cases err with
    | some e =>
      simp only [HandlerAuth.Register, hh, hr, Exchange.handleError]
      exact handleError_setCookie x.w e
    | none =>
      rcases hl : h.authUC.Login env1 { Email := d.Email, Password := d.Password } with
        ⟨env2, lresp, err2⟩
      cases err2 with
      | some e =>
        simp only [HandlerAuth.Register, hh, hr, hl, Exchange.handleError]
        exact handleError_setCookie x.w e
      | none =>
        cases lresp with
        | none => simp only [HandlerAuth.Register, hh, hr, hl]
        | some lresp =>
          exact absurd (registerHandler_ok h x r d resp lresp env1 env2 hfresh hd hv hr hl).1
            hne

/-- C20: on a response not yet started, a successful login sets exactly one
cookie, named `sessionId` (the name the gate reads), whose value is the
`SessionID` returned by `Login`, with `HttpOnly` true, path `/`, `MaxAge` 300
and `Secure` false, and answers 200; a successful registration does the same
with the `SessionID` of its internal login and answers 201; whenever the
handler answers anything else, no cookie is set. -/
theorem C20_cookie_contract {ω : Type} (h : HandlerAuth ω) (x : Exchange ω) (r : Request)
    (hfresh : x.w.status = none) :
    (∀ data resp env1,
      h.loginCodec.jsonDecode r.body = (data, none) →
      h.loginCodec.validatorStruct data = none →
      h.authUC.Login x.env data = (env1, (some resp, none)) →
      (h.Login x r).w.status = some 200 ∧
      (h.Login x r).w.setCookie = x.w.setCookie ++
        [{ Name := "sessionId", Value := resp.SessionID, Path := "/", HttpOnly := true,
           Secure := false, MaxAge := 300 }]) ∧
    ((h.Login x r).w.status ≠ some 200 → (h.Login x r).w.setCookie = x.w.setCookie) ∧
    (∀ data resp lresp env1 env2,
      h.registerCodec.jsonDecode r.body = (data, none) →
      h.registerCodec.validatorStruct data = none →
      h.authUC.Register x.env data = (env1, (resp, none)) →
      h.authUC.Login env1 { Email := data.Email, Password := data.Password } =
        (env2, (some lresp, none)) →
      (h.Register x r).w.status = some 201 ∧
      (h.Register x r).w.setCookie = x.w.setCookie ++
        [{ Name := "sessionId", Value := lresp.SessionID, Path := "/", HttpOnly := true,
           Secure := false, MaxAge := 300 }]) ∧
    ((h.Register x r).w.status ≠ some 201 → (h.Register x r).w.setCookie = x.w.setCookie) ∧
    (∀ v : String,
      Request.Cookie
        { cookies := [{ Name := "sessionId", Value := v, Path := "/", HttpOnly := true,
                        Secure := false, MaxAge := 300 }], ctx := [], body := "" }
        "sessionId" =
      (some { Name := "sessionId", Value := v, Path := "/", HttpOnly := true,
              Secure := false, MaxAge := 300 }, none)) := by
  refine ⟨?_, loginHandler_failure h x r hfresh, ?_, registerHandler_failure h x r hfresh, ?_⟩
  · intro data resp env1 hd hv hl
    obtain ⟨a, b, _⟩ := loginHandler_ok h x r data resp env1 hfresh hd hv hl
    exact ⟨a, b⟩
  · intro data resp lresp env1 env2 hd hv hr hl
    exact registerHandler_ok h x r data resp lresp env1 env2 hfresh hd hv hr hl
  · intro v
    simp [Request.Cookie]

/-- C20, worked example: a login and a registration at the example
handler. -/
theorem C20_cookie_contract_witness :
    ((exampleHandlerAuth.Login newExchange loginRequest).w.status = some 200 ∧
      (exampleHandlerAuth.Login newExchange loginRequest).w.setCookie =
        newExchange.w.setCookie ++
          [{ Name := "sessionId", Value := "user-1", Path := "/", HttpOnly := true,
             Secure := false, MaxAge := 300 }]) ∧
    ((exampleHandlerAuth.Register newExchange registerRequest).w.status = some 201 ∧
      (exampleHandlerAuth.Register newExchange registerRequest).w.setCookie =
        newExchange.w.setCookie ++
          [{ Name := "sessionId", Value := "user-1", Path := "/", HttpOnly := true,
             Secure := false, MaxAge := 300 }]) :=
  ⟨(C20_cookie_contract exampleHandlerAuth newExchange loginRequest (by decide)).1
      { Email := "john.doe@example.com", Password := "password123" }
      { SessionID := "user-1" } ["user-1"] (by decide) (by decide) (by decide),
   (C20_cookie_contract exampleHandlerAuth newExchange registerRequest (by decide)).2.2.1
      { FirstName := "John", LastName := "Doe", Email := "new.user@example.com",
        Password := "password123", Phone := "" }
      (some { UUID := "user-1" }) { SessionID := "user-1" } [] ["user-1"]
      (by decide) (by decide) (by decide) (by decide)⟩

/-! ## Cookie name, password check, logout, registration -/

/-- C21, the code at the failing input: the key the handlers set and the gate
reads is `sessionId`, not `session_id`; the login handler sets a cookie named
`sessionId`; the gate lets the request with the cookie `sessionId` through and
answers 401 to the same session id sent in a cookie named `session_id`. -/
theorem C21_cookie_name_is_sessionId :
    SessionIdAndUserId = "sessionId" ∧
    SessionIdAndUserId ≠ "session_id" ∧
    (exampleHandlerAuth.Login newExchange loginRequest).w.setCookie.map (fun c => c.Name) =
      ["sessionId"] ∧
    (exampleGate.Session idleHandler storeExchange cookieRequest).w.status = none ∧
    (exampleGate.Session idleHandler storeExchange cookieRequest).events =
      [Event.GetSession "62a16b1d-bbfe-419e-aab7-54e6fb101067",
       Event.Next (cookieRequest.WithContextValue SessionIdAndUserId
         (GoAny.str "62a16b1d-bbfe-419e-aab7-54e6fb101067"))] ∧
    (exampleGate.Session idleHandler storeExchange documentedCookieRequest).w.status =
      some 401 ∧
    (exampleGate.Session idleHandler storeExchange documentedCookieRequest).events =
      [Event.HandleError GoError.ErrSessionNotFound] := by
  decide

/-- C22: `CheckHashing` returns `true` exactly when the digest comparison
reports no error and `false` whenever it reports one; hence, for every class
of digests the comparison rejects (malformed or empty ones), `CheckPassword`
is `false` for a user whose stored digest is in that class, whatever the
password. -/
theorem C22_checkHashing_total (bc : Bcrypt) (password digest : String) :
    (CheckHashing bc password digest = true ↔
      bc.CompareHashAndPassword digest password = none) ∧
    (∀ e, bc.CompareHashAndPassword digest password = some e →
      CheckHashing bc password digest = false) ∧
    (CheckHashing bc password digest = true ∨ CheckHashing bc password digest = false) ∧
    (∀ u : User, u.CheckPassword bc password = CheckHashing bc password u.PasswordHash) ∧
    (∀ malformed : String → Prop,
      (∀ h p, malformed h → bc.CompareHashAndPassword h p ≠ none) →
      ∀ (u : User) (p : String), malformed u.PasswordHash → u.CheckPassword bc p = false) := by
  refine ⟨?_, ?_, ?_, fun _ => rfl, ?_⟩
  · simp [CheckHashing]
  · intro e he
    simp [CheckHashing, he]
  · cases CheckHashing bc password digest <;> simp
  · intro malformed hlib u p hm
    have := hlib u.PasswordHash p hm
    simp only [User.CheckPassword, CheckHashing]
    cases h : bc.CompareHashAndPassword u.PasswordHash p with
    | none => exact absurd h this
    | some e => rfl

/-- C24: for a request whose context carries the identity `id`, on a response
not yet started, `Logout` calls `SessionDel(id)` once; when it succeeds the
response is 204 with the cookie `sessionId` cleared (empty value, path `/`,
`MaxAge` -1); when it fails with `e` the response is the answer of the error
handler for `e` and no cookie is set. -/
theorem C24_logout {ω : Type} (h : HandlerAuth ω) (x : Exchange ω) (r : Request)
    (id : String) (hfresh : x.w.status = none)
    (hctx : r.ContextValue SessionIdAndUserId = some (GoAny.str id)) :
    (∀ env1, h.authUC.SessionDel x.env id = (env1, none) →
      (h.Logout x r).env = env1 ∧
      (h.Logout x r).events = x.events ++ [Event.SessionDel id] ∧
      (h.Logout x r).w.status = some 204 ∧
      (h.Logout x r).w.body = x.w.body ∧
      (h.Logout x r).w.setCookie = x.w.setCookie ++
        [{ Name := "sessionId", Value := "", Path := "/", HttpOnly := false,
           Secure := false, MaxAge := -1 }]) ∧
    (∀ env1 e, h.authUC.SessionDel x.env id = (env1, some e) →
      (h.Logout x r).env = env1 ∧
      (h.Logout x r).events = x.events ++ [Event.SessionDel id, Event.HandleError e] ∧
      (h.Logout x r).w = BaseHandler.HandleError x.w e ∧
      (h.Logout x r).w.setCookie = x.w.setCookie) := by
  constructor
  · intro env1 hs
    have hl : h.Logout x r =
        { env := env1, w := (CookieManager.DeleteCookie x.w SessionIdAndUserId).WriteHeader 204,
          events := x.events ++ [Event.SessionDel id], panicked := x.panicked } := by
      unfold HandlerAuth.Logout
      simp only [hctx, hs]
    rw [hl]
    simp [CookieManager.DeleteCookie, httpSetCookie, hfresh, ResponseWriter.WriteHeader,
      SessionIdAndUserId]
  · intro env1 e hs
    have hl : h.Logout x r =
        { env := env1, w := BaseHandler.HandleError x.w e,
          events := x.events ++ [Event.SessionDel id, Event.HandleError e],
          panicked := x.panicked } := by
      unfold HandlerAuth.Logout
      simp only [hctx, hs, Exchange.handleError, List.append_assoc, List.singleton_append]
    rw [hl]
    simp [handleError_setCookie]

/-- C24, worked example: the user `user-1` logs out at the example
handler. -/
theorem C24_logout_witness :
    (exampleHandlerAuth.Logout liveExchange identityRequest).env = [] ∧
    (exampleHandlerAuth.Logout liveExchange identityRequest).events =
      liveExchange.events ++ [Event.SessionDel "user-1"] ∧
    (exampleHandlerAuth.Logout liveExchange identityRequest).w.status = some 204 ∧
    (exampleHandlerAuth.Logout liveExchange identityRequest).w.body = liveExchange.w.body ∧
    (exampleHandlerAuth.Logout liveExchange identityRequest).w.setCookie =
      liveExchange.w.setCookie ++
        [{ Name := "sessionId", Value := "", Path := "/", HttpOnly := false,
           Secure := false, MaxAge := -1 }] :=
  (C24_logout exampleHandlerAuth liveExchange identityRequest "user-1" (by decide)
    (by decide)).1 [] (by decide)

/-- The `Register` handler when the use case `Register` fails. -/
theorem registerHandler_register_error {ω : Type} (h : HandlerAuth ω) (x : Exchange ω)
    (r : Request) (data : RegisterRequest) (resp : Option RegisterResponce) (env1 : ω)
    (e : GoError)
    (hd : h.registerCodec.jsonDecode r.body = (data, none))
    (hv : h.registerCodec.validatorStruct data = none)
    (hr : h.authUC.Register x.env data = (env1, (resp, some e))) :
    h.Register x r =
      { env := env1, w := BaseHandler.HandleError x.w e,
        events := x.events ++ [Event.Register data, Event.HandleError e],
        panicked := x.panicked } := by
  have hh : BaseHandler.Handle h.registerCodec x.w r = (x.w, (some data, none)) := by
    simp [BaseHandler.Handle, DecodeBody, IsValid, hd, hv]
  simp only [HandlerAuth.Register, hh, hr, Exchange.handleError, List.append_assoc,
    List.singleton_append]

/-- The `Register` handler when the use case `Register` succeeds and the
login fails. -/
theorem registerHandler_login_error {ω : Type} (h : HandlerAuth ω) (x : Exchange ω)
    (r : Request) (data : RegisterRequest) (resp : Option RegisterResponce)
    (lresp : Option LoginResponce) (env1 env2 : ω) (e : GoError)
    (hd : h.registerCodec.jsonDecode r.body = (data, none))
    (hv : h.registerCodec.validatorStruct data = none)
    (hr : h.authUC.Register x.env data = (env1, (resp, none)))
    (hl : h.authUC.Login env1 { Email := data.Email, Password := data.Password } =
      (env2, (lresp, some e))) :
    h.Register x r =
      { env := env2, w := BaseHandler.HandleError x.w e,
        events := x.events ++
          [Event.Register data,
           Event.Login { Email := data.Email, Password := data.Password },
           Event.HandleError e],
        panicked := x.panicked } := by
  have hh : BaseHandler.Handle h.registerCodec x.w r = (x.w, (some data, none)) := by
    simp [BaseHandler.Handle, DecodeBody, IsValid, hd, hv]
  simp only [HandlerAuth.Register, hh, hr, hl, Exchange.handleError, List.append_assoc,
    List.singleton_append, List.cons_append, List.nil_append]

/-- The `Register` handler when both use-case calls succeed. -/
theorem registerHandler_both_ok {ω : Type} (h : HandlerAuth ω) (x : Exchange ω)
    (r : Request) (data : RegisterRequest) (resp : RegisterResponce) (lresp : LoginResponce)
    (env1 env2 : ω)
    (hd : h.registerCodec.jsonDecode r.body = (data, none))
    (hv : h.registerCodec.validatorStruct data = none)
    (hr : h.authUC.Register x.env data = (env1, (some resp, none)))
    (hl : h.authUC.Login env1 { Email := data.Email, Password := data.Password } =
      (env2, (some lresp, none))) :
    h.Register x r =
      { env := env2,
        w := BaseHandler.SendJsonResp
          (CookieManager.SetCookie x.w (sessionCookieData lresp.SessionID)) 201
          (JsonData.register resp),
        events := x.events ++
          [Event.Register data, Event.Login { Email := data.Email, Password := data.Password }],
        panicked := x.panicked } := by
  have hh : BaseHandler.Handle h.registerCodec x.w r = (x.w, (some data, none)) := by
    simp [BaseHandler.Handle, DecodeBody, IsValid, hd, hv]
  simp only [HandlerAuth.Register, hh, hr, hl, List.append_assoc, List.singleton_append]

/-- The `Register` handler answers 201 only when both use-case calls
succeeded. -/
theorem registerHandler_created_only {ω : Type} (h : HandlerAuth ω) (x : Exchange ω)
    (r : Request) (hfresh : x.w.status = none)
    (hst : (h.Register x r).w.status = some 201) :
    ∃ data resp lresp env1 env2,
      h.registerCodec.jsonDecode r.body = (data, none) ∧
      h.registerCodec.validatorStruct data = none ∧
      h.authUC.Register x.env data = (env1, (resp, none)) ∧
      h.authUC.Login env1 { Email := data.Email, Password := data.Password } =
        (env2, (some lresp, none)) := by
  rcases handle_cases h.registerCodec x.w r hfresh with ⟨w1, e, hh, hs, _⟩ | ⟨d, hh, hd, hv⟩
  · simp only [HandlerAuth.Register, hh] at hst
    rw [hs] at hst
    exact absurd hst (by decide)
  · rcases hr : h.authUC.Register x.env d with ⟨env1, resp, err⟩
    cases err with
    | some e =>
      rw [registerHandler_register_error h x r d resp env1 e hd hv hr] at hst
      exact absurd hst (handleError_not_success x.w e hfresh).2
    | none =>
      rcases hl : h.authUC.Login env1 { Email := d.Email, Password := d.Password } with
        ⟨env2, lresp, err2⟩
      cases err2 with
      | some e =>
        rw [registerHandler_login_error h x r d resp lresp env1 env2 e hd hv hr hl] at hst
        exact absurd hst (handleError_not_success x.w e hfresh).2
      | none =>
        cases lresp with
        | none =>
          simp only [HandlerAuth.Register, hh, hr, hl] at hst
          rw [hfresh] at hst
          exact absurd hst (by decide)
        | some lresp => exact ⟨d, resp, lresp, env1, env2, hd, hv, hr, hl⟩

/-- C25: the `Register` handler, on a response not yet started and a body
that decodes and validates: when the use case `Register` fails, `Login` is not
called, the response is the error handler's answer and no cookie is set; when
`Register` succeeds, `Login` is called next with the email and password of the
request, and when it fails the response is the error handler's answer for the
login error, no cookie is set and no further call follows; when both succeed
the response is 201 with the created user's id; and 201 is answered only when
both succeeded. -/
theorem C25_register_then_login {ω : Type} (h : HandlerAuth ω) (x : Exchange ω)
    (r : Request) (data : RegisterRequest) (hfresh : x.w.status = none)
    (hd : h.registerCodec.jsonDecode r.body = (data, none))
    (hv : h.registerCodec.validatorStruct data = none) :
    (∀ resp env1 e, h.authUC.Register x.env data = (env1, (resp, some e)) →
      (h.Register x r).events = x.events ++ [Event.Register data, Event.HandleError e] ∧
      (h.Register x r).env = env1 ∧
      (h.Register x r).w = BaseHandler.HandleError x.w e ∧
      (h.Register x r).w.setCookie = x.w.setCookie) ∧
    (∀ resp lresp env1 env2 e, h.authUC.Register x.env data = (env1, (resp, none)) →
      h.authUC.Login env1 { Email := data.Email, Password := data.Password } =
        (env2, (lresp, some e)) →
      (h.Register x r).events = x.events ++
        [Event.Register data, Event.Login { Email := data.Email, Password := data.Password },
         Event.HandleError e] ∧
      (h.Register x r).env = env2 ∧
      (h.Register x r).w = BaseHandler.HandleError x.w e ∧
      (h.Register x r).w.setCookie = x.w.setCookie) ∧
    (∀ resp lresp env1 env2, h.authUC.Register x.env data = (env1, (some resp, none)) →
      h.authUC.Login env1 { Email := data.Email, Password := data.Password } =
        (env2, (some lresp, none)) →
      (h.Register x r).events = x.events ++
        [Event.Register data, Event.Login { Email := data.Email, Password := data.Password }] ∧
      (h.Register x r).w.status = some 201 ∧
      (h.Register x r).w.body = x.w.body ++ [JsonData.register resp]) ∧
    ((h.Register x r).w.status = some 201 →
      ∃ resp lresp env1 env2,
        h.authUC.Register x.env data = (env1, (resp, none)) ∧
        h.authUC.Login env1 { Email := data.Email, Password := data.Password } =
          (env2, (some lresp, none))) := by
  refine ⟨?_, ?_, ?_, ?_⟩
  · intro resp env1 e hr
    rw [registerHandler_register_error h x r data resp env1 e hd hv hr]
    exact ⟨rfl, rfl, rfl, handleError_setCookie x.w e⟩
  · intro resp lresp env1 env2 e hr hl
    rw [registerHandler_login_error h x r data resp lresp env1 env2 e hd hv hr hl]
    exact ⟨rfl, rfl, rfl, handleError_setCookie x.w e⟩
  · intro resp lresp env1 env2 hr hl
    rw [registerHandler_both_ok h x r data resp lresp env1 env2 hd hv hr hl]
    have hw : (CookieManager.SetCookie x.w (sessionCookieData lresp.SessionID)).status =
        none := by
      simp [CookieManager.SetCookie, httpSetCookie, hfresh]
    have hb : (CookieManager.SetCookie x.w (sessionCookieData lresp.SessionID)).body =
        x.w.body := by
      simp [CookieManager.SetCookie, httpSetCookie, hfresh]
    obtain ⟨s1, s2, _⟩ := sendJsonResp_fresh _ 201 (JsonData.register resp) hw
    exact ⟨rfl, s1, by rw [s2, hb]⟩
  · intro hst
    obtain ⟨d, resp, lresp, env1, env2, hd', _, hr, hl⟩ :=
      registerHandler_created_only h x r hfresh hst
    have hdd : d = data := by
      have := hd'.symm.trans hd
      exact (Prod.mk.inj this).1
    subst hdd
    exact ⟨resp, lresp, env1, env2, hr, hl⟩

/-- C25, worked example: a registration with an email that is taken, at the
example handler. -/
theorem C25_register_then_login_witness :
    (exampleHandlerAuth.Register newExchange takenRegisterRequest).events =
      newExchange.events ++
        [Event.Register { FirstName := "John", LastName := "Doe",
                          Email := "taken@example.com", Password := "password123",
                          Phone := "" },
         Event.HandleError GoError.ErrUserAlreadyExists] ∧
    (exampleHandlerAuth.Register newExchange takenRegisterRequest).env = [] ∧
    (exampleHandlerAuth.Register newExchange takenRegisterRequest).w =
      BaseHandler.HandleError newExchange.w GoError.ErrUserAlreadyExists ∧
    (exampleHandlerAuth.Register newExchange takenRegisterRequest).w.setCookie =
      newExchange.w.setCookie :=
  (C25_register_then_login exampleHandlerAuth newExchange takenRegisterRequest
    { FirstName := "John", LastName := "Doe", Email := "taken@example.com",
      Password := "password123", Phone := "" }
    (by decide) (by decide) (by decide)).1 none [] GoError.ErrUserAlreadyExists (by decide)

/-! ## Request validation, profile update -/

/-- The validation of a registration request refuses an empty phone, whatever
the other fields are. -/
theorem validateRegisterRequest_empty_phone (lib : ValidatorLib) (d : RegisterRequest)
    (hp : d.Phone = "") : validateRegisterRequest lib d ≠ none := by
  unfold validateRegisterRequest validatorStruct
  have hf : (fieldError "RegisterRequest" "Phone"
      [("required", tagRequired d.Phone), ("e164", lib.e164 d.Phone)]).isSome = true := by
    simp [fieldError, tagRequired, hp]
  obtain ⟨m, hm⟩ := Option.isSome_iff_exists.mp hf
  have hmem : m ∈
      (registerRequestTags lib d).filterMap (fun f => fieldError "RegisterRequest" f.1 f.2) := by
    rw [List.mem_filterMap]
    refine ⟨("Phone", [("required", tagRequired d.Phone), ("e164", lib.e164 d.Phone)]), ?_, hm⟩
    simp [registerRequestTags]
  cases hl : (registerRequestTags lib d).filterMap
      (fun f => fieldError "RegisterRequest" f.1 f.2) with
  | nil => rw [hl] at hmem; cases hmem
  | cons m ms => simp

/-- C23, the code at the failing input: a registration whose first name, last
name, email and password are valid and whose phone is empty fails the
validation on the tag `required` of `Phone`; the handler answers 400 and the
use case `Register` is not called; the same data with a phone passes. -/
theorem C23_empty_phone_rejected :
    validateRegisterRequest lenientValidatorLib noPhoneRegister =
      some (GoError.external
        "Key: 'RegisterRequest.Phone' Error:Field validation for 'Phone' failed on the 'required' tag") ∧
    validateRegisterRequest lenientValidatorLib { noPhoneRegister with Phone := "+79991234567" } =
      none ∧
    (taggedHandlerAuth.Register newExchange registerRequest).w.status = some 400 ∧
    (taggedHandlerAuth.Register newExchange registerRequest).events = [] ∧
    (taggedHandlerAuth.Register newExchange registerRequest).w.setCookie = [] := by
  decide

/-- The `UserUpd` handler without an identity string in the context. -/
theorem userUpdHandler_no_identity {ω : Type} (h : HandlerUser ω) (x : Exchange ω)
    (r : Request) (hctx : ∀ s, r.ContextValue SessionIdAndUserId ≠ some (GoAny.str s)) :
    h.UserUpd x r = x.handleError GoError.ErrNoUserID := by
  unfold HandlerUser.UserUpd
  cases hv : r.ContextValue SessionIdAndUserId with
  | none => rfl
  | some v =>
    cases v with
    | str s => exact absurd hv (hctx s)
    | other t => rfl

/-- The `UserUpd` handler with identity `id` and a body that decodes and
validates: the use case is called with `id` and the decoded body. -/
theorem userUpdHandler_calls {ω : Type} (h : HandlerUser ω) (x : Exchange ω) (r : Request)
    (id : String) (data : UpdateRequest)
    (hctx : r.ContextValue SessionIdAndUserId = some (GoAny.str id))
    (hd : h.updateCodec.jsonDecode r.body = (data, none))
    (hv : h.updateCodec.validatorStruct data = none) :
    (h.UserUpd x r).env = (h.userUC.UserUpd x.env id data).1 := by
  have hh : BaseHandler.Handle h.updateCodec x.w r = (x.w, (some data, none)) := by
    simp [BaseHandler.Handle, DecodeBody, IsValid, hd, hv]
  rcases hu : h.userUC.UserUpd x.env id data with ⟨env1, err⟩
  unfold HandlerUser.UserUpd
  simp only [hctx, hh, hu]
  cases err with
  | some e => simp [Exchange.handleError]
  | none => simp

/-- C26: for a PUT /user request whose context carries the identity `id` and
whose body decodes to `data` and validates, the user handed to the directory's
`UpdateUser` has `id` as its id, whatever the body contains, and takes its
names, email, derived user name, phone and password digest from the body; a
request whose context holds no identity string is answered by the error
handler with `ErrNoUserID` and reaches neither the use case nor the
directory. -/
theorem C26_identity_from_gate {δ σ : Type} (uc : UserUseCase δ) (tbl : CaseTables)
    (entropy : Nat) (h : HandlerUser (World δ σ))
    (huc : h.userUC = uc.asInterface tbl entropy)
    (x : Exchange (World δ σ)) (r : Request) :
    (∀ id data digest,
      r.ContextValue SessionIdAndUserId = some (GoAny.str id) →
      h.updateCodec.jsonDecode r.body = (data, none) →
      h.updateCodec.validatorStruct data = none →
      Hashing uc.bcrypt entropy data.Password = (digest, none) →
      (h.UserUpd x r).env.calls =
        x.env.calls ++ [Call.UpdateUser (updatedUser tbl id data digest)] ∧
      (updatedUser tbl id data digest).UUID = id ∧
      (updatedUser tbl id data digest).FirstName = data.FirstName ∧
      (updatedUser tbl id data digest).LastName = data.LastName ∧
      (updatedUser tbl id data digest).Email = data.Email ∧
      (updatedUser tbl id data digest).UserName = specUserName tbl data.Email ∧
      (updatedUser tbl id data digest).Phone = some data.Phone ∧
      (updatedUser tbl id data digest).PasswordHash = digest) ∧
    ((∀ s, r.ContextValue SessionIdAndUserId ≠ some (GoAny.str s)) →
      h.UserUpd x r = x.handleError GoError.ErrNoUserID ∧
      (h.UserUpd x r).env = x.env ∧
      (h.UserUpd x r).events = x.events ++ [Event.HandleError GoError.ErrNoUserID]) := by
  constructor
  · intro id data digest hctx hd hv hh
    have hfields : ∀ b : UserBuilder,
        (b.WithUserName tbl data.Email).u.UUID = b.u.UUID ∧
        (b.WithUserName tbl data.Email).u.FirstName = b.u.FirstName ∧
        (b.WithUserName tbl data.Email).u.LastName = b.u.LastName := by
      intro b
      unfold UserBuilder.WithUserName
      split <;> exact ⟨rfl, rfl, rfl⟩
    refine ⟨?_, (hfields _).1, (hfields _).2.1, (hfields _).2.2, rfl, ?_, rfl, rfl⟩
    · rw [userUpdHandler_calls h x r id data hctx hd hv, huc]
      simp only [UserUseCase.asInterface, UserUseCase.UserUpd, hh]
      cases hu : (uc.repo.UpdateUser x.env.dir (updatedUser tbl id data digest)).2 <;>
        simp [hu]
    · rw [← withUserName_eq_spec tbl NewUserBuilder data.Email]
      simp [updatedUser, UserBuilder.Build, UserBuilder.WithPhone, UserBuilder.WithPassword,
        UserBuilder.WithEmail, UserBuilder.WithUserName, UserBuilder.WithLastName,
        UserBuilder.WithFirstName, UserBuilder.WithUUID]
      split <;> rfl
  · intro hctx
    have hl := userUpdHandler_no_identity h x r hctx
    exact ⟨hl, by rw [hl]; rfl, by rw [hl]; rfl⟩

/-- C26, worked example: the example user updates the profile at the example
handler. -/
theorem C26_identity_from_gate_witness :
    (exampleHandlerUser.UserUpd worldExchange updateRequest).env.calls =
      worldExchange.env.calls ++
        [Call.UpdateUser
          { UUID := "62a16b1d-bbfe-419e-aab7-54e6fb101067", FirstName := "Johnny",
            LastName := "Doe", UserName := "Johnny", Email := "johnny@example.com",
            Phone := some "+79991234567", PasswordHash := "$2a$10$newpassword1",
            Roles := [] }] :=
  ((C26_identity_from_gate exampleUserUC exampleTables 0 exampleHandlerUser rfl
      worldExchange updateRequest).1
    "62a16b1d-bbfe-419e-aab7-54e6fb101067"
    { FirstName := "Johnny", LastName := "Doe", Email := "johnny@example.com",
      Password := "newpassword1", Phone := "+79991234567" }
    "$2a$10$newpassword1" (by decide) (by decide) (by decide) (by decide)).1

/-! ## UUID check -/

theorem classesMatch_replicate_append (cls : CharClass) (n : Nat) (ps : List CharClass)
    (s : List Char) :
    classesMatch (List.replicate n cls ++ ps) s =
      match regexpMatchCount cls n s with
      | some s1 => classesMatch ps s1
      | none => false := by
  induction n generalizing s with
  | zero => simp [regexpMatchCount]
  | succ n ih =>
    cases s with
    | nil => simp [List.replicate_succ, classesMatch, regexpMatchCount]
    | cons c cs =>
      by_cases hc : cls.test c
      · simp [List.replicate_succ, classesMatch, regexpMatchCount, hc, ih]
      · simp [List.replicate_succ, classesMatch, regexpMatchCount, hc]

/-- Matching the counted classes is matching the classes written out. -/
theorem regexpMatchSeq_eq_classesMatch (pat : List (CharClass × Nat)) (s : List Char) :
    regexpMatchSeq pat s = classesMatch (regexpExpand pat) s := by
  induction pat generalizing s with
  | nil => cases s <;> simp [regexpMatchSeq, regexpExpand, classesMatch]
  | cons p rest ih =>
    obtain ⟨cls, n⟩ := p
    have he : regexpExpand ((cls, n) :: rest) = List.replicate n cls ++ regexpExpand rest := by
      simp [regexpExpand]
    rw [he, classesMatch_replicate_append]
    simp only [regexpMatchSeq]
    cases regexpMatchCount cls n s with
    | none => rfl
    | some s1 => exact ih s1

/-- Matching classes one character each, by positions. -/
theorem classesMatch_iff (ps : List CharClass) (s : List Char) :
    classesMatch ps s = true ↔
      s.length = ps.length ∧
        ∀ i c p, s.get? i = some c → ps.get? i = some p → p.test c = true := by
  induction ps generalizing s with
  | nil =>
    cases s with
    | nil => simp [classesMatch]
    | cons c cs => simp [classesMatch]
  | cons p ps ih =>
    cases s with
    | nil => simp [classesMatch]
    | cons c cs =>
      simp only [classesMatch, Bool.and_eq_true, ih, List.length_cons, Nat.add_right_cancel_iff]
      constructor
      · rintro ⟨hc, hl, hall⟩
        refine ⟨hl, ?_⟩
        intro i c' p' h1 h2
        cases i with
        | zero =>
          simp only [List.get?_cons_zero, Option.some.injEq] at h1 h2
          subst h1; subst h2; exact hc
        | succ j =>
          simp only [List.get?_cons_succ] at h1 h2
          exact hall j c' p' h1 h2
      · rintro ⟨hl, hall⟩
        refine ⟨hall 0 c p rfl rfl, hl, ?_⟩
        intro i c' p' h1 h2
        exact hall (i + 1) c' p' (by simpa using h1) (by simpa using h2)

/-- The classes of the expression of `IsUUID`, position by position. -/
theorem guidRegex_positions :
    (regexpExpand guidRegex).length = 36 ∧
    ∀ i, i < 36 →
      (regexpExpand guidRegex).get? i =
        some (if i = 8 ∨ i = 13 ∨ i = 18 ∨ i = 23 then CharClass.dash
              else CharClass.hexDigit) := by
  decide

/-- `IsUUID` is the format check the specification words. -/
theorem isUUID_eq_spec (s : String) : IsUUID s = specIsUUID s := by
  obtain ⟨hlen, hpos⟩ := guidRegex_positions
  have hiff : IsUUID s = true ↔ specIsUUID s = true := by
    unfold IsUUID specIsUUID
    simp only [regexpMatchSeq_eq_classesMatch, classesMatch_iff, hlen, Bool.and_eq_true,
      beq_iff_eq, List.all_eq_true, List.mem_range]
    constructor
    · rintro ⟨hl, hall⟩
      refine ⟨hl, ?_⟩
      intro i hi
      have hget : ∃ c, s.data.get? i = some c := by
        have : i < s.data.length := by omega
        exact ⟨s.data.get ⟨i, this⟩, List.get?_eq_get this⟩
      obtain ⟨c, hc⟩ := hget
      have ht := hall i c _ hc (hpos i hi)
      rw [hc]
      by_cases h4 : i = 8 ∨ i = 13 ∨ i = 18 ∨ i = 23
      · simp only [h4, if_true] at ht ⊢
        simpa [CharClass.test] using ht
      · simp only [h4, if_false] at ht ⊢
        simpa [CharClass.test] using ht
    · rintro ⟨hl, hall⟩
      refine ⟨hl, ?_⟩
      intro i c p hc hp
      have hi : i < 36 := by
        have := List.get?_eq_some.mp hc
        obtain ⟨h, _⟩ := this
        omega
      rw [hpos i hi] at hp
      have ht := hall i hi
      rw [hc] at ht
      simp only [Option.some.injEq] at hp
      subst hp
      by_cases h4 : i = 8 ∨ i = 13 ∨ i = 18 ∨ i = 23
      · simp only [h4, if_true] at ht ⊢
        simpa [CharClass.test] using ht
      · simp only [h4, if_false] at ht ⊢
        simpa [CharClass.test] using ht
  cases h1 : IsUUID s <;> cases h2 : specIsUUID s <;> simp_all

/-- C27: `IsUUID(s)` holds exactly when `s` has 36 characters with `-` at
positions 8, 13, 18 and 23 and a hexadecimal digit everywhere else, so a
trailing newline or extra characters are refused; `CheckUUID` answers 400 with
the error `uuid is required` for an empty path value, 400 with the error
`incorrect uuid format` for a non-empty value that is no UUID, and otherwise
returns the value with `ok = true` and leaves the response alone. -/
theorem C27_uuid_check (w : ResponseWriter) (r : Request) :
    (∀ s : String, IsUUID s = specIsUUID s) ∧
    IsUUID "123e4567-e89b-12d3-a456-426614174000" = true ∧
    IsUUID "123e4567-e89b-12d3-a456-426614174000\n" = false ∧
    IsUUID "123e4567-e89b-12d3-a456-4266141740000" = false ∧
    (r.PathValue "uuid" = "" →
      BaseHandler.CheckUUID w r =
        (BaseHandler.SendJsonResp w 400
          (JsonData.base { Status := 400, Message := "failed to process request due to uuid",
                           Error := "uuid is required" }), ("", false))) ∧
    (r.PathValue "uuid" ≠ "" → IsUUID (r.PathValue "uuid") = false →
      BaseHandler.CheckUUID w r =
        (BaseHandler.SendJsonResp w 400
          (JsonData.base { Status := 400, Message := "failed to process request due to uuid",
                           Error := "incorrect uuid format" }), ("", false))) ∧
    (IsUUID (r.PathValue "uuid") = true →
      BaseHandler.CheckUUID w r = (w, (r.PathValue "uuid", true))) ∧
    (w.status = none → (BaseHandler.CheckUUID w r).2.2 = false →
      (BaseHandler.CheckUUID w r).1.status = some 400) := by
  refine ⟨isUUID_eq_spec, by decide, by decide, by decide, ?_, ?_, ?_, ?_⟩
  · intro h
    simp [BaseHandler.CheckUUID, h, GoError.Error]
  · intro h1 h2
    simp [BaseHandler.CheckUUID, h1, h2, GoError.Error]
  · intro h
    have hne : r.PathValue "uuid" ≠ "" := by
      intro he
      rw [he] at h
      exact absurd h (by decide)
    simp [BaseHandler.CheckUUID, h, hne]
  · intro hfresh hok
    unfold BaseHandler.CheckUUID at hok ⊢
    dsimp only at hok ⊢
    split_ifs at hok ⊢
    · exact (sendJsonResp_fresh w _ _ hfresh).1
    · exact (sendJsonResp_fresh w _ _ hfresh).1

/-! ## Role-list encoding -/

/-- The number of pieces of a split is the number of separators plus one. -/
theorem stringsSplitScan_length (s cur : List Char) :
    (stringsSplitScan ',' s cur).length = s.count ',' + 1 := by
  induction s generalizing cur with
  | nil => simp [stringsSplitScan]
  | cons c cs ih =>
    by_cases hc : c = ','
    · subst hc
      simp [stringsSplitScan, ih]
    · have hb : (c == ',') = false := by simpa using hc
      simp [stringsSplitScan, hc, ih, List.count_cons, hb]

theorem count_flatten_comma (rest : List String) :
    ((rest.map (fun s => ',' :: s.data)).flatten).count ',' =
      rest.length + (rest.map (fun s => s.data.count ',')).sum := by
  induction rest with
  | nil => simp
  | cons r rs ih =>
    simp only [List.map_cons, List.flatten_cons, List.count_append, List.count_cons_self, ih,
      List.length_cons, List.sum_cons]
    omega

/-- The number of decoded roles: the number of roles plus the number of
commas inside them. -/
theorem stringsSplit_stringsJoin_length (roles : List String) (hne : roles ≠ []) :
    (stringsSplit (stringsJoin roles ",") ',').length =
      roles.length + (roles.map (fun s => s.data.count ',')).sum := by
  cases roles with
  | nil => exact absurd rfl hne
  | cons e rest =>
    unfold stringsSplit
    rw [List.length_map, stringsSplitScan_length, stringsJoin_data, List.count_append,
      count_flatten_comma]
    simp only [List.length_cons, List.map_cons, List.sum_cons]
    omega

theorem sum_eq_zero_of_counts (roles : List String)
    (h : (roles.map (fun s => s.data.count ',')).sum = 0) :
    ∀ role ∈ roles, ',' ∉ role.data := by
  induction roles with
  | nil => intro role hr; cases hr
  | cons e rest ih =>
    simp only [List.map_cons, List.sum_cons] at h
    intro role hr
    rcases List.mem_cons.mp hr with h1 | h1
    · subst h1
      exact List.count_eq_zero.mp (by omega)
    · exact ih (by omega) role h1

/-- C28: the role list written by `CreateSession` as a comma-joined string and
decoded by `GetSession` by splitting at the commas comes back unchanged
exactly when it is not empty and no role contains a comma; an empty list comes
back as the list holding the empty string, and a list with commas inside its
roles comes back longer by the number of those commas. -/
theorem C28_role_list_encoding (roles : List String) :
    (stringsSplit (stringsJoin roles ",") ',' = roles ↔
      (roles ≠ [] ∧ ∀ role ∈ roles, ',' ∉ role.data)) ∧
    stringsSplit (stringsJoin [] ",") ',' = [""] ∧
    (roles ≠ [] →
      (stringsSplit (stringsJoin roles ",") ',').length =
        roles.length + (roles.map (fun s => s.data.count ',')).sum) ∧
    stringsSplit (stringsJoin ["read,write"] ",") ',' = ["read", "write"] ∧
    (∀ (r : SessionsRepo) (st : RedisStore) (uuid name : String), 0 < r.TTLKeys →
      r.GetSession
          (r.CreateSession st { UserUUID := uuid, UserName := name, UserRoles := roles }
            none none).1 uuid none =
        (some { UserUUID := uuid, UserName := name,
                UserRoles := stringsSplit (stringsJoin roles ",") ',' }, none)) := by
  refine ⟨⟨?_, ?_⟩, by decide, stringsSplit_stringsJoin_length roles, by decide, ?_⟩
  · intro h
    have hne : roles ≠ [] := by
      intro he
      subst he
      exact absurd h (by decide)
    refine ⟨hne, ?_⟩
    have hl := stringsSplit_stringsJoin_length roles hne
    rw [h] at hl
    exact sum_eq_zero_of_counts roles (by omega)
  · rintro ⟨hne, hc⟩
    exact stringsSplit_stringsJoin roles hne hc
  · intro r st uuid name hTTL
    exact getSession_after_create r st
      { UserUUID := uuid, UserName := name, UserRoles := roles } hTTL

/-! ## Shape of the derived user name -/

/-- Upper-casing and lower-casing an ASCII letter or digit gives an ASCII
letter or digit. -/
theorem isAlnumASCII_case (tbl : CaseTables) (c : Char) (hc : isAlnumASCII c = true) :
    isAlnumASCII (unicodeToUpper tbl c) = true ∧ isAlnumASCII (unicodeToLower tbl c) = true := by
  have hof : ∀ n : Nat, n < 128 → (Char.ofNat n).toNat = n := by
    intro n hn
    interval_cases n <;> rfl
  simp only [isAlnumASCII, Bool.or_eq_true, Bool.and_eq_true, decide_eq_true_eq] at hc
  have h127 : c.toNat ≤ 127 := by omega
  constructor
  · unfold unicodeToUpper
    rw [if_pos h127]
    by_cases hl : 97 ≤ c.toNat ∧ c.toNat ≤ 122
    · rw [if_pos hl]
      have := hof (c.toNat - 32) (by omega)
      simp only [isAlnumASCII, this, Bool.or_eq_true, Bool.and_eq_true, decide_eq_true_eq]
      omega
    · rw [if_neg hl]
      simp only [isAlnumASCII, Bool.or_eq_true, Bool.and_eq_true, decide_eq_true_eq]
      omega
  · unfold unicodeToLower
    rw [if_pos h127]
    by_cases hl : 65 ≤ c.toNat ∧ c.toNat ≤ 90
    · rw [if_pos hl]
      have := hof (c.toNat + 32) (by omega)
      simp only [isAlnumASCII, this, Bool.or_eq_true, Bool.and_eq_true, decide_eq_true_eq]
      omega
    · rw [if_neg hl]
      simp only [isAlnumASCII, Bool.or_eq_true, Bool.and_eq_true, decide_eq_true_eq]
      omega

/-- The pieces of a split hold no separator, are together no longer than the
input, and are all empty exactly when the input holds separators only. -/
theorem splitOnP_pieces (p : Char → Bool) (l : List Char) :
    (∀ seg ∈ l.splitOnP p, ∀ c ∈ seg, p c = false) ∧
    (l.splitOnP p).flatten.length ≤ l.length ∧
    ((∀ seg ∈ l.splitOnP p, seg = []) ↔ ∀ c ∈ l, p c = true) := by
  induction l with
  | nil => simp
  | cons x xs ih =>
    obtain ⟨ih1, ih2, ih3⟩ := ih
    rw [List.splitOnP_cons]
    by_cases hx : p x = true
    · simp only [hx, if_true]
      refine ⟨?_, ?_, ?_⟩
      · intro seg hseg c hc
        rcases List.mem_cons.mp hseg with h | h
        · subst h; cases hc
        · exact ih1 seg h c hc
      · simp only [List.flatten_cons, List.nil_append, List.length_cons]
        omega
      · constructor
        · intro h c hc
          rcases List.mem_cons.mp hc with h1 | h1
          · subst h1; exact hx
          · exact ih3.mp (fun seg hs => h seg (List.mem_cons_of_mem _ hs)) c h1
        · intro h seg hseg
          rcases List.mem_cons.mp hseg with h1 | h1
          · exact h1
          · exact ih3.mpr (fun c hc => h c (List.mem_cons_of_mem _ hc)) seg h1
    · have hxf : p x = false := by simpa using hx
      simp only [hxf, Bool.false_eq_true, if_false]
      cases hL : List.splitOnP p xs with
      | nil => exact absurd hL (List.splitOnP_ne_nil p xs)
      | cons hd tl =>
        rw [hL] at ih1 ih2 ih3
        simp only [List.modifyHead]
        refine ⟨?_, ?_, ?_⟩
        · intro seg hseg c hc
          rcases List.mem_cons.mp hseg with h | h
          · subst h
            rcases List.mem_cons.mp hc with h1 | h1
            · subst h1; exact hxf
            · exact ih1 hd (List.mem_cons_self _ _) c h1
          · exact ih1 seg (List.mem_cons_of_mem _ h) c hc
        · simp only [List.flatten_cons, List.length_append, List.length_cons] at ih2 ⊢
          omega
        · constructor
          · intro h
            have := h (x :: hd) (List.mem_cons_self _ _)
            cases this
          · intro h
            have := h x (List.mem_cons_self _ _)
            rw [hxf] at this
            cases this

theorem specCapitalize_length (tbl : CaseTables) (seg : List Char) :
    (specCapitalize tbl seg).length = seg.length := by
  cases seg <;> simp [specCapitalize]

theorem specCapitalize_alnum (tbl : CaseTables) (seg : List Char)
    (h : ∀ c ∈ seg, isAlnumASCII c = true) :
    ∀ c ∈ specCapitalize tbl seg, isAlnumASCII c = true := by
  cases seg with
  | nil => intro c hc; cases hc
  | cons a as =>
    intro c hc
    simp only [specCapitalize, List.mem_cons, List.mem_map] at hc
    rcases hc with h1 | ⟨d, hd, h1⟩
    · subst h1
      exact (isAlnumASCII_case tbl a (h a (List.mem_cons_self _ _))).1
    · subst h1
      exact (isAlnumASCII_case tbl d (h d (List.mem_cons_of_mem _ hd))).2

theorem flatten_map_capitalize_length (tbl : CaseTables) (L : List (List Char)) :
    ((L.filter (fun seg => !seg.isEmpty)).map (specCapitalize tbl)).flatten.length =
      L.flatten.length := by
  induction L with
  | nil => rfl
  | cons seg rest ih =>
    cases seg with
    | nil => simpa using ih
    | cons a as =>
      simp only [List.filter_cons, List.isEmpty_cons, Bool.not_false, if_true, List.map_cons,
        List.flatten_cons, List.length_append, ih, specCapitalize_length]

/-- The characters of the user name the specification describes. -/
theorem specUserName_shape (tbl : CaseTables) (email : String) :
    (∀ c ∈ (specUserName tbl email).data, isAlnumASCII c = true) ∧
    (specUserName tbl email).length ≤ (specLocalPart email.data).length ∧
    ((specUserName tbl email) = "" ↔
      ∀ c ∈ specLocalPart email.data, isAlnumASCII c = false) := by
  obtain ⟨h1, h2, h3⟩ :=
    splitOnP_pieces (fun c => !isAlnumASCII c) (specLocalPart email.data)
  refine ⟨?_, ?_, ?_⟩
  · intro c hc
    simp only [specUserName, specSegments, List.mem_flatten, List.mem_map,
      List.mem_filter] at hc
    obtain ⟨capped, ⟨seg, ⟨hseg, _⟩, hcap⟩, hcin⟩ := hc
    subst hcap
    refine specCapitalize_alnum tbl seg ?_ c hcin
    intro d hd
    have := h1 seg hseg d hd
    simpa using this
  · simp only [specUserName, specSegments, String.length]
    rw [flatten_map_capitalize_length]
    exact h2
  · have hs : specUserName tbl email = "" ↔
        ((specSegments (specLocalPart email.data)).map (specCapitalize tbl)).flatten = [] := by
      unfold specUserName
      constructor
      · intro h
        exact congrArg String.data h
      · intro h
        rw [h]
    rw [hs]
    have hlen : ((specSegments (specLocalPart email.data)).map (specCapitalize tbl)).flatten = []
        ↔ (List.splitOnP (fun c => !isAlnumASCII c) (specLocalPart email.data)).flatten = [] := by
      rw [← List.length_eq_zero, ← List.length_eq_zero (l := List.flatten _)]
      unfold specSegments
      rw [flatten_map_capitalize_length]
    rw [hlen, List.flatten_eq_nil_iff]
    rw [h3]
    constructor
    · intro h c hc
      simpa using h c hc
    · intro h c hc
      simpa using h c hc

/-- C29: for every input string, the user name produced by `WithUserName`
consists of ASCII letters and digits only, is no longer than the part before
the first `@` and hence than the input, is determined by the part before the
first `@` alone (nothing after it enters the name), and is empty exactly when
that part holds no ASCII letter or digit. -/
theorem C29_userName_shape (tbl : CaseTables) (b : UserBuilder) (email : String) :
    (∀ c ∈ (b.WithUserName tbl email).u.UserName.data, isAlnumASCII c = true) ∧
    (b.WithUserName tbl email).u.UserName.length ≤ (specLocalPart email.data).length ∧
    (b.WithUserName tbl email).u.UserName.length ≤ email.length ∧
    (∀ email2 : String, specLocalPart email2.data = specLocalPart email.data →
      (b.WithUserName tbl email2).u.UserName = (b.WithUserName tbl email).u.UserName) ∧
    (∀ rest : List Char,
      (b.WithUserName tbl (String.mk (specLocalPart email.data ++ '@' :: rest))).u.UserName =
        (b.WithUserName tbl email).u.UserName) ∧
    ((b.WithUserName tbl email).u.UserName = "" ↔
      ∀ c ∈ specLocalPart email.data, isAlnumASCII c = false) ∧
    (b.WithUserName tbl "иван.петров@example.com").u.UserName = "" ∧
    (b.WithUserName tbl "a.b@c@d").u.UserName = "AB" ∧
    (b.WithUserName tbl "...@example.com").u.UserName = "" := by
  obtain ⟨h1, h2, h3⟩ := specUserName_shape tbl email
  have hle : (specLocalPart email.data).length ≤ email.length := by
    unfold specLocalPart
    exact (List.takeWhile_sublist _).length_le
  have hdep : ∀ e1 e2 : String, specLocalPart e1.data = specLocalPart e2.data →
      (b.WithUserName tbl e1).u.UserName = (b.WithUserName tbl e2).u.UserName := by
    intro e1 e2 h
    rw [withUserName_eq_spec, withUserName_eq_spec]
    unfold specUserName
    rw [h]
  refine ⟨?_, ?_, ?_, ?_, ?_, ?_, rfl, rfl, rfl⟩
  · rw [withUserName_eq_spec]; exact h1
  · rw [withUserName_eq_spec]; exact h2
  · rw [withUserName_eq_spec]; exact le_trans h2 hle
  · intro email2 h
    exact hdep email2 email h
  · intro rest
    apply hdep
    show specLocalPart (specLocalPart email.data ++ '@' :: rest) = specLocalPart email.data
    unfold specLocalPart
    have hall : ∀ c ∈ List.takeWhile (fun c => c != '@') email.data, (c != '@') = true := by
      intro c hc
      exact List.mem_takeWhile_imp (p := fun c => c != '@') hc
    generalize List.takeWhile (fun c => c != '@') email.data = pre at hall
    induction pre with
    | nil => simp [List.takeWhile]
    | cons a as ih =>
      have ha := hall a (List.mem_cons_self _ _)
      simp only [List.cons_append, List.takeWhile_cons, ha, if_true]
      rw [ih (fun c hc => hall c (List.mem_cons_of_mem _ hc))]
  · rw [withUserName_eq_spec]; exact h3

/-! ## CORS middleware -/

/-- An origin is allowed exactly when it is equal to an entry of the list. -/
theorem isAllowedOrigin_iff (origin : String) (allowedDomains : List String) :
    isAllowedOrigin origin allowedDomains = true ↔ origin ∈ allowedDomains := by
  induction allowedDomains with
  | nil => simp [isAllowedOrigin]
  | cons d ds ih =>
    unfold isAllowedOrigin
    by_cases h : origin = d
    · simp [h]
    · simp [h, ih]

/-- What the CORS middleware hands to the next handler, in terms of the
response writer it prepared. -/
theorem cors_cases {ω : Type} (allowedDomains : List String) (next : Handler ω)
    (x : Exchange ω) (r : Request) :
    ∃ w : ResponseWriter,
      (x.w.status = none → r.HeaderGet "Origin" ≠ "" →
        isAllowedOrigin (r.HeaderGet "Origin") allowedDomains = false →
        w.status = some 403 ∧
        w.body = x.w.body ++ [JsonData.raw "Error: Origin is not allowed by CORS policy"]) ∧
      (r.method = "OPTIONS" →
        CORS allowedDomains next x r = { x with w := w.WriteHeader 204 }) ∧
      (r.method ≠ "OPTIONS" →
        CORS allowedDomains next x r =
          next { x with w := w, events := x.events ++ [Event.Next r] } r) := by
  refine ⟨((if r.HeaderGet "Origin" = "" then
        (x.w.HeaderAdd "Vary" "Origin").HeaderSet "Access-Control-Allow-Credentials" "true"
      else if isAllowedOrigin (r.HeaderGet "Origin") allowedDomains then
        ((x.w.HeaderAdd "Vary" "Origin").HeaderSet "Access-Control-Allow-Origin"
          (r.HeaderGet "Origin")).HeaderSet "Access-Control-Allow-Credentials" "true"
      else
        (((x.w.HeaderAdd "Vary" "Origin").HeaderSet "Content-Type"
          "text/plain; charset=utf-8").WriteHeader 403).Write
          (JsonData.raw "Error: Origin is not allowed by CORS policy")).HeaderSet
        "Access-Control-Allow-Methods" "GET, POST, PUT, PATCH, DELETE, OPTIONS").HeaderSet
        "Access-Control-Allow-Headers" "Content-Type, Authorization", ?_, ?_, ?_⟩
  · intro hs ho ha
    simp [ho, ha, ResponseWriter.HeaderSet, ResponseWriter.HeaderAdd,
      ResponseWriter.WriteHeader, ResponseWriter.Write, hs]
  · intro hm
    simp only [CORS, hm, if_true]
  · intro hm
    simp only [CORS, hm, if_false]

/-- C30: the CORS middleware answers a request whose non-empty `Origin` is not
in the allowed domains with status 403 and the rejection text, but the
rejection branch does not return: unless the method is `OPTIONS`, the next
handler is then invoked on the same request. The example `POST` from
`https://evil.example` is answered 403 and served by the next handler all the
same. An `OPTIONS` request never reaches the next handler, and an origin is
allowed exactly when it equals an entry of the list. -/
theorem C30_cors_rejection_reaches_next :
    ((CORS exampleAllowedDomains servingHandler newExchange foreignOriginRequest).w.status
        = some 403 ∧
      (CORS exampleAllowedDomains servingHandler newExchange foreignOriginRequest).events
        = [Event.Next foreignOriginRequest] ∧
      (CORS exampleAllowedDomains servingHandler newExchange foreignOriginRequest).env
        = ["served POST"] ∧
      (CORS exampleAllowedDomains servingHandler newExchange foreignOriginRequest).w.body
        = [JsonData.raw "Error: Origin is not allowed by CORS policy",
           JsonData.raw "account data"]) ∧
    ((CORS exampleAllowedDomains servingHandler newExchange foreignPreflightRequest).w.status
        = some 403 ∧
      (CORS exampleAllowedDomains servingHandler newExchange foreignPreflightRequest).events
        = [] ∧
      (CORS exampleAllowedDomains servingHandler newExchange foreignPreflightRequest).env
        = []) ∧
    (∀ {ω : Type} (allowedDomains : List String) (next : Handler ω) (x : Exchange ω)
        (r : Request),
      (isAllowedOrigin (r.HeaderGet "Origin") allowedDomains = true ↔
        r.HeaderGet "Origin" ∈ allowedDomains) ∧
      ∃ w : ResponseWriter,
        (x.w.status = none → r.HeaderGet "Origin" ≠ "" →
          r.HeaderGet "Origin" ∉ allowedDomains →
          w.status = some 403 ∧
          w.body = x.w.body ++
            [JsonData.raw "Error: Origin is not allowed by CORS policy"]) ∧
        (r.method = "OPTIONS" →
          CORS allowedDomains next x r = { x with w := w.WriteHeader 204 }) ∧
        (r.method ≠ "OPTIONS" →
          CORS allowedDomains next x r =
            next { x with w := w, events := x.events ++ [Event.Next r] } r)) := by
  refine ⟨by decide, by decide, ?_⟩
  intro ω allowedDomains next x r
  refine ⟨isAllowedOrigin_iff _ _, ?_⟩
  obtain ⟨w, h1, h2, h3⟩ := cors_cases allowedDomains next x r
  refine ⟨w, fun hs ho hn => h1 hs ho ?_, h2, h3⟩
  cases hb : isAllowedOrigin (r.HeaderGet "Origin") allowedDomains with
  | false => rfl
  | true => exact absurd ((isAllowedOrigin_iff _ _).mp hb) hn

end CoreFAPI
